import Mathlib

/-! appswitch: a verification development.

A shallow embedding of `appswitch/main.c` (the command-line application
switcher) and theorems about its option parser `getargs`, its process matcher
`matchApplication`, its status decoder `osstatusstr` and its dispatcher `main`.

Conventions of the embedding.

* A C string is a Lean `String` whose characters stand for the C `char`s, one
  character per `char`; `strlen` is `String.length` and `strcmp(a, b) == 0` is
  `a = b`.
* `exit(n)` is the constructor `Exit.exit n text`, where `text` is what the
  program itself wrote to standard error before exiting.
* The C library and the operating system are outside the repository.  The
  library functions the code calls (`getopt`, `sscanf`, `printf`, `snprintf`)
  are given by their documented behaviour; the operating system is a parameter
  (`World`) that fixes what every call returns, and every call the program
  makes to the Process Manager, to the Apple Event Manager and to `usleep` is
  recorded in a trace.
* Memory is not modelled: `malloc`, `strdup` and `asprintf` succeed, a
  `CFString` is the same Lean `String` as the C string it was made from, and
  the numbers written with `%ld` are in the range of `long`.
-/

namespace AppSwitch

/-! ## Data model (lines 28-65) -/

/-- The type `OSStatus` of the system headers: a signed status code. -/
abbrev OSStatus := Int

/-- The success status `noErr` of the system headers. -/
def noErr : OSStatus := 0

/-- The Process Manager status `procNotFound` of the system headers. -/
def procNotFound : OSStatus := -600

/-- The Process Manager status `appIsDaemon` of the system headers. -/
def appIsDaemon : OSStatus := -606

/-- The CoreGraphics status `kCGErrorIllegalArgument` of the system headers. -/
def kCGErrorIllegalArgument : OSStatus := 1001

/-- The File Manager status `fnfErr` of the system headers. -/
def fnfErr : OSStatus := -43

/-- The anonymous enum of `OPTS.matchType`. -/
inductive MatchType where
  | MATCH_UNKNOWN | MATCH_FRONT | MATCH_CREATOR | MATCH_BUNDLE_ID
  | MATCH_NAME | MATCH_PID | MATCH_PATH | MATCH_ALL
  deriving DecidableEq, Repr

/-- The anonymous enum of `OPTS.appAction`. -/
inductive AppAction where
  | APP_NONE | APP_SWITCH | APP_SHOW | APP_HIDE | APP_QUIT
  | APP_KILL | APP_KILL_HARD | APP_LIST | APP_PRINT_PID
  deriving DecidableEq, Repr

/-- The anonymous enum of `OPTS.action`. -/
inductive GlobalAction where
  | ACTION_NONE | ACTION_SHOW_ALL | ACTION_HIDE_OTHERS
  deriving DecidableEq, Repr

/-- The anonymous enum of `OPTS.finalAction`. -/
inductive FinalAction where
  | FINAL_NONE | FINAL_SWITCH
  deriving DecidableEq, Repr

open MatchType AppAction GlobalAction FinalAction

/-- The type `OSType` of the system headers, kept as its four `char`s in
memory order. -/
structure OSType where
  c0 : Char
  c1 : Char
  c2 : Char
  c3 : Char
  deriving DecidableEq, Repr

/-- The read `*(OSTypePtr)s` of the first four `char`s of a C string; the
terminating NUL stands for what lies beyond its end. -/
def OSType.read (s : String) : OSType :=
  { c0 := s.data.getD 0 '\x00', c1 := s.data.getD 1 '\x00',
    c2 := s.data.getD 2 '\x00', c3 := s.data.getD 3 '\x00' }

/-- The global `OPTS`; a `NULL` pointer is `none`. -/
structure Options where
  creator : OSType
  bundleID : Option String
  name : Option String
  pid : Int
  path : Option String
  matchType : MatchType
  appAction : AppAction
  longList : Bool
  action : GlobalAction
  finalAction : FinalAction
  deriving DecidableEq, Repr

/-- The initialiser of `OPTS` (line 49); `kLSUnknownCreator` is `'????'`. -/
def OPTS : Options :=
  { creator := ⟨'?', '?', '?', '?'⟩, bundleID := none, name := none, pid := -1,
    path := none, matchType := MATCH_UNKNOWN, appAction := APP_NONE,
    longList := false, action := ACTION_NONE, finalAction := FINAL_NONE }

/-- Either the function returns a value or the process has exited with a
status, having written `stderr` to standard error. -/
inductive Exit (α : Type) where
  | ret (a : α)
  | exit (status : Nat) (stderr : String)
  deriving DecidableEq, Repr

/-! ## The formatted-output functions of the C library -/

/-- One argument of a `printf` call. -/
inductive PrintfArg where
  | int (v : Int)
  | chr (c : Char)
  | str (s : String)
  deriving DecidableEq, Repr

/-- The flag, field width and precision of a conversion specification read
so far. -/
structure ConvSpec where
  left : Bool
  width : Nat
  prec : Option Nat
  deriving DecidableEq, Repr

/-- The decimal numeral of an integer, as `%d`, `%ld` and `%lu` write it. -/
def decimal (v : Int) : List Char :=
  if v < 0 then '-' :: (Nat.repr v.natAbs).data else (Nat.repr v.toNat).data

/-- Padding with blanks to the field width: on the right with the flag `-`,
on the left without it. -/
def padTo (left : Bool) (width : Nat) (body : List Char) : List Char :=
  if left then body ++ List.replicate (width - body.length) ' '
  else List.replicate (width - body.length) ' ' ++ body

/-- The text one conversion writes for its argument.  Of the conversions of
the C library these are the ones the program uses: `d` and `u` (a decimal
numeral), `c` (one `char`) and `s` (a string, cut to the precision when there
is one), each padded to the field width. -/
def convert (sp : ConvSpec) (conv : Char) (arg : PrintfArg) : List Char :=
  match arg with
  | .int v => if conv = 'd' ∨ conv = 'u' then padTo sp.left sp.width (decimal v) else []
  | .chr c => if conv = 'c' then padTo sp.left sp.width [c] else []
  | .str s =>
    if conv = 's' then
      padTo sp.left sp.width (match sp.prec with
        | some p => s.data.take p
        | none => s.data)
    else []

/-- The interpretation of a format, one character at a time.  The first
parameter is `none` in ordinary text and holds the specification read so far
inside a conversion: `%%` writes a percent sign, `-` sets the flag, digits
extend the width or, after a `.`, the precision, the length modifier `l` is
skipped, and any other character is the conversion, which takes the next
argument.  Arguments left over at the end are ignored. -/
def formatAux : Option ConvSpec → List Char → List PrintfArg → List Char
  | _, [], _ => []
  | none, c :: fmt, args =>
    if c = '%' then formatAux (some ⟨false, 0, none⟩) fmt args
    else c :: formatAux none fmt args
  | some sp, c :: fmt, args =>
    if c = '%' then '%' :: formatAux none fmt args
    else if c = '-' then formatAux (some { sp with left := true }) fmt args
    else if c = '.' then formatAux (some { sp with prec := some 0 }) fmt args
    else if c.isDigit then
      match sp.prec with
      | none => formatAux (some { sp with width := 10 * sp.width + (c.toNat - 48) }) fmt args
      | some p => formatAux (some { sp with prec := some (10 * p + (c.toNat - 48)) }) fmt args
    else if c = 'l' then formatAux (some sp) fmt args
    else
      match args with
      | [] => formatAux none fmt []
      | a :: rest => convert sp c a ++ formatAux none fmt rest

/-- The text `printf(fmt, args...)` writes; `asprintf` stores the same text. -/
def printf (fmt : String) (args : List PrintfArg) : String :=
  String.mk (formatAux none fmt.data args)

/-- The text `snprintf(str, size, fmt, args...)` stores in `str`: at most
`size - 1` characters of the formatted text. -/
def snprintf (size : Nat) (fmt : String) (args : List PrintfArg) : String :=
  String.mk ((formatAux none fmt.data args).take (size - 1))

/-! ## usage, errexit (lines 67-89, 122-129) -/

/-- The text `usage` prints (lines 68-86). -/
def usageText (APP_NAME : String) : String :=
  printf "usage: %s" [.str APP_NAME] ++
    " [-sShHqkFlLP] [-c creator] [-i bundleID] [-a name] [-p pid] [path]\n" ++
  "  -s            show application, bring windows to front (do not switch)\n" ++
  "  -S            show all applications\n" ++
  "  -h            hide application\n" ++
  "  -H            hide other applications\n" ++
  "  -q            quit application\n" ++
  "  -k            kill application (SIGINT)\n" ++
  "  -K            kill application hard (SIGKILL)\n" ++
  "  -l            list applications\n" ++
  "  -L            list applications including full paths and bundle identifiers\n" ++
  "  -P            print application process ID\n" ++
  "  -F            bring current application\x27s windows to front\n" ++
  "  -c creator    match application by four-character creator code (\x27ToyS\x27)\n" ++
  "  -i bundle ID  match application by bundle identifier (com.apple.scripteditor)\n" ++
  "  -p pid        match application by process identifier [slower]\n" ++
  "  -a name       match application by name\n" ++
  "appswitch 1.0 (c) 2003 Nicholas Riley <http://web.sabi.net/nriley/software/>.\n" ++
  "Please send bugs, suggestions, etc. to <appswitch@sabi.net>.\n"

/-- The function `usage` (lines 67-89): print the synopsis, `exit(1)`. -/
def usage {α : Type} (APP_NAME : String) : Exit α :=
  .exit 1 (usageText APP_NAME)

/-- The function `errexit` (lines 122-129): print `APP_NAME: `, the formatted
message and a newline, `exit(1)`. -/
def errexit {α : Type} (APP_NAME : String) (fmt : String) (args : List PrintfArg) : Exit α :=
  .exit 1 (printf "%s: " [.str APP_NAME] ++ printf fmt args ++ "\n")

/-! ## The C library as used by getargs -/

/-- The option string of line 138. -/
def opts : String := "c:i:p:a:sShHqkKlLPF"

/-- What one call of `getopt` returns: an option letter without argument, an
option letter with `optarg`, or `'?'`. -/
inductive GetoptResult where
  | flag (ch : Char)
  | withArg (ch : Char) (optarg : String)
  | badch
  deriving DecidableEq, Repr

/-- How `getopt` classifies a character against the option string. -/
inductive OptKind where
  | illegal | noArg | needsArg
  deriving DecidableEq, Repr

/-- The search `strchr(ostr, optopt)` of `getopt` and its look at the next
character; `':'` is never an option letter. -/
def optKind (ostr : List Char) (c : Char) : OptKind :=
  if c = ':' then .illegal
  else match ostr.dropWhile (fun x => x != c) with
    | [] => .illegal
    | _ :: ':' :: _ => .needsArg
    | _ => .noArg

/-- The results `getopt` returns while it scans the letters of one argument
(after its leading `-`), and the option letter still waiting for its argument
when the argument ends right after a letter that takes one. -/
def scanCluster (ostr : List Char) : List Char → List GetoptResult × Option Char
  | [] => ([], none)
  | c :: cs =>
    match optKind ostr c with
    | .illegal => (.badch :: (scanCluster ostr cs).1, (scanCluster ostr cs).2)
    | .noArg => (.flag c :: (scanCluster ostr cs).1, (scanCluster ostr cs).2)
    | .needsArg =>
      match cs with
      | [] => ([], some c)
      | _ :: _ => ([.withArg c (String.mk cs)], none)

/-- The whole run of `getopt(argc, argv, opts)` over `argv[1..]`, called until
it returns -1: the successive results, and the arguments left from `optind`
on.  This is POSIX `getopt` as in the BSD C library: scanning stops at the
first argument that does not start with `-`, at a lone `-`, and after `--`;
an option that takes an argument uses the rest of its own argument or else the
whole next one, and returns `'?'` when there is none.  `getopt` keeps its own
state (`optind` and its place in the current argument), which the body of the
loop in `getargs` never touches, so the results do not depend on that body.
The first parameter is the option letter waiting for its argument. -/
def getoptScan (ostr : List Char) : Option Char → List String → List GetoptResult × List String
  | some _, [] => ([.badch], [])
  | some c, a :: rest =>
    (.withArg c a :: (getoptScan ostr none rest).1, (getoptScan ostr none rest).2)
  | none, [] => ([], [])
  | none, a :: rest =>
    match a.data with
    | '-' :: c :: cs =>
      if c = '-' ∧ cs = [] then ([], rest)
      else
        ((scanCluster ostr (c :: cs)).1
            ++ (getoptScan ostr (scanCluster ostr (c :: cs)).2 rest).1,
          (getoptScan ostr (scanCluster ostr (c :: cs)).2 rest).2)
    | _ => ([], a :: rest)

/-- The C library predicate `isspace` in the C locale. -/
def isspace (c : Char) : Bool :=
  c = ' ' || c = '\t' || c = '\n' || c = '\x0b' || c = '\x0c' || c = '\r'

/-- The value of a run of decimal digits. -/
def digitsValue (ds : List Char) : Nat :=
  ds.foldl (fun acc c => 10 * acc + (c.toNat - 48)) 0

/-- Conversion of an integer to the 32-bit two's complement `int`. -/
def toInt32 (v : Int) : Int :=
  (v + 2147483648) % 4294967296 - 2147483648

/-- The limits of `long`, the 64-bit type in which the library converts the
digits of `%d` before it stores the result in the `int`. -/
def LONG_MAX : Int := 9223372036854775807

/-- The lower limit of `long`. -/
def LONG_MIN : Int := -9223372036854775808

/-- The input item of the conversion `%d` and the integer it denotes: the
conversion skips white space, takes an optional sign and then the longest run
of decimal digits, and ignores what follows.  `none` when there is no digit:
`sscanf` then returns 0 or `EOF`. -/
def scanDecimal (s : String) : Option Int :=
  let cs := s.data.dropWhile isspace
  let neg := decide (cs.head? = some '-')
  let ds := if cs.head? = some '-' ∨ cs.head? = some '+' then cs.tail else cs
  let digs := ds.takeWhile Char.isDigit
  if digs = [] then none
  else some (if neg = true then -(digitsValue digs : Int) else (digitsValue digs : Int))

/-- The value the library converts the input item to, as `strtol` does: the
integer itself, or the nearer limit of `long` when it is out of range. -/
def strtolValue (v : Int) : Int :=
  if v > LONG_MAX then LONG_MAX else if v < LONG_MIN then LONG_MIN else v

/-- The call `sscanf(s, "%d", &n)`: `some n` when it returns 1, `none` when it
returns 0 or `EOF`.  The integer read is converted as by `strtol`, saturating
at the limits of `long`, and the `long` is then stored in the `int`, which
keeps its low 32 bits.  For an integer in the range of `int` the value stored
is the integer read; beyond that range the C standard leaves the behaviour
undefined, and this is what the C library of the platform does. -/
def sscanf_d (s : String) : Option Int :=
  match scanDecimal s with
  | none => none
  | some v => some (toInt32 (strtolValue v))

/-! ## getargs (lines 131-234) -/

/-- The message of the guard on the criterion flags. -/
def onlyOneMatch : String := "choose only one of -c, -i, -p, -a options"

/-- The message of the guard on the primary-action flags (lines 165-189). -/
def onlyOneAction : String := "choose only one of -s, -h, -q, -k, -K, -l, -L, -P options"

/-- The message of the guard of `-P` (line 194), which leaves `-L` out. -/
def onlyOneActionP : String := "choose only one of -s, -h, -q, -k, -K, -l, -P options"

/-- The body of the `switch (ch)` (lines 141-210) for one result of `getopt`.
A letter that takes an argument comes with its `optarg`; the `default` label
takes `'?'` and every other value. -/
def optStep (APP_NAME : String) (o : Options) : GetoptResult → Exit Options
  | .withArg ch optarg =>
    if ch = 'p' then
      if o.matchType ≠ MATCH_UNKNOWN then errexit APP_NAME onlyOneMatch []
      else match sscanf_d optarg with
        | none => errexit APP_NAME "invalid process identifier (argument of -p)" []
        | some n =>
          if n < 0 then errexit APP_NAME "invalid process identifier (argument of -p)" []
          else .ret { o with pid := n, matchType := MATCH_PID }
    else if ch = 'c' then
      if o.matchType ≠ MATCH_UNKNOWN then errexit APP_NAME onlyOneMatch []
      else if optarg.length ≠ 4 then
        errexit APP_NAME "creator (argument of -c) must be four characters long" []
      else .ret { o with creator := OSType.read optarg, matchType := MATCH_CREATOR }
    else if ch = 'i' then
      if o.matchType ≠ MATCH_UNKNOWN then errexit APP_NAME onlyOneMatch []
      else .ret { o with bundleID := some optarg, matchType := MATCH_BUNDLE_ID }
    else if ch = 'a' then
      if o.matchType ≠ MATCH_UNKNOWN then errexit APP_NAME onlyOneMatch []
      else .ret { o with name := some optarg, matchType := MATCH_NAME }
    else usage APP_NAME
  | .flag ch =>
    if ch = 's' then
      if o.appAction ≠ APP_NONE then errexit APP_NAME onlyOneAction []
      else .ret { o with appAction := APP_SHOW }
    else if ch = 'h' then
      if o.appAction ≠ APP_NONE then errexit APP_NAME onlyOneAction []
      else .ret { o with appAction := APP_HIDE }
    else if ch = 'q' then
      if o.appAction ≠ APP_NONE then errexit APP_NAME onlyOneAction []
      else .ret { o with appAction := APP_QUIT }
    else if ch = 'k' then
      if o.appAction ≠ APP_NONE then errexit APP_NAME onlyOneAction []
      else .ret { o with appAction := APP_KILL }
    else if ch = 'K' then
      if o.appAction ≠ APP_NONE then errexit APP_NAME onlyOneAction []
      else .ret { o with appAction := APP_KILL_HARD }
    else if ch = 'l' then
      if o.appAction ≠ APP_NONE then errexit APP_NAME onlyOneAction []
      else .ret { o with appAction := APP_LIST }
    else if ch = 'L' then
      if o.appAction ≠ APP_NONE then errexit APP_NAME onlyOneAction []
      else .ret { o with appAction := APP_LIST, longList := true }
    else if ch = 'P' then
      if o.appAction ≠ APP_NONE then errexit APP_NAME onlyOneActionP []
      else .ret { o with appAction := APP_PRINT_PID }
    else if ch = 'S' then
      if o.action ≠ ACTION_NONE then errexit APP_NAME "choose -S, -H or neither option" []
      else .ret { o with action := ACTION_SHOW_ALL }
    else if ch = 'H' then
      if o.action ≠ ACTION_NONE then errexit APP_NAME "choose -S, -H or neither option" []
      else .ret { o with action := ACTION_HIDE_OTHERS }
    else if ch = 'F' then
      if o.finalAction ≠ FINAL_NONE then errexit APP_NAME "choose only one -F option" []
      else .ret { o with finalAction := FINAL_SWITCH }
    else usage APP_NAME
  | .badch => usage APP_NAME

/-- The `while` loop of lines 140-211 over the successive results of
`getopt`: the first `exit` ends it. -/
def optLoop (APP_NAME : String) : List GetoptResult → Options → Exit Options
  | [], o => .ret o
  | r :: rs, o =>
    match optStep APP_NAME o r with
    | .ret o1 => optLoop APP_NAME rs o1
    | .exit status text => .exit status text

/-- Lines 213-232 of `getargs`: what is done with the options once the loop
is over, `rest` being the arguments from `optind` on. -/
def resolve (APP_NAME : String) (o : Options) (rest : List String) : Exit Options :=
  if o.matchType ≠ MATCH_UNKNOWN ∧ rest.length ≠ 0 then usage APP_NAME
  else
    let r : Exit Options :=
      if o.matchType = MATCH_UNKNOWN then
        match rest with
        | [] =>
          if o.appAction = APP_LIST then .ret { o with matchType := MATCH_ALL }
          else if o.action ≠ ACTION_NONE ∨ o.finalAction ≠ FINAL_NONE then
            .ret { o with matchType := MATCH_FRONT }
          else usage APP_NAME
        | [p] => .ret { o with path := some p, matchType := MATCH_PATH }
        | _ => usage APP_NAME
      else .ret o
    match r with
    | .exit status text => .exit status text
    | .ret o1 =>
      if o1.matchType ≠ MATCH_FRONT ∧ o1.appAction = APP_NONE then
        .ret { o1 with appAction := APP_SWITCH }
      else .ret o1

/-- The function `getargs` (lines 131-234) on `argv`, started from the
initial `OPTS`; `APP_NAME` is `argv[0]`, as `main` sets it.  With `argc = 0`
`getopt` returns -1 at once and leaves `optind = 1`, so that `argc - optind`
is -1, neither 0 nor 1, and line 228 calls `usage`. -/
def getargs (argv : List String) : Exit Options :=
  match argv with
  | [] => usage ""
  | [APP_NAME] => usage APP_NAME
  | APP_NAME :: args =>
    match optLoop APP_NAME (getoptScan opts.data none args).1 OPTS with
    | .exit status text => .exit status text
    | .ret o => resolve APP_NAME o (getoptScan opts.data none args).2

/-! ## osstatusstr, osstatusexit (lines 57-65, 91-120) -/

/-- The table `ERRS` (lines 57-65), with its closing entry of status 0. -/
def ERRS : List (OSStatus × String) :=
  [ (appIsDaemon, "application is background-only\n"),
    (procNotFound, "unable to connect to system service.\nAre you logged in?"),
    (kCGErrorIllegalArgument, "window server error.\nAre you logged in?"),
    (fnfErr, "file not found"),
    (0, "") ]

/-- The loop of lines 98-102 over the table: it stops at the first entry of
status 0 and leaves `errDesc` at `"unknown error"` when it finds none. -/
def lookupErr (err : OSStatus) : List (OSStatus × String) → String
  | [] => "unknown error"
  | entry :: rest =>
    if entry.1 = 0 then "unknown error"
    else if entry.1 = err then entry.2
    else lookupErr err rest

/-- The function `osstatusstr` (lines 91-110), `malloc` succeeding: the
buffer has `strlen(errDesc) + 10` bytes and `snprintf` fills it. -/
def osstatusstr (err : OSStatus) : String :=
  let errDesc := lookupErr err ERRS
  let len := errDesc.length + 10
  snprintf len "%s (%ld)" [.str errDesc, .int err]

/-- The function `osstatusexit` (lines 112-120): print `APP_NAME: `, the
formatted message, `: `, the decoded status and a newline, `exit(1)`. -/
def osstatusexit {α : Type} (APP_NAME : String) (err : OSStatus) (fmt : String)
    (args : List PrintfArg) : Exit α :=
  .exit 1 (printf "%s: " [.str APP_NAME] ++ printf fmt args
    ++ printf ": %s\n" [.str (osstatusstr err)])

/-! ## The operating system -/

/-- The type `CPSProcessSerNum` (a `ProcessSerialNumber`). -/
structure CPSProcessSerNum where
  hi : Nat
  lo : Nat
  deriving DecidableEq, Repr

/-- The constant `kNoProcess` of the system headers. -/
def kNoProcess : Nat := 0

/-- The fields of `CPSProcessInfoRec` (declared in a system header) that the
program reads.  `UnixPID` is unsigned (line 430). -/
structure CPSProcessInfoRec where
  ExecFileType : OSType
  ExecFileCreator : OSType
  UnixPID : Nat
  deriving DecidableEq, Repr

/-- One running application as enumeration delivers it: the serial number
`CPSGetNextProcess` stores, and the record, name and path `CPSGetProcessInfo`
stores for it. -/
structure Process where
  psn : CPSProcessSerNum
  info : CPSProcessInfoRec
  name : String
  path : String
  deriving DecidableEq, Repr

/-- What the CoreFoundation calls of `bundleIdentifierForApplication` find
for a path: no URL, no bundle at the URL, a bundle without identifier, or a
bundle with its identifier. -/
inductive BundleLookup where
  | noURL
  | noBundle
  | noIdentifier
  | identifier (bundleID : String)
  deriving DecidableEq, Repr

/-- The calls to the operating system that the trace records. -/
inductive OSCall where
  | InitCursor
  | CPSGetFrontProcess
  | CPSGetNextProcess (psn : CPSProcessSerNum)
  | CPSGetProcessInfo (psn : CPSProcessSerNum)
  | CPSSetFrontProcess (psn : CPSProcessSerNum)
  | CPSPostShowReq (psn : CPSProcessSerNum)
  | CPSPostHideReq (psn : CPSProcessSerNum)
  | AECreateDesc (psn : CPSProcessSerNum)
  | AECreateAppleEvent
  | AESendMessage
  | CPSPostKillRequest (psn : CPSProcessSerNum) (hard : Bool)
  | CPSPostShowAllReq (psn : CPSProcessSerNum)
  | CPSPostHideMostReq (psn : CPSProcessSerNum)
  | usleep (usec : Nat)
  deriving DecidableEq, Repr

/-- The operating system as the program meets it in one run.

* `procs` is the finite sequence of applications that successive calls of
  `CPSGetNextProcess` deliver, and `endStatus` the status, other than
  `noErr`, of the call that follows the last one.
* `status trace call` is the status `call` returns when `trace` holds the
  calls made before it; `front trace` is the status and serial number of
  `CPSGetFrontProcess`.
* `bundle path` is what CoreFoundation finds at `path`.
* `ioctlOk` tells whether one of the three `TIOCGWINSZ` requests succeeded and
  `ws_col` is the content of `ws.ws_col`, an `unsigned short`, after them.
* `uninit` is the indeterminate content of the variable `info` of `main`
  before anything is stored in it. -/
structure World where
  procs : List Process
  endStatus : OSStatus
  endStatus_ne : endStatus ≠ noErr
  status : List OSCall → OSCall → OSStatus
  front : List OSCall → OSStatus × CPSProcessSerNum
  bundle : String → BundleLookup
  ioctlOk : Bool
  ws_col : Fin 65536
  uninit : CPSProcessInfoRec

/-- The state of a run after a function has returned or exited: the calls
made so far, the text written to standard output so far, and the result. -/
structure Run (α : Type) where
  trace : List OSCall
  stdout : String
  result : Exit α
  deriving DecidableEq, Repr

/-! ## frontApplication, bundleIdentifierForApplication, quitApplication
(lines 236-288) -/

/-- The function `frontApplication` (lines 236-244). -/
def frontApplication (w : World) (APP_NAME : String) (trace : List OSCall) (stdout : String) :
    Run CPSProcessSerNum :=
  if (w.front trace).1 ≠ noErr then
    { trace := trace ++ [.CPSGetFrontProcess], stdout := stdout,
      result := osstatusexit APP_NAME (w.front trace).1 "can\x27t get frontmost process" [] }
  else
    { trace := trace ++ [.CPSGetFrontProcess], stdout := stdout,
      result := .ret (w.front trace).2 }

/-- The function `bundleIdentifierForApplication` (lines 246-264): `none` when
it returns false, otherwise the pointer it stores, `NULL` being `none`. -/
def bundleIdentifierForApplication (w : World) (path : String) : Option (Option String) :=
  match w.bundle path with
  | .noURL => none
  | .noBundle => some none
  | .noIdentifier => some none
  | .identifier bundleID => some (some bundleID)

/-- The function `quitApplication` (lines 266-288): the trace after it and
the status it returns. -/
def quitApplication (w : World) (trace : List OSCall) (psn : CPSProcessSerNum) :
    List OSCall × OSStatus :=
  if w.status trace (.AECreateDesc psn) ≠ noErr then
    (trace ++ [.AECreateDesc psn], w.status trace (.AECreateDesc psn))
  else if w.status (trace ++ [.AECreateDesc psn]) .AECreateAppleEvent ≠ noErr then
    (trace ++ [.AECreateDesc psn, .AECreateAppleEvent],
      w.status (trace ++ [.AECreateDesc psn]) .AECreateAppleEvent)
  else
    (trace ++ [.AECreateDesc psn, .AECreateAppleEvent, .AESendMessage],
      w.status (trace ++ [.AECreateDesc psn, .AECreateAppleEvent]) .AESendMessage)

/-! ## matchApplication (lines 290-404) -/

/-- The string `banner` of line 310. -/
def banner : String := "       PSN   PID TYPE CREA NAME                "

/-- The string `formatButPath` of line 316. -/
def formatButPath : String := "%8ld.%ld %5ld %c%c%c%c %c%c%c%c %-20.20s"

/-- The variable `termwidth` after lines 308-315: 80 unless one of the
`ioctl` requests succeeded or `ws.ws_col` is not 0. -/
def termwidth (w : World) : Int :=
  if w.ioctlOk = true ∨ w.ws_col ≠ 0 then (w.ws_col.val : Int) else 80

/-- The variable `pathlen` of line 317, an `int`. -/
def pathlen (w : World) : Int :=
  toInt32 (termwidth w - (banner.length : Int) - 1)

/-- Lines 319-327: the header written to standard output and the format of
the rows, for the long form, for a path field of at least 4 characters, and
otherwise. -/
def listFormat (w : World) (o : Options) : String × String :=
  if o.longList = true then
    (printf "%s PATH (bundle identifier)\n" [.str banner],
      printf "%s %%s" [.str formatButPath])
  else if pathlen w ≥ 4 then
    (printf "%s PATH\n" [.str banner],
      printf "%s %%-%d.%ds" [.str formatButPath, .int (pathlen w), .int (pathlen w)])
  else ("", formatButPath)

/-- The macro `CXX` of line 367, `char` being signed: a `char` below the
blank is replaced by a blank. -/
def CXX (c : Char) : Char :=
  if c.toNat < 32 ∨ 128 ≤ c.toNat then ' ' else c

/-- The macro `OSTYPE_CHAR_ARGS` of line 368. -/
def OSTYPE_CHAR_ARGS (t : OSType) : List PrintfArg :=
  [.chr (CXX t.c0), .chr (CXX t.c1), .chr (CXX t.c2), .chr (CXX t.c3)]

/-- The comparison `CFStringCompare(a, b, kCFCompareCaseInsensitive) ==
kCFCompareEqualTo`, as equality after lower-casing. -/
def caseInsensitiveEq (a b : String) : Bool :=
  a.data.map Char.toLower = b.data.map Char.toLower

/-- The message of lines 353 and 375. -/
def noBundleLocation : String :=
  "can\x27t get bundle location for process \x27%s\x27 (PSN %ld.%ld, pid %ld)"

/-- The `switch (OPTS.matchType)` of lines 338-364 for one application:
`true` when control reaches line 365 (a match), `false` on `continue`. -/
def matchRecord (w : World) (APP_NAME : String) (o : Options) (p : Process) : Exit Bool :=
  match o.matchType with
  | MATCH_ALL => .ret true
  | MATCH_CREATOR => .ret (decide (o.creator = p.info.ExecFileCreator))
  | MATCH_NAME => .ret (decide (o.name = some p.name))
  | MATCH_PID => .ret (decide (o.pid % 4294967296 = (p.info.UnixPID : Int) % 4294967296))
  | MATCH_PATH => .ret (decide (o.path = some p.path))
  | MATCH_BUNDLE_ID =>
    match bundleIdentifierForApplication w p.path with
    | none =>
      errexit APP_NAME noBundleLocation
        [.str p.name, .int p.psn.hi, .int p.psn.lo, .int p.info.UnixPID]
    | some none => .ret false
    | some (some bundleID) =>
      match o.bundleID with
      | some wanted => .ret (caseInsensitiveEq wanted bundleID)
      | none => .ret false
  | _ => errexit APP_NAME "internal error: invalid match type" []

/-- Lines 365-394 for one matching application when the action is
`APP_LIST`: the row appended to standard output, and the exit of line 375
when the bundle location cannot be had in the long form.  The bundle
identifier is a C string already, so that lines 377-384 come down to the
`printf` of line 388. -/
def printRow (w : World) (APP_NAME : String) (o : Options) (format : String) (p : Process)
    (stdout : String) : String × Exit Unit :=
  let row := printf format
    ([.int p.psn.hi, .int p.psn.lo, .int p.info.UnixPID]
      ++ OSTYPE_CHAR_ARGS p.info.ExecFileType ++ OSTYPE_CHAR_ARGS p.info.ExecFileCreator
      ++ [.str p.name, .str p.path])
  if o.longList = true then
    match bundleIdentifierForApplication w p.path with
    | none =>
      (stdout ++ row, errexit APP_NAME noBundleLocation
        [.str p.name, .int p.psn.hi, .int p.psn.lo, .int p.info.UnixPID])
    | some none => (stdout ++ row ++ "\n", .ret ())
    | some (some bundleID) =>
      (stdout ++ row ++ printf " (%s)" [.str bundleID] ++ "\n", .ret ())
  else (stdout ++ row ++ "\n", .ret ())

/-- The loop of lines 330-397 and what follows it (lines 398-403), over the
applications still to be delivered.  `psn` is the serial number last stored
and `info` the record last stored, `none` before the first. -/
def enumerate (w : World) (APP_NAME : String) (o : Options) (format : String) :
    List Process → CPSProcessSerNum → Option CPSProcessInfoRec → List OSCall → String →
    Run (CPSProcessSerNum × Option CPSProcessInfoRec)
  | [], psn, info, trace, stdout =>
    if w.endStatus ≠ procNotFound then
      { trace := trace ++ [.CPSGetNextProcess psn], stdout := stdout,
        result := osstatusexit APP_NAME w.endStatus "can\x27t get next process" [] }
    else if o.appAction = APP_LIST then
      match frontApplication w APP_NAME (trace ++ [.CPSGetNextProcess psn]) stdout with
      | ⟨trace1, stdout1, .ret front⟩ =>
        { trace := trace1, stdout := stdout1, result := .ret (front, info) }
      | ⟨trace1, stdout1, .exit status text⟩ =>
        { trace := trace1, stdout := stdout1, result := .exit status text }
    else
      { trace := trace ++ [.CPSGetNextProcess psn], stdout := stdout,
        result := errexit APP_NAME "can\x27t find matching process" [] }
  | p :: rest, psn, _, trace, stdout =>
    if w.status (trace ++ [.CPSGetNextProcess psn]) (.CPSGetProcessInfo p.psn) ≠ noErr then
      { trace := trace ++ [.CPSGetNextProcess psn, .CPSGetProcessInfo p.psn], stdout := stdout,
        result := osstatusexit APP_NAME
          (w.status (trace ++ [.CPSGetNextProcess psn]) (.CPSGetProcessInfo p.psn))
          "can\x27t get information for process PSN %ld.%ld" [.int p.psn.hi, .int p.psn.lo] }
    else
      match matchRecord w APP_NAME o p with
      | .exit status text =>
        { trace := trace ++ [.CPSGetNextProcess psn, .CPSGetProcessInfo p.psn],
          stdout := stdout, result := .exit status text }
      | .ret false =>
        enumerate w APP_NAME o format rest p.psn (some p.info)
          (trace ++ [.CPSGetNextProcess psn, .CPSGetProcessInfo p.psn]) stdout
      | .ret true =>
        if o.appAction = APP_LIST then
          match printRow w APP_NAME o format p stdout with
          | (stdout1, .exit status text) =>
            { trace := trace ++ [.CPSGetNextProcess psn, .CPSGetProcessInfo p.psn],
              stdout := stdout1, result := .exit status text }
          | (stdout1, .ret _) =>
            enumerate w APP_NAME o format rest p.psn (some p.info)
              (trace ++ [.CPSGetNextProcess psn, .CPSGetProcessInfo p.psn]) stdout1
        else
          { trace := trace ++ [.CPSGetNextProcess psn, .CPSGetProcessInfo p.psn],
            stdout := stdout, result := .ret (p.psn, some p.info) }

/-- The function `matchApplication` (lines 290-404), the two `malloc`s
succeeding: the serial number it returns and the record it has stored in
`*info`, `none` when it has stored nothing. -/
def matchApplication (w : World) (APP_NAME : String) (o : Options) (trace : List OSCall)
    (stdout : String) : Run (CPSProcessSerNum × Option CPSProcessInfoRec) :=
  if o.matchType = MATCH_FRONT then
    match frontApplication w APP_NAME trace stdout with
    | ⟨trace1, stdout1, .ret front⟩ =>
      { trace := trace1, stdout := stdout1, result := .ret (front, none) }
    | ⟨trace1, stdout1, .exit status text⟩ =>
      { trace := trace1, stdout := stdout1, result := .exit status text }
  else if o.appAction = APP_LIST then
    enumerate w APP_NAME o (listFormat w o).2 w.procs ⟨kNoProcess, kNoProcess⟩ none trace
      (stdout ++ (listFormat w o).1)
  else
    enumerate w APP_NAME o "" w.procs ⟨kNoProcess, kNoProcess⟩ none trace stdout

/-! ## main (lines 406-463) -/

/-- The `switch (OPTS.appAction)` of lines 419-434: the status stored in
`err` and the verb.  `info` is the record `matchApplication` stored; where it
stored none, `UnixPID` is read from the indeterminate `uninit`. -/
def appActionStep (w : World) (APP_NAME : String) (o : Options) (psn : CPSProcessSerNum)
    (info : Option CPSProcessInfoRec) (trace : List OSCall) (stdout : String) :
    Run (OSStatus × String) :=
  match o.appAction with
  | APP_NONE => ⟨trace, stdout, .ret (noErr, "")⟩
  | APP_LIST => ⟨trace, stdout, .ret (noErr, "")⟩
  | APP_SWITCH =>
    ⟨trace ++ [.CPSSetFrontProcess psn], stdout,
      .ret (w.status trace (.CPSSetFrontProcess psn), "set front")⟩
  | APP_SHOW =>
    ⟨trace ++ [.CPSPostShowReq psn], stdout, .ret (w.status trace (.CPSPostShowReq psn), "show")⟩
  | APP_HIDE =>
    ⟨trace ++ [.CPSPostHideReq psn], stdout, .ret (w.status trace (.CPSPostHideReq psn), "hide")⟩
  | APP_QUIT =>
    ⟨(quitApplication w trace psn).1, stdout, .ret ((quitApplication w trace psn).2, "quit")⟩
  | APP_KILL =>
    ⟨trace ++ [.CPSPostKillRequest psn false], stdout,
      .ret (w.status trace (.CPSPostKillRequest psn false), "kill")⟩
  | APP_KILL_HARD =>
    ⟨trace ++ [.CPSPostKillRequest psn true], stdout,
      .ret (w.status trace (.CPSPostKillRequest psn true), "kill")⟩
  | APP_PRINT_PID =>
    if (info.getD w.uninit).UnixPID ≤ 0 then
      ⟨trace, stdout, errexit APP_NAME "can\x27t get process ID" []⟩
    else
      ⟨trace, stdout ++ printf "%lu\n" [.int (info.getD w.uninit).UnixPID], .ret (noErr, "")⟩

/-- The `switch (OPTS.action)` of lines 437-443: the status stored in `err`
and the verb; `err` keeps the `noErr` it had when there is no action. -/
def actionStep (w : World) (o : Options) (psn : CPSProcessSerNum) (trace : List OSCall) :
    List OSCall × OSStatus × String :=
  match o.action with
  | ACTION_NONE => (trace, noErr, "")
  | ACTION_SHOW_ALL =>
    (trace ++ [.CPSPostShowAllReq psn], w.status trace (.CPSPostShowAllReq psn), "show all")
  | ACTION_HIDE_OTHERS =>
    (trace ++ [.CPSPostHideMostReq psn], w.status trace (.CPSPostHideMostReq psn), "hide other")

/-- The statement `err = CPSPostShowReq(&psn) || CPSSetFrontProcess(&psn)` of
line 454: the second call is made only when the first returns 0, and `err`
is 1 or 0. -/
def showAndSetFront (w : World) (psn : CPSProcessSerNum) (trace : List OSCall) :
    List OSCall × OSStatus :=
  if w.status trace (.CPSPostShowReq psn) ≠ 0 then (trace ++ [.CPSPostShowReq psn], 1)
  else if w.status (trace ++ [.CPSPostShowReq psn]) (.CPSSetFrontProcess psn) ≠ 0 then
    (trace ++ [.CPSPostShowReq psn, .CPSSetFrontProcess psn], 1)
  else (trace ++ [.CPSPostShowReq psn, .CPSSetFrontProcess psn], 0)

/-- How a run of the program ends: the calls made, the text on standard
output, the exit status and the text on standard error. -/
structure Final where
  trace : List OSCall
  stdout : String
  status : Nat
  stderr : String
  deriving DecidableEq, Repr

/-- The end of the run at a call that exits. -/
def Final.atExit (trace : List OSCall) (stdout : String) : Exit Empty → Final
  | .exit status text => ⟨trace, stdout, status, text⟩

/-- Lines 446-462 of `main`: the final action, then `exit(0)`. -/
def finalStep (w : World) (APP_NAME : String) (o : Options) (trace : List OSCall)
    (stdout : String) : Final :=
  match o.finalAction with
  | FINAL_NONE => ⟨trace, stdout, 0, ""⟩
  | FINAL_SWITCH =>
    match frontApplication w APP_NAME trace stdout with
    | ⟨trace1, stdout1, .exit status text⟩ => ⟨trace1, stdout1, status, text⟩
    | ⟨trace1, stdout1, .ret psn⟩ =>
      let trace2 := if o.action ≠ ACTION_NONE then trace1 ++ [.usleep 750000] else trace1
      if (showAndSetFront w psn trace2).2 ≠ noErr then
        Final.atExit (showAndSetFront w psn trace2).1 stdout1
          (osstatusexit APP_NAME (showAndSetFront w psn trace2).2 "can\x27t %s"
            [.str "bring current application\x27s windows to the front"])
      else ⟨(showAndSetFront w psn trace2).1, stdout1, 0, ""⟩

/-- Lines 437-462 of `main`: the global action, then the final action. -/
def globalStep (w : World) (APP_NAME : String) (o : Options) (psn : CPSProcessSerNum)
    (trace : List OSCall) (stdout : String) : Final :=
  if (actionStep w o psn trace).2.1 ≠ noErr then
    Final.atExit (actionStep w o psn trace).1 stdout
      (osstatusexit APP_NAME (actionStep w o psn trace).2.1 "can\x27t %s processes"
        [.str (actionStep w o psn trace).2.2])
  else finalStep w APP_NAME o (actionStep w o psn trace).1 stdout

/-- Lines 418-462 of `main`: the primary action on the process
`matchApplication` returned, then the global and the final action. -/
def dispatch (w : World) (APP_NAME : String) (o : Options) (psn : CPSProcessSerNum)
    (info : Option CPSProcessInfoRec) (trace : List OSCall) (stdout : String) : Final :=
  match appActionStep w APP_NAME o psn info trace stdout with
  | ⟨trace1, stdout1, .exit status text⟩ => ⟨trace1, stdout1, status, text⟩
  | ⟨trace1, stdout1, .ret (err, verb)⟩ =>
    if err ≠ noErr then
      Final.atExit trace1 stdout1 (osstatusexit APP_NAME err "can\x27t %s process" [.str verb])
    else globalStep w APP_NAME o psn trace1 stdout1

/-- Lines 413-462 of `main`, for the options `getargs` has left in `OPTS`. -/
def run (w : World) (APP_NAME : String) (o : Options) : Final :=
  match matchApplication w APP_NAME o [.InitCursor] "" with
  | ⟨trace, stdout, .exit status text⟩ => ⟨trace, stdout, status, text⟩
  | ⟨trace, stdout, .ret (psn, info)⟩ => dispatch w APP_NAME o psn info trace stdout

/-- The function `main` (lines 406-463); `APP_NAME` is `argv[0]`. -/
def main (w : World) (argv : List String) : Final :=
  match getargs argv with
  | .exit status text => ⟨[], "", status, text⟩
  | .ret o => run w (argv.headD "") o


/-! ## Vocabulary of the statements -/

/-- A result of `getopt` for one of the criterion flags `-c`, `-i`, `-p`, `-a`. -/
def isCriterionFlag : GetoptResult → Bool
  | .withArg ch _ => ch = 'c' || ch = 'i' || ch = 'p' || ch = 'a'
  | _ => false

/-- A result of `getopt` for one of the primary-action flags `-s`, `-h`, `-q`,
`-k`, `-K`, `-l`, `-L`, `-P`. -/
def isActionFlag : GetoptResult → Bool
  | .flag ch => ch = 's' || ch = 'h' || ch = 'q' || ch = 'k' || ch = 'K' || ch = 'l'
      || ch = 'L' || ch = 'P'
  | _ => false

/-- A result of `getopt` for `-l` or `-L`. -/
def isListFlag : GetoptResult → Bool
  | .flag ch => ch = 'l' || ch = 'L'
  | _ => false

/-- A result of `getopt` for `-S` or `-H`. -/
def isGlobalFlag : GetoptResult → Bool
  | .flag ch => ch = 'S' || ch = 'H'
  | _ => false

/-- A result of `getopt` for `-F`. -/
def isFinalFlag : GetoptResult → Bool
  | .flag ch => ch = 'F'
  | _ => false

/-- The action a primary-action flag letter stands for. -/
def flagAction (ch : Char) : AppAction :=
  if ch = 's' then APP_SHOW
  else if ch = 'h' then APP_HIDE
  else if ch = 'q' then APP_QUIT
  else if ch = 'k' then APP_KILL
  else if ch = 'K' then APP_KILL_HARD
  else if ch = 'l' then APP_LIST
  else if ch = 'L' then APP_LIST
  else if ch = 'P' then APP_PRINT_PID
  else APP_NONE

/-- The successive results of `getopt` for `argv`. -/
def getoptResults (argv : List String) : List GetoptResult :=
  (getoptScan opts.data none argv.tail).1

/-- The positional arguments of `argv`: those from `optind` on once `getopt`
has returned -1. -/
def positional (argv : List String) : List String :=
  (getoptScan opts.data none argv.tail).2

/-- The reading of "a non-negative integer" for the argument of `-p`: a
decimal numeral, that is, one or more decimal digits and nothing else. -/
def specNonNegativeInteger (s : String) : Bool :=
  !s.data.isEmpty && s.data.all Char.isDigit

/-- The match type is one of the six criteria the enumeration loop knows. -/
def isCriterion (m : MatchType) : Bool :=
  m = MATCH_CREATOR || m = MATCH_NAME || m = MATCH_PID || m = MATCH_PATH
    || m = MATCH_BUNDLE_ID || m = MATCH_ALL

/-- The application satisfies the criterion: the `switch` of lines 338-364
reaches line 365 for it. -/
def satisfies (w : World) (o : Options) (p : Process) : Bool :=
  match matchRecord w "" o p with
  | .ret b => b
  | .exit _ _ => false

/-- The bundle location of the application cannot be had while the criterion
is the bundle identifier (line 352). -/
def locationFails (w : World) (o : Options) (p : Process) : Bool :=
  o.matchType = MATCH_BUNDLE_ID && w.bundle p.path = .noURL

/-- The calls that fetch the applications of a list one after the other,
`psn` being the serial number stored before the first of them. -/
def fetchCalls : CPSProcessSerNum → List Process → List OSCall
  | _, [] => []
  | psn, p :: ps => .CPSGetNextProcess psn :: .CPSGetProcessInfo p.psn :: fetchCalls p.psn ps

/-- The serial number stored after the applications of a list have been
fetched. -/
def lastPsn : CPSProcessSerNum → List Process → CPSProcessSerNum
  | psn, [] => psn
  | _, p :: ps => lastPsn p.psn ps

/-- The record stored after the applications of a list have been fetched. -/
def lastInfo : Option CPSProcessInfoRec → List Process → Option CPSProcessInfoRec
  | info, [] => info
  | _, p :: ps => lastInfo (some p.info) ps

/-- The row of one application in a listing that does not fail: the text of
line 369, the bundle identifier in parentheses in the long form when there is
one, and the newline of line 393. -/
def rowOf (w : World) (o : Options) (format : String) (p : Process) : String :=
  printf format
      ([.int p.psn.hi, .int p.psn.lo, .int p.info.UnixPID]
        ++ OSTYPE_CHAR_ARGS p.info.ExecFileType ++ OSTYPE_CHAR_ARGS p.info.ExecFileCreator
        ++ [.str p.name, .str p.path])
    ++ ((if o.longList = true then
          match w.bundle p.path with
          | .identifier bundleID => printf " (%s)" [.str bundleID]
          | _ => ""
        else "") ++ "\n")

/-- The rows of the applications of a list that satisfy the criterion, in
the order of the list. -/
def listRows (w : World) (o : Options) (format : String) : List Process → String
  | [] => ""
  | p :: ps => (if satisfies w o p = true then rowOf w o format p else "") ++ listRows w o format ps

/-- The loop passes this application without ending the run: the match type
is a criterion, its bundle location can be had where it is asked for, and if
it satisfies the criterion then the action is `APP_LIST`. -/
def passes (w : World) (o : Options) (p : Process) : Prop :=
  isCriterion o.matchType = true ∧ locationFails w o p = false ∧
  (satisfies w o p = true →
    o.appAction = APP_LIST ∧ (o.longList = true → w.bundle p.path ≠ .noURL))

/-- The application Finder of the example of the specification. -/
def finder : Process :=
  { psn := ⟨0, 1⟩, info := ⟨⟨'F', 'N', 'D', 'R'⟩, ⟨'M', 'A', 'C', 'S'⟩, 100⟩,
    name := "Finder", path := "/System/Library/CoreServices/Finder.app" }

/-- The application Safari of the example of the specification. -/
def safari : Process :=
  { psn := ⟨0, 2⟩, info := ⟨⟨'A', 'P', 'P', 'L'⟩, ⟨'s', 'f', 'r', 'i'⟩, 200⟩,
    name := "Safari", path := "/Applications/Safari.app" }

/-- The example of the specification: Finder and Safari are running, Finder
is in front, every call succeeds, both applications are bundles with an
identifier, and the terminal has 80 columns. -/
def exampleWorld : World where
  procs := [finder, safari]
  endStatus := procNotFound
  endStatus_ne := by decide
  status := fun _ _ => noErr
  front := fun _ => (noErr, ⟨0, 1⟩)
  bundle := fun path =>
    if path = "/Applications/Safari.app" then .identifier "com.apple.Safari"
    else .identifier "com.apple.finder"
  ioctlOk := true
  ws_col := 80
  uninit := ⟨⟨'\x00', '\x00', '\x00', '\x00'⟩, ⟨'\x00', '\x00', '\x00', '\x00'⟩, 0⟩

/-- The example of the specification with Finder at a path for which no URL
can be made. -/
def noLocationWorld : World :=
  { exampleWorld with
    bundle := fun path =>
      if path = "/Applications/Safari.app" then .identifier "com.apple.Safari" else .noURL }

/-- The calls of the primary action on a process, in the order of the code
(for `APP_QUIT` the three calls of `quitApplication`). -/
def primaryCalls (o : Options) (psn : CPSProcessSerNum) : List OSCall :=
  match o.appAction with
  | APP_NONE => []
  | APP_LIST => []
  | APP_PRINT_PID => []
  | APP_SWITCH => [.CPSSetFrontProcess psn]
  | APP_SHOW => [.CPSPostShowReq psn]
  | APP_HIDE => [.CPSPostHideReq psn]
  | APP_QUIT => [.AECreateDesc psn, .AECreateAppleEvent, .AESendMessage]
  | APP_KILL => [.CPSPostKillRequest psn false]
  | APP_KILL_HARD => [.CPSPostKillRequest psn true]

/-- The request of the global action on a process. -/
def globalCalls (o : Options) (psn : CPSProcessSerNum) : List OSCall :=
  match o.action with
  | ACTION_NONE => []
  | ACTION_SHOW_ALL => [.CPSPostShowAllReq psn]
  | ACTION_HIDE_OTHERS => [.CPSPostHideMostReq psn]

/-- The calls of the final action in the order of the code, `front` being the
process the query for the frontmost process returns. -/
def finalCalls (o : Options) (front : CPSProcessSerNum) : List OSCall :=
  match o.finalAction with
  | FINAL_NONE => []
  | FINAL_SWITCH =>
    .CPSGetFrontProcess ::
      ((if o.action ≠ ACTION_NONE then [.usleep 750000] else [])
        ++ [.CPSPostShowReq front, .CPSSetFrontProcess front])

/-- The example of the specification with every request to a process
failing with the status -50. -/
def refusingWorld : World :=
  { exampleWorld with status := fun _ _ => -50 }

/-- The example of the specification with the request to hide the other
applications failing with the status -50 and every other call succeeding. -/
def hideRefusedWorld : World :=
  { exampleWorld with
    status := fun _ call => if call = .CPSPostHideMostReq ⟨0, 2⟩ then -50 else noErr }

/-- The options after `appswitch -H -F -a Safari`: switch to Safari, hide the
others, bring the front application to the front. -/
def switchHideFront : Options :=
  { OPTS with name := some "Safari", matchType := MATCH_NAME, appAction := APP_SWITCH,
              action := ACTION_HIDE_OTHERS, finalAction := FINAL_SWITCH }

/-- The fields of a row before the path, in the order of the columns: the
serial number as `hi.lo` with `hi` right-aligned in 8 characters, the process
identifier right-aligned in 5, the 4 characters of the type, the 4 characters
of the creator, and the name cut to 20 characters and left-aligned in 20,
with one blank between the fields. -/
def rowFields (p : Process) : List Char :=
  padTo false 8 (decimal p.psn.hi) ++ '.' :: decimal p.psn.lo ++ ' ' ::
    padTo false 5 (decimal p.info.UnixPID) ++ ' ' ::
    CXX p.info.ExecFileType.c0 :: CXX p.info.ExecFileType.c1 ::
    CXX p.info.ExecFileType.c2 :: CXX p.info.ExecFileType.c3 :: ' ' ::
    CXX p.info.ExecFileCreator.c0 :: CXX p.info.ExecFileCreator.c1 ::
    CXX p.info.ExecFileCreator.c2 :: CXX p.info.ExecFileCreator.c3 :: ' ' ::
    padTo true 20 (p.name.data.take 20)

/-- The example of the specification on a terminal of 40 columns. -/
def narrowWorld : World :=
  { exampleWorld with ws_col := 40 }

/-- The texts of a list one after the other. -/
def concatRows (rows : List String) : String :=
  rows.foldr (fun row text => row ++ text) ""

/-- What the long form appends to a row after the path: the bundle
identifier in parentheses when there is one. -/
def bundleSuffix (w : World) (p : Process) : String :=
  match w.bundle p.path with
  | .identifier bundleID => " (" ++ bundleID ++ ")"
  | _ => ""

/-- The example of the specification with a frontmost process that changes
during the pause: Finder is in front until `usleep` has been called, Safari
afterwards. -/
def settlingWorld : World :=
  { exampleWorld with
    front := fun trace => if .usleep 750000 ∈ trace then (noErr, ⟨0, 2⟩) else (noErr, ⟨0, 1⟩) }

/-- The example of the specification with Finder at a path where there is
no bundle. -/
def noBundleWorld : World :=
  { exampleWorld with
    bundle := fun path =>
      if path = "/Applications/Safari.app" then .identifier "com.apple.Safari" else .noBundle }

/-- The example of the specification with the show request to Finder failing
with the status `procNotFound`, which is in the table of `osstatusstr`, and
every other call succeeding. -/
def showRefusedWorld : World :=
  { exampleWorld with
    status := fun _ call => if call = .CPSPostShowReq ⟨0, 1⟩ then procNotFound else noErr }

/-- The example of the specification with 4242 as the indeterminate content
of the field `UnixPID` of the variable `info` of `main`. -/
def garbageWorld : World :=
  { exampleWorld with
    uninit := ⟨⟨'\x00', '\x00', '\x00', '\x00'⟩, ⟨'\x00', '\x00', '\x00', '\x00'⟩, 4242⟩ }

/-- The messages of the four internal-error branches of the program (lines
363, 433, 442 and 458). -/
def internalErrors : List String :=
  [ "internal error: invalid match type",
    "internal error: invalid application action",
    "internal error: invalid action",
    "internal error: invalid final action" ]

/-- A function returns, or exits with status 1 and a message that begins
`APP_NAME: can't `, as every message of the program does that is not one of
an internal error or the usage text. -/
def Ordinary {α : Type} (APP_NAME : String) : Exit α → Prop
  | .ret _ => True
  | .exit status text => status = 1 ∧ ∃ rest, text = APP_NAME ++ ": can\x27t " ++ rest

/-- The run ends with status 0 and no message, or with status 1 and a
message that begins `APP_NAME: can't `. -/
def OrdinaryEnd (APP_NAME : String) (f : Final) : Prop :=
  (f.status = 0 ∧ f.stderr = "") ∨
  (f.status = 1 ∧ ∃ rest, f.stderr = APP_NAME ++ ": can\x27t " ++ rest)


/-! # Theorems -/

/-! ## The option loop of getargs -/

theorem isActionFlag_cases (ch : Char) (h : isActionFlag (.flag ch) = true) :
    ch = 's' ∨ ch = 'h' ∨ ch = 'q' ∨ ch = 'k' ∨ ch = 'K' ∨ ch = 'l' ∨ ch = 'L' ∨ ch = 'P' := by
  simp only [isActionFlag, Bool.or_eq_true, decide_eq_true_eq] at h
  tauto

theorem optStep_action_flag (APP_NAME : String) (o : Options) (ch : Char)
    (h : isActionFlag (.flag ch) = true) :
    optStep APP_NAME o (.flag ch) =
      if o.appAction ≠ APP_NONE then
        errexit APP_NAME (if ch = 'P' then onlyOneActionP else onlyOneAction) []
      else .ret { o with appAction := flagAction ch,
                         longList := (decide (ch = 'L') || o.longList) } := by
  rcases isActionFlag_cases ch h with h | h | h | h | h | h | h | h <;> subst h <;> rfl

theorem optStep_global_flag (APP_NAME : String) (o : Options) (ch : Char)
    (h : isGlobalFlag (.flag ch) = true) :
    optStep APP_NAME o (.flag ch) =
      if o.action ≠ ACTION_NONE then errexit APP_NAME "choose -S, -H or neither option" []
      else .ret { o with action := if ch = 'S' then ACTION_SHOW_ALL else ACTION_HIDE_OTHERS } := by
  simp only [isGlobalFlag, Bool.or_eq_true, decide_eq_true_eq] at h
  rcases h with h | h <;> subst h <;> rfl

theorem optStep_final_flag (APP_NAME : String) (o : Options) :
    optStep APP_NAME o (.flag 'F') =
      if o.finalAction ≠ FINAL_NONE then errexit APP_NAME "choose only one -F option" []
      else .ret { o with finalAction := FINAL_SWITCH } := rfl

theorem optStep_other_flag (APP_NAME : String) (o : Options) (ch : Char)
    (ha : isActionFlag (.flag ch) = false) (hg : isGlobalFlag (.flag ch) = false)
    (hf : isFinalFlag (.flag ch) = false) :
    optStep APP_NAME o (.flag ch) = usage APP_NAME := by
  simp only [isActionFlag, isGlobalFlag, isFinalFlag, Bool.or_eq_false_iff,
    decide_eq_false_iff_not] at ha hg hf
  obtain ⟨⟨⟨⟨⟨⟨⟨h1, h2⟩, h3⟩, h4⟩, h5⟩, h6⟩, h7⟩, h8⟩ := ha
  obtain ⟨h9, h10⟩ := hg
  show (if ch = 's' then _ else _) = _
  rw [if_neg h1, if_neg h2, if_neg h3, if_neg h4, if_neg h5, if_neg h6, if_neg h7, if_neg h8,
    if_neg h9, if_neg h10, if_neg hf]

theorem optStep_other_arg (APP_NAME : String) (o : Options) (ch : Char) (optarg : String)
    (h : isCriterionFlag (.withArg ch optarg) = false) :
    optStep APP_NAME o (.withArg ch optarg) = usage APP_NAME := by
  simp only [isCriterionFlag, Bool.or_eq_false_iff, decide_eq_false_iff_not] at h
  obtain ⟨⟨⟨h1, h2⟩, h3⟩, h4⟩ := h
  show (if ch = 'p' then _ else _) = _
  rw [if_neg h3, if_neg h1, if_neg h2, if_neg h4]

theorem flag_cases (ch : Char) :
    (ch = 's' ∨ ch = 'h' ∨ ch = 'q' ∨ ch = 'k' ∨ ch = 'K' ∨ ch = 'l' ∨ ch = 'L' ∨ ch = 'P')
    ∨ (ch = 'S' ∨ ch = 'H') ∨ ch = 'F'
    ∨ (isActionFlag (.flag ch) = false ∧ isGlobalFlag (.flag ch) = false
        ∧ isFinalFlag (.flag ch) = false) := by
  cases ha : isActionFlag (.flag ch)
  · cases hg : isGlobalFlag (.flag ch)
    · cases hf : isFinalFlag (.flag ch)
      · exact Or.inr (Or.inr (Or.inr ⟨rfl, rfl, rfl⟩))
      · simp only [isFinalFlag, decide_eq_true_eq] at hf
        exact Or.inr (Or.inr (Or.inl hf))
    · simp only [isGlobalFlag, Bool.or_eq_true, decide_eq_true_eq] at hg
      exact Or.inr (Or.inl hg)
  · exact Or.inl (isActionFlag_cases ch ha)

theorem arg_cases (ch : Char) (optarg : String) :
    ch = 'p' ∨ ch = 'c' ∨ ch = 'i' ∨ ch = 'a'
    ∨ isCriterionFlag (.withArg ch optarg) = false := by
  cases hc : isCriterionFlag (.withArg ch optarg)
  · simp
  · simp only [isCriterionFlag, Bool.or_eq_true, decide_eq_true_eq] at hc
    tauto

/-- What one step of the option loop does to the options when it does not
exit: a criterion flag needs an unset match type and sets it to one of the
four explicit criteria, a primary-action flag needs an unset action and sets
it to the action of its letter, `-S`, `-H` and `-F` likewise; every other
field of the four is left alone, and the positional path is never touched. -/
theorem optStep_ret (APP_NAME : String) (o o1 : Options) (r : GetoptResult)
    (h : optStep APP_NAME o r = .ret o1) :
    (isCriterionFlag r = true → o.matchType = MATCH_UNKNOWN ∧
        (o1.matchType = MATCH_PID ∨ o1.matchType = MATCH_CREATOR
          ∨ o1.matchType = MATCH_BUNDLE_ID ∨ o1.matchType = MATCH_NAME)) ∧
    (isCriterionFlag r = false → o1.matchType = o.matchType) ∧
    (isActionFlag r = true → o.appAction = APP_NONE ∧ o1.appAction ≠ APP_NONE ∧
        ∃ ch, r = .flag ch ∧ o1.appAction = flagAction ch) ∧
    (isActionFlag r = false → o1.appAction = o.appAction) ∧
    (isGlobalFlag r = true → o.action = ACTION_NONE ∧ o1.action ≠ ACTION_NONE) ∧
    (isGlobalFlag r = false → o1.action = o.action) ∧
    (isFinalFlag r = true → o.finalAction = FINAL_NONE ∧ o1.finalAction = FINAL_SWITCH) ∧
    (isFinalFlag r = false → o1.finalAction = o.finalAction) ∧
    o1.path = o.path := by
  rcases r with ch | ⟨ch, optarg⟩ | _
  · rcases flag_cases ch with (hc | hc | hc | hc | hc | hc | hc | hc) | (hc | hc) | hc | ⟨ha, hg, hf⟩
    all_goals first
      | (rw [optStep_other_flag _ _ _ ha hg hf] at h; exact Exit.noConfusion h)
      | (subst hc
         change (if _ then _ else _) = _ at h
         split_ifs at h with hx
         · exact Exit.noConfusion h
         · injection h with h
           subst h
           simp only [ne_eq, not_not] at hx
           refine ⟨?_, ?_, ?_, ?_, ?_, ?_, ?_, ?_, ?_⟩ <;>
             first
               | rfl
               | (intro hh; exact Bool.noConfusion hh)
               | (intro _; exact ⟨hx, fun hh => GlobalAction.noConfusion hh⟩)
               | (intro _; exact ⟨hx, rfl⟩)
               | (intro _; exact ⟨hx, fun hh => AppAction.noConfusion hh, _, rfl, rfl⟩)
               | (intro _; rfl))
  · rcases arg_cases ch optarg with hc | hc | hc | hc | hc
    · subst hc
      change (if _ then _ else _) = _ at h
      split_ifs at h with hx
      · exact Exit.noConfusion h
      · simp only [ne_eq, not_not] at hx
        split at h
        · exact Exit.noConfusion h
        · split_ifs at h
          · exact Exit.noConfusion h
          · injection h with h
            subst h
            refine ⟨fun _ => ⟨hx, Or.inl rfl⟩, fun hh => Bool.noConfusion hh, ?_, ?_, ?_, ?_, ?_,
              ?_, ?_⟩ <;>
              first
                | rfl
                | (intro hh; exact Bool.noConfusion hh)
                | (intro _; rfl)
    · subst hc
      change (if _ then _ else _) = _ at h
      split_ifs at h with hx hy
      · exact Exit.noConfusion h
      · exact Exit.noConfusion h
      · simp only [ne_eq, not_not] at hx
        injection h with h
        subst h
        refine ⟨fun _ => ⟨hx, Or.inr (Or.inl rfl)⟩, fun hh => Bool.noConfusion hh, ?_, ?_, ?_,
          ?_, ?_, ?_, ?_⟩ <;>
          first
            | rfl
            | (intro hh; exact Bool.noConfusion hh)
            | (intro _; rfl)
    · subst hc
      change (if _ then _ else _) = _ at h
      split_ifs at h with hx
      · exact Exit.noConfusion h
      · simp only [ne_eq, not_not] at hx
        injection h with h
        subst h
        refine ⟨fun _ => ⟨hx, Or.inr (Or.inr (Or.inl rfl))⟩, fun hh => Bool.noConfusion hh,
          ?_, ?_, ?_, ?_, ?_, ?_, ?_⟩ <;>
          first
            | rfl
            | (intro hh; exact Bool.noConfusion hh)
            | (intro _; rfl)
    · subst hc
      change (if _ then _ else _) = _ at h
      split_ifs at h with hx
      · exact Exit.noConfusion h
      · simp only [ne_eq, not_not] at hx
        injection h with h
        subst h
        refine ⟨fun _ => ⟨hx, Or.inr (Or.inr (Or.inr rfl))⟩, fun hh => Bool.noConfusion hh,
          ?_, ?_, ?_, ?_, ?_, ?_, ?_⟩ <;>
          first
            | rfl
            | (intro hh; exact Bool.noConfusion hh)
            | (intro _; rfl)
    · rw [optStep_other_arg _ _ _ _ hc] at h
      exact Exit.noConfusion h
  · exact Exit.noConfusion h

/-- Every exit of a step of the option loop has status 1. -/
theorem optStep_exit_status (APP_NAME : String) (o : Options) (r : GetoptResult)
    (status : Nat) (text : String) (h : optStep APP_NAME o r = .exit status text) :
    status = 1 := by
  rcases r with ch | ⟨ch, optarg⟩ | _
  · rcases flag_cases ch with (hc | hc | hc | hc | hc | hc | hc | hc) | (hc | hc) | hc | ⟨ha, hg, hf⟩
    all_goals first
      | (rw [optStep_other_flag _ _ _ ha hg hf] at h; injection h with h1 h2; exact h1.symm)
      | (subst hc
         change (if _ then _ else _) = _ at h
         split_ifs at h with hx
         injection h with h1 h2; exact h1.symm)
  · rcases arg_cases ch optarg with hc | hc | hc | hc | hc
    · subst hc
      change (if _ then _ else _) = _ at h
      split_ifs at h with hx
      · injection h with h1 h2; exact h1.symm
      · split at h
        · injection h with h1 h2; exact h1.symm
        · split_ifs at h
          injection h with h1 h2; exact h1.symm
    · subst hc
      change (if _ then _ else _) = _ at h
      split_ifs at h with hx hy
      · injection h with h1 h2; exact h1.symm
      · injection h with h1 h2; exact h1.symm
    · subst hc
      change (if _ then _ else _) = _ at h
      split_ifs at h with hx
      injection h with h1 h2; exact h1.symm
    · subst hc
      change (if _ then _ else _) = _ at h
      split_ifs at h with hx
      injection h with h1 h2; exact h1.symm
    · rw [optStep_other_arg _ _ _ _ hc] at h
      injection h with h1 h2; exact h1.symm
  · injection h with h1 h2; exact h1.symm

/-- A criterion flag met when the match type is already set ends the run. -/
theorem optStep_second_criterion (APP_NAME : String) (o : Options) (r : GetoptResult)
    (hr : isCriterionFlag r = true) (ho : o.matchType ≠ MATCH_UNKNOWN) :
    ∃ text, optStep APP_NAME o r = .exit 1 text := by
  cases hs : optStep APP_NAME o r with
  | ret o1 => exact absurd ((optStep_ret APP_NAME o o1 r hs).1 hr).1 ho
  | exit status text => exact ⟨text, by rw [optStep_exit_status APP_NAME o r status text hs]⟩

/-- A primary-action flag met when the action is already set ends the run. -/
theorem optStep_second_action (APP_NAME : String) (o : Options) (r : GetoptResult)
    (hr : isActionFlag r = true) (ho : o.appAction ≠ APP_NONE) :
    ∃ text, optStep APP_NAME o r = .exit 1 text := by
  cases hs : optStep APP_NAME o r with
  | ret o1 => exact absurd ((optStep_ret APP_NAME o o1 r hs).2.2.1 hr).1 ho
  | exit status text => exact ⟨text, by rw [optStep_exit_status APP_NAME o r status text hs]⟩

/-- Every exit of the option loop has status 1. -/
theorem optLoop_exit_status (APP_NAME : String) (rs : List GetoptResult) (o : Options)
    (status : Nat) (text : String) (h : optLoop APP_NAME rs o = .exit status text) :
    status = 1 := by
  induction rs generalizing o with
  | nil => exact Exit.noConfusion h
  | cons r rs ih =>
    rw [optLoop] at h
    cases hs : optStep APP_NAME o r with
    | ret o1 => rw [hs] at h; exact ih o1 h
    | exit st tx =>
      rw [hs] at h
      injection h with h1 h2
      rw [← h1]
      exact optStep_exit_status APP_NAME o r st tx hs

/-- The option loop ends the run when it meets a criterion flag with the
match type already set. -/
theorem optLoop_criterion_set (APP_NAME : String) (rs : List GetoptResult) (o : Options)
    (ho : o.matchType ≠ MATCH_UNKNOWN) (hr : ∃ r ∈ rs, isCriterionFlag r = true) :
    ∃ text, optLoop APP_NAME rs o = .exit 1 text := by
  induction rs generalizing o with
  | nil => obtain ⟨r, hr, _⟩ := hr; cases hr
  | cons r rs ih =>
    rw [optLoop]
    cases hs : optStep APP_NAME o r with
    | exit st tx =>
      exact ⟨tx, by rw [optStep_exit_status APP_NAME o r st tx hs]⟩
    | ret o1 =>
      cases hc : isCriterionFlag r with
      | true => exact absurd ((optStep_ret APP_NAME o o1 r hs).1 hc).1 ho
      | false =>
        have hm : o1.matchType ≠ MATCH_UNKNOWN := by
          rw [(optStep_ret APP_NAME o o1 r hs).2.1 hc]; exact ho
        obtain ⟨r1, hmem, hr1⟩ := hr
        rcases List.mem_cons.mp hmem with heq | hmem
        · rw [heq, hc] at hr1; exact Bool.noConfusion hr1
        · exact ih o1 hm ⟨r1, hmem, hr1⟩

/-- The option loop ends the run when it meets a primary-action flag with
the action already set. -/
theorem optLoop_action_set (APP_NAME : String) (rs : List GetoptResult) (o : Options)
    (ho : o.appAction ≠ APP_NONE) (hr : ∃ r ∈ rs, isActionFlag r = true) :
    ∃ text, optLoop APP_NAME rs o = .exit 1 text := by
  induction rs generalizing o with
  | nil => obtain ⟨r, hr, _⟩ := hr; cases hr
  | cons r rs ih =>
    rw [optLoop]
    cases hs : optStep APP_NAME o r with
    | exit st tx =>
      exact ⟨tx, by rw [optStep_exit_status APP_NAME o r st tx hs]⟩
    | ret o1 =>
      cases hc : isActionFlag r with
      | true => exact absurd ((optStep_ret APP_NAME o o1 r hs).2.2.1 hc).1 ho
      | false =>
        have hm : o1.appAction ≠ APP_NONE := by
          rw [(optStep_ret APP_NAME o o1 r hs).2.2.2.1 hc]; exact ho
        obtain ⟨r1, hmem, hr1⟩ := hr
        rcases List.mem_cons.mp hmem with heq | hmem
        · rw [heq, hc] at hr1; exact Bool.noConfusion hr1
        · exact ih o1 hm ⟨r1, hmem, hr1⟩

/-- Two criterion flags among the results of `getopt` end the option loop
with status 1, whatever the options it starts from. -/
theorem optLoop_two_criteria (APP_NAME : String) (rs : List GetoptResult) (o : Options)
    (h : 2 ≤ rs.countP isCriterionFlag) :
    ∃ text, optLoop APP_NAME rs o = .exit 1 text := by
  induction rs generalizing o with
  | nil => simp at h
  | cons r rs ih =>
    cases hs : optStep APP_NAME o r with
    | exit st tx =>
      exact ⟨tx, by rw [optLoop, hs, optStep_exit_status APP_NAME o r st tx hs]⟩
    | ret o1 =>
      cases hc : isCriterionFlag r with
      | true =>
        have hm : o1.matchType ≠ MATCH_UNKNOWN := by
          rcases ((optStep_ret APP_NAME o o1 r hs).1 hc).2 with h1 | h1 | h1 | h1 <;>
            rw [h1] <;> exact fun hh => MatchType.noConfusion hh
        have hcount : 0 < rs.countP isCriterionFlag := by
          rw [List.countP_cons_of_pos _ _ hc] at h; omega
        obtain ⟨r1, hmem, hr1⟩ := List.countP_pos_iff.mp hcount
        obtain ⟨text, ht⟩ := optLoop_criterion_set APP_NAME rs o1 hm ⟨r1, hmem, hr1⟩
        exact ⟨text, by rw [optLoop, hs]; exact ht⟩
      | false =>
        have hcount : 2 ≤ rs.countP isCriterionFlag := by
          rw [List.countP_cons_of_neg _ _ (by rw [hc]; exact Bool.false_ne_true)] at h
          exact h
        obtain ⟨text, ht⟩ := ih o1 hcount
        exact ⟨text, by rw [optLoop, hs]; exact ht⟩

/-- Two primary-action flags among the results of `getopt` end the option
loop with status 1, whatever the options it starts from. -/
theorem optLoop_two_actions (APP_NAME : String) (rs : List GetoptResult) (o : Options)
    (h : 2 ≤ rs.countP isActionFlag) :
    ∃ text, optLoop APP_NAME rs o = .exit 1 text := by
  induction rs generalizing o with
  | nil => simp at h
  | cons r rs ih =>
    cases hs : optStep APP_NAME o r with
    | exit st tx =>
      exact ⟨tx, by rw [optLoop, hs, optStep_exit_status APP_NAME o r st tx hs]⟩
    | ret o1 =>
      cases hc : isActionFlag r with
      | true =>
        have hm : o1.appAction ≠ APP_NONE := ((optStep_ret APP_NAME o o1 r hs).2.2.1 hc).2.1
        have hcount : 0 < rs.countP isActionFlag := by
          rw [List.countP_cons_of_pos _ _ hc] at h; omega
        obtain ⟨r1, hmem, hr1⟩ := List.countP_pos_iff.mp hcount
        obtain ⟨text, ht⟩ := optLoop_action_set APP_NAME rs o1 hm ⟨r1, hmem, hr1⟩
        exact ⟨text, by rw [optLoop, hs]; exact ht⟩
      | false =>
        have hcount : 2 ≤ rs.countP isActionFlag := by
          rw [List.countP_cons_of_neg _ _ (by rw [hc]; exact Bool.false_ne_true)] at h
          exact h
        obtain ⟨text, ht⟩ := ih o1 hcount
        exact ⟨text, by rw [optLoop, hs]; exact ht⟩

/-! ## C1: mutual exclusivity -/

/-- C1. For every argument list for which `getopt` delivers two or more of the
criterion flags `-c`, `-i`, `-p`, `-a`, or two or more of the primary-action
flags `-s`, `-h`, `-q`, `-k`, `-K`, `-l`, `-L`, `-P`, `getargs` exits with
status 1 and returns no options, and the run of `main` ends with status 1
without a single call to the operating system. -/
theorem getargs_mutual_exclusivity (argv : List String)
    (h : 2 ≤ (getoptResults argv).countP isCriterionFlag
      ∨ 2 ≤ (getoptResults argv).countP isActionFlag) :
    (∃ text, getargs argv = .exit 1 text) ∧
    ∀ w : World, (main w argv).status = 1 ∧ (main w argv).trace = [] := by
  have hg : ∃ text, getargs argv = .exit 1 text := by
    match argv, h with
    | [], h => exact ⟨_, rfl⟩
    | [_], h => exact ⟨_, rfl⟩
    | APP_NAME :: a :: args, h =>
      have hl : ∃ text, optLoop APP_NAME (getoptScan opts.data none (a :: args)).1 OPTS
          = .exit 1 text := by
        rcases h with h | h
        · exact optLoop_two_criteria APP_NAME _ OPTS h
        · exact optLoop_two_actions APP_NAME _ OPTS h
      obtain ⟨text, ht⟩ := hl
      exact ⟨text, by simp only [getargs, ht]⟩
  obtain ⟨text, ht⟩ := hg
  refine ⟨⟨text, ht⟩, fun w => ?_⟩
  rw [main, ht]
  exact ⟨rfl, rfl⟩

/-- C1 at `appswitch -c ToyS -p 42` (two criterion flags) and at
`appswitch -l -L` (two primary-action flags). -/
theorem getargs_mutual_exclusivity_witness :
    (2 ≤ (getoptResults ["appswitch", "-c", "ToyS", "-p", "42"]).countP isCriterionFlag ∧
      ((∃ text, getargs ["appswitch", "-c", "ToyS", "-p", "42"] = .exit 1 text) ∧
        ∀ w : World, (main w ["appswitch", "-c", "ToyS", "-p", "42"]).status = 1
          ∧ (main w ["appswitch", "-c", "ToyS", "-p", "42"]).trace = [])) ∧
    (2 ≤ (getoptResults ["appswitch", "-l", "-L"]).countP isActionFlag ∧
      ((∃ text, getargs ["appswitch", "-l", "-L"] = .exit 1 text) ∧
        ∀ w : World, (main w ["appswitch", "-l", "-L"]).status = 1
          ∧ (main w ["appswitch", "-l", "-L"]).trace = [])) :=
  ⟨⟨by decide, getargs_mutual_exclusivity _ (Or.inl (by decide))⟩,
   ⟨by decide, getargs_mutual_exclusivity _ (Or.inr (by decide))⟩⟩


/-! ## What the option loop leaves in the options -/

/-- The options the option loop returns, read off the results of `getopt`
it has processed: the match type is set exactly when a criterion flag was
among them, the action is that of the primary-action flag among them, and
likewise for `-S`, `-H` and `-F`; the path is untouched. -/
theorem optLoop_ret (APP_NAME : String) (rs : List GetoptResult) (o o1 : Options)
    (h : optLoop APP_NAME rs o = .ret o1) :
    ((∀ r ∈ rs, isCriterionFlag r = false) → o1.matchType = o.matchType) ∧
    ((∃ r ∈ rs, isCriterionFlag r = true) →
        o1.matchType = MATCH_PID ∨ o1.matchType = MATCH_CREATOR
          ∨ o1.matchType = MATCH_BUNDLE_ID ∨ o1.matchType = MATCH_NAME) ∧
    ((∀ r ∈ rs, isActionFlag r = false) → o1.appAction = o.appAction) ∧
    (∀ ch, .flag ch ∈ rs → isActionFlag (.flag ch) = true → o1.appAction = flagAction ch) ∧
    ((∀ r ∈ rs, isGlobalFlag r = false) → o1.action = o.action) ∧
    ((∃ r ∈ rs, isGlobalFlag r = true) → o1.action ≠ ACTION_NONE) ∧
    ((∀ r ∈ rs, isFinalFlag r = false) → o1.finalAction = o.finalAction) ∧
    ((∃ r ∈ rs, isFinalFlag r = true) → o1.finalAction = FINAL_SWITCH) ∧
    o1.path = o.path := by
  induction rs generalizing o with
  | nil =>
    injection h with h
    subst h
    refine ⟨fun _ => rfl, ?_, fun _ => rfl, ?_, fun _ => rfl, ?_, fun _ => rfl, ?_, rfl⟩
    · rintro ⟨r, hr, _⟩; cases hr
    · intro ch hr; cases hr
    · rintro ⟨r, hr, _⟩; cases hr
    · rintro ⟨r, hr, _⟩; cases hr
  | cons r rs ih =>
    rw [optLoop] at h
    cases hs : optStep APP_NAME o r with
    | exit st tx => rw [hs] at h; exact Exit.noConfusion h
    | ret o2 =>
      rw [hs] at h
      replace h : optLoop APP_NAME rs o2 = .ret o1 := h
      obtain ⟨s1, s2, s3, s4, s5, s6, s7, s8, s9⟩ := optStep_ret APP_NAME o o2 r hs
      obtain ⟨i1, i2, i3, i4, i5, i6, i7, i8, i9⟩ := ih o2 h
      refine ⟨?_, ?_, ?_, ?_, ?_, ?_, ?_, ?_, ?_⟩
      · intro hall
        rw [i1 (fun x hx => hall x (List.mem_cons_of_mem _ hx)),
          s2 (hall r (List.mem_cons_self _ _))]
      · intro hex
        by_cases hrs : ∃ x ∈ rs, isCriterionFlag x = true
        · exact i2 hrs
        · have hall : ∀ x ∈ rs, isCriterionFlag x = false := fun x hx => by
            cases hc : isCriterionFlag x with
            | false => rfl
            | true => exact absurd ⟨x, hx, hc⟩ hrs
          rw [i1 hall]
          obtain ⟨x, hx, hxc⟩ := hex
          rcases List.mem_cons.mp hx with heq | hmem
          · exact (s1 (heq ▸ hxc)).2
          · rw [hall x hmem] at hxc; exact Bool.noConfusion hxc
      · intro hall
        rw [i3 (fun x hx => hall x (List.mem_cons_of_mem _ hx)),
          s4 (hall r (List.mem_cons_self _ _))]
      · intro ch hmem hch
        cases hr : isActionFlag r with
        | false =>
          rcases List.mem_cons.mp hmem with heq | hmem
          · rw [← heq, hch] at hr; exact Bool.noConfusion hr
          · exact i4 ch hmem hch
        | true =>
          obtain ⟨_, hne, ch1, hr1, hact⟩ := s3 hr
          have hall : ∀ x ∈ rs, isActionFlag x = false := fun x hx => by
            cases hc : isActionFlag x with
            | false => rfl
            | true =>
              obtain ⟨text, ht⟩ := optLoop_action_set APP_NAME rs o2 hne ⟨x, hx, hc⟩
              rw [ht] at h; exact Exit.noConfusion h
          rw [i3 hall, hact]
          rcases List.mem_cons.mp hmem with heq | hmem
          · rw [hr1] at heq; injection heq with heq; rw [heq]
          · rw [hall _ hmem] at hch; exact Bool.noConfusion hch
      · intro hall
        rw [i5 (fun x hx => hall x (List.mem_cons_of_mem _ hx)),
          s6 (hall r (List.mem_cons_self _ _))]
      · intro hex
        by_cases hrs : ∃ x ∈ rs, isGlobalFlag x = true
        · exact i6 hrs
        · have hall : ∀ x ∈ rs, isGlobalFlag x = false := fun x hx => by
            cases hc : isGlobalFlag x with
            | false => rfl
            | true => exact absurd ⟨x, hx, hc⟩ hrs
          rw [i5 hall]
          obtain ⟨x, hx, hxc⟩ := hex
          rcases List.mem_cons.mp hx with heq | hmem
          · exact (s5 (heq ▸ hxc)).2
          · rw [hall x hmem] at hxc; exact Bool.noConfusion hxc
      · intro hall
        rw [i7 (fun x hx => hall x (List.mem_cons_of_mem _ hx)),
          s8 (hall r (List.mem_cons_self _ _))]
      · intro hex
        by_cases hrs : ∃ x ∈ rs, isFinalFlag x = true
        · exact i8 hrs
        · have hall : ∀ x ∈ rs, isFinalFlag x = false := fun x hx => by
            cases hc : isFinalFlag x with
            | false => rfl
            | true => exact absurd ⟨x, hx, hc⟩ hrs
          rw [i7 hall]
          obtain ⟨x, hx, hxc⟩ := hex
          rcases List.mem_cons.mp hx with heq | hmem
          · exact (s7 (heq ▸ hxc)).2
          · rw [hall x hmem] at hxc; exact Bool.noConfusion hxc
      · rw [i9, s9]

/-- The letters `l` and `L` are primary-action flags, and their action is
`APP_LIST`. -/
theorem isListFlag_action (r : GetoptResult) (h : isListFlag r = true) :
    ∃ ch, r = .flag ch ∧ isActionFlag (.flag ch) = true ∧ flagAction ch = APP_LIST := by
  rcases r with ch | ⟨ch, optarg⟩ | _
  · simp only [isListFlag, Bool.or_eq_true, decide_eq_true_eq] at h
    rcases h with h | h <;> subst h <;> exact ⟨_, rfl, rfl, rfl⟩
  · exact Bool.noConfusion h
  · exact Bool.noConfusion h

/-- A primary-action flag other than `-l` and `-L` has an action that is
neither `APP_LIST` nor `APP_NONE`. -/
theorem flagAction_not_list (ch : Char) (h : isActionFlag (.flag ch) = true) :
    flagAction ch ≠ APP_NONE ∧ (isListFlag (.flag ch) = false → flagAction ch ≠ APP_LIST) := by
  rcases isActionFlag_cases ch h with h | h | h | h | h | h | h | h <;> subst h <;>
    refine ⟨fun hh => AppAction.noConfusion hh, fun hl hh => ?_⟩ <;>
    first
      | exact AppAction.noConfusion hh
      | exact Bool.noConfusion hl

/-- After the option loop, started from the initial options, the action is
`APP_LIST` exactly when `-l` or `-L` was among the flags. -/
theorem optLoop_list (APP_NAME : String) (rs : List GetoptResult) (o1 : Options)
    (h : optLoop APP_NAME rs OPTS = .ret o1) :
    ((∃ r ∈ rs, isListFlag r = true) → o1.appAction = APP_LIST) ∧
    ((∀ r ∈ rs, isListFlag r = false) → o1.appAction ≠ APP_LIST) := by
  obtain ⟨_, _, i3, i4, _⟩ := optLoop_ret APP_NAME rs OPTS o1 h
  constructor
  · rintro ⟨r, hr, hl⟩
    obtain ⟨ch, rfl, ha, hact⟩ := isListFlag_action r hl
    rw [i4 ch hr ha, hact]
  · intro hall
    by_cases hex : ∃ r ∈ rs, isActionFlag r = true
    · obtain ⟨r, hr, ha⟩ := hex
      rcases r with ch | ⟨ch, optarg⟩ | _
      · rw [i4 ch hr ha]
        exact (flagAction_not_list ch ha).2 (hall _ hr)
      · exact Bool.noConfusion ha
      · exact Bool.noConfusion ha
    · have hnone : ∀ x ∈ rs, isActionFlag x = false := fun x hx => by
        cases hc : isActionFlag x with
        | false => rfl
        | true => exact absurd ⟨x, hx, hc⟩ hex
      rw [i3 hnone]
      exact fun hh => AppAction.noConfusion hh


/-! ## C2: criterion resolution -/

/-- Once the option loop has returned, `getargs` is `resolve` on what it
left; with `argc` below 2 both are the call of `usage`. -/
theorem getargs_eq_resolve (argv : List String) (o : Options)
    (hloop : optLoop (argv.headD "") (getoptResults argv) OPTS = .ret o) :
    getargs argv = resolve (argv.headD "") o (positional argv) := by
  match argv, hloop with
  | [], hloop =>
    injection hloop with hloop
    subst hloop
    rfl
  | [_], hloop =>
    injection hloop with hloop
    subst hloop
    rfl
  | APP_NAME :: a :: args, hloop =>
    have hl : optLoop APP_NAME (getoptScan opts.data none (a :: args)).1 OPTS = .ret o := hloop
    simp only [getargs, hl]
    rfl

/-- Without criterion, positional argument and list action, but with a global
or a final action, `resolve` sets `MATCH_FRONT` and changes nothing else. -/
theorem resolve_front (APP_NAME : String) (o : Options)
    (hm : o.matchType = MATCH_UNKNOWN) (hl : o.appAction ≠ APP_LIST)
    (hg : o.action ≠ ACTION_NONE ∨ o.finalAction ≠ FINAL_NONE) :
    resolve APP_NAME o [] = .ret { o with matchType := MATCH_FRONT } := by
  simp only [resolve, hm, hl, hg]
  simp

/-- C2. For every argument list on which the option loop returns: without a
criterion flag and without positional argument the match type becomes
`MATCH_ALL` when `-l` or `-L` was given, else `MATCH_FRONT` when `-S`, `-H` or
`-F` was given, else `getargs` exits through `usage` with status 1; without
a criterion flag and with exactly one positional argument it becomes
`MATCH_PATH` with that argument as the path; with two or more positional
arguments, or with a positional argument and a criterion flag, `getargs`
exits through `usage` with status 1. -/
theorem getargs_criterion_resolution (argv : List String) (o : Options)
    (hloop : optLoop (argv.headD "") (getoptResults argv) OPTS = .ret o) :
    ((∀ r ∈ getoptResults argv, isCriterionFlag r = false) →
      (positional argv = [] →
        ((∃ r ∈ getoptResults argv, isListFlag r = true) →
          ∃ o1, getargs argv = .ret o1 ∧ o1.matchType = MATCH_ALL) ∧
        ((∀ r ∈ getoptResults argv, isListFlag r = false) →
          (∃ r ∈ getoptResults argv, isGlobalFlag r = true ∨ isFinalFlag r = true) →
          ∃ o1, getargs argv = .ret o1 ∧ o1.matchType = MATCH_FRONT) ∧
        ((∀ r ∈ getoptResults argv,
            isListFlag r = false ∧ isGlobalFlag r = false ∧ isFinalFlag r = false) →
          getargs argv = .exit 1 (usageText (argv.headD "")))) ∧
      (∀ p, positional argv = [p] →
        ∃ o1, getargs argv = .ret o1 ∧ o1.matchType = MATCH_PATH ∧ o1.path = some p)) ∧
    (2 ≤ (positional argv).length → getargs argv = .exit 1 (usageText (argv.headD ""))) ∧
    ((∃ r ∈ getoptResults argv, isCriterionFlag r = true) → positional argv ≠ [] →
      getargs argv = .exit 1 (usageText (argv.headD ""))) := by
  rw [getargs_eq_resolve argv o hloop]
  obtain ⟨i1, i2, i3, i4, i5, i6, i7, i8, i9⟩ := optLoop_ret _ _ OPTS o hloop
  obtain ⟨l1, l2⟩ := optLoop_list _ _ o hloop
  refine ⟨fun hnc => ⟨fun hpos => ⟨?_, ?_, ?_⟩, ?_⟩, ?_, ?_⟩
  · intro hlist
    have hm : o.matchType = MATCH_UNKNOWN := i1 hnc
    have ha : o.appAction = APP_LIST := l1 hlist
    refine ⟨{ o with matchType := MATCH_ALL }, ?_, rfl⟩
    rw [hpos]
    simp [resolve, hm, ha]
  · intro hnl hex
    have hm : o.matchType = MATCH_UNKNOWN := i1 hnc
    have ha : o.appAction ≠ APP_LIST := l2 hnl
    have hg : o.action ≠ ACTION_NONE ∨ o.finalAction ≠ FINAL_NONE := by
      obtain ⟨r, hr, hgf | hgf⟩ := hex
      · exact Or.inl (i6 ⟨r, hr, hgf⟩)
      · exact Or.inr (by rw [i8 ⟨r, hr, hgf⟩]; exact fun hh => FinalAction.noConfusion hh)
    exact ⟨_, by rw [hpos]; exact resolve_front _ o hm ha hg, rfl⟩
  · intro hnone
    have hm : o.matchType = MATCH_UNKNOWN := i1 hnc
    have ha : o.appAction ≠ APP_LIST := l2 (fun r hr => (hnone r hr).1)
    have hg : o.action = ACTION_NONE := i5 (fun r hr => (hnone r hr).2.1)
    have hf : o.finalAction = FINAL_NONE := i7 (fun r hr => (hnone r hr).2.2)
    rw [hpos]
    simp [resolve, hm, ha, hg, hf, usage]
  · intro p hpos
    have hm : o.matchType = MATCH_UNKNOWN := i1 hnc
    rw [hpos]
    by_cases ha : o.appAction = APP_NONE
    · exact ⟨{ o with path := some p, matchType := MATCH_PATH, appAction := APP_SWITCH },
        by simp [resolve, hm, ha], rfl, rfl⟩
    · exact ⟨{ o with path := some p, matchType := MATCH_PATH },
        by simp [resolve, hm, ha], rfl, rfl⟩
  · intro hlen
    match hp : positional argv, hlen with
    | _ :: _ :: _, _ =>
      by_cases hm : o.matchType = MATCH_UNKNOWN
      · simp [resolve, hm, usage]
      · simp [resolve, hm, usage]
  · intro hex hpos
    have hm : o.matchType ≠ MATCH_UNKNOWN := by
      rcases i2 hex with h | h | h | h <;> rw [h] <;> exact fun hh => MatchType.noConfusion hh
    have hlen : (positional argv).length ≠ 0 := fun hh => hpos (List.length_eq_zero.mp hh)
    simp [resolve, hm, hlen, usage]

/-- C2 at `appswitch -H -F`: no criterion flag, no positional argument, no
`-l`, a global and a final action, hence `MATCH_FRONT`. -/
theorem getargs_criterion_resolution_witness :
    optLoop "appswitch" (getoptResults ["appswitch", "-H", "-F"]) OPTS
      = .ret { OPTS with action := ACTION_HIDE_OTHERS, finalAction := FINAL_SWITCH } ∧
    ∃ o1, getargs ["appswitch", "-H", "-F"] = .ret o1 ∧ o1.matchType = MATCH_FRONT :=
  ⟨by decide,
    ((getargs_criterion_resolution ["appswitch", "-H", "-F"] _
      (by decide : optLoop "appswitch" (getoptResults ["appswitch", "-H", "-F"]) OPTS
        = .ret { OPTS with action := ACTION_HIDE_OTHERS, finalAction := FINAL_SWITCH })).1
      (by decide)).1 (by decide) |>.2.1 (by decide) ⟨.flag 'H', by decide, Or.inl rfl⟩⟩


/-! ## Decimal numerals -/

/-- The character of a decimal digit is a digit whose value is that digit. -/
theorem digitChar_spec (m : Nat) (h : m < 10) :
    (Nat.digitChar m).isDigit = true ∧ (Nat.digitChar m).toNat - 48 = m := by
  interval_cases m <;> exact ⟨rfl, rfl⟩

/-- The digits `Nat.toDigitsCore` puts in front of an accumulator are decimal
digits, and reading the result as a decimal numeral from 0 is reading the
accumulator from `n`. -/
theorem toDigitsCore_spec (fuel n : Nat) (acc : List Char) (v : Nat → Char → Nat)
    (hv : ∀ a c, c.isDigit = true → v a c = 10 * a + (c.toNat - 48)) (h : n < fuel) :
    (∃ d ds, Nat.toDigitsCore 10 fuel n acc = d :: ds ++ acc ∧ d.isDigit = true
      ∧ ∀ c ∈ ds, c.isDigit = true) ∧
    (Nat.toDigitsCore 10 fuel n acc).foldl v 0 = acc.foldl v n := by
  induction fuel generalizing n acc with
  | zero => omega
  | succ fuel ih =>
    obtain ⟨hd, hval⟩ := digitChar_spec (n % 10) (Nat.mod_lt _ (by omega))
    by_cases hz : n / 10 = 0
    · have hn : n % 10 = n := by omega
      simp only [Nat.toDigitsCore, hz, if_true]
      refine ⟨⟨_, [], rfl, hd, fun c hc => by cases hc⟩, ?_⟩
      rw [List.foldl_cons, hv _ _ hd, hval, hn]
      simp
    · simp only [Nat.toDigitsCore, hz, if_false]
      obtain ⟨⟨d, ds, heq, hdd, hds⟩, hfold⟩ := ih (n / 10) (Nat.digitChar (n % 10) :: acc)
        (by omega)
      refine ⟨⟨d, ds ++ [Nat.digitChar (n % 10)], ?_, hdd, ?_⟩, ?_⟩
      · rw [heq]; simp
      · intro c hc
        rcases List.mem_append.mp hc with hc | hc
        · exact hds c hc
        · rw [List.mem_singleton.mp hc]; exact hd
      · rw [hfold, List.foldl_cons, hv _ _ hd, hval]
        congr 1
        omega

/-- The decimal numeral of a natural number: a digit followed by digits,
whose value is the number. -/
theorem repr_spec (n : Nat) :
    (∃ d ds, (Nat.repr n).data = d :: ds ∧ d.isDigit = true ∧ ∀ c ∈ ds, c.isDigit = true) ∧
    digitsValue (Nat.repr n).data = n := by
  obtain ⟨⟨d, ds, heq, hd, hds⟩, hfold⟩ := toDigitsCore_spec (n + 1) n []
    (fun acc c => 10 * acc + (c.toNat - 48)) (fun _ _ _ => rfl) (by omega)
  have hdata : (Nat.repr n).data = Nat.toDigitsCore 10 (n + 1) n [] := rfl
  refine ⟨⟨d, ds, ?_, hd, hds⟩, ?_⟩
  · rw [hdata, heq]; simp
  · rw [digitsValue, hdata, hfold]; rfl

/-- A digit is neither white space nor a sign. -/
theorem isDigit_not_space (c : Char) (h : c.isDigit = true) :
    isspace c = false ∧ c ≠ '-' ∧ c ≠ '+' := by
  refine ⟨?_, ?_, ?_⟩
  · cases hs : isspace c with
    | false => rfl
    | true =>
      simp only [isspace, Bool.or_eq_true, decide_eq_true_eq] at hs
      rcases hs with ((((hs | hs) | hs) | hs) | hs) | hs <;> subst hs <;> exact absurd h (by decide)
  · rintro rfl; exact absurd h (by decide)
  · rintro rfl; exact absurd h (by decide)

/-- The conversion `%d` reads a decimal numeral back. -/
theorem scanDecimal_repr (n : Nat) : scanDecimal (Nat.repr n) = some (n : Int) := by
  obtain ⟨⟨d, ds, heq, hd, hds⟩, hval⟩ := repr_spec n
  obtain ⟨hsp, hminus, hplus⟩ := isDigit_not_space d hd
  have hall : ∀ c ∈ (Nat.repr n).data, c.isDigit = true := by
    intro c hc
    rw [heq] at hc
    rcases List.mem_cons.mp hc with hc | hc
    · rw [hc]; exact hd
    · exact hds c hc
  have htake : (Nat.repr n).data.takeWhile Char.isDigit = (Nat.repr n).data :=
    List.takeWhile_eq_self_iff.mpr hall
  have hdrop : (Nat.repr n).data.dropWhile isspace = (Nat.repr n).data := by
    rw [heq, List.dropWhile_cons_of_neg (by rw [hsp]; exact Bool.false_ne_true)]
  have hhead : (Nat.repr n).data.head? = some d := by rw [heq]; rfl
  have h1 : ¬ (some d = some '-') := fun hh => hminus (Option.some.inj hh)
  have h2 : ¬ (some d = some '+') := fun hh => hplus (Option.some.inj hh)
  have hne : (Nat.repr n).data ≠ [] := by rw [heq]; exact List.cons_ne_nil _ _
  simp only [scanDecimal, hdrop, hhead, h1, h2, or_self, if_false, htake, hne, hval,
    decide_False, Bool.false_eq_true]

/-- An integer in the range of `int` is stored as it is: it is within the
limits of `long`, and it is its own conversion to `int`. -/
theorem toInt32_strtolValue (v : Int) (hlo : -2147483648 ≤ v) (hhi : v < 2147483648) :
    toInt32 (strtolValue v) = v := by
  unfold toInt32 strtolValue LONG_MAX LONG_MIN
  rw [if_neg (by omega), if_neg (by omega)]
  omega

/-- The call `sscanf(s, "%d", &n)` returns 1 exactly when the conversion
reads an integer, and then stores the conversion of that integer. -/
theorem sscanf_d_eq (s : String) :
    sscanf_d s = (scanDecimal s).map (fun v => toInt32 (strtolValue v)) := by
  unfold sscanf_d
  cases scanDecimal s <;> rfl

/-- The conversion `%d` of `sscanf` reads a decimal numeral back. -/
theorem sscanf_d_repr (n : Nat) : sscanf_d (Nat.repr n) = some (toInt32 (strtolValue n)) := by
  rw [sscanf_d_eq, scanDecimal_repr]
  rfl

set_option maxRecDepth 100000 in
/-- Beyond the range of `long` the value stored comes from the limit: the
numeral of `2^63` is stored as -1, the low 32 bits of `LONG_MAX`, and a
numeral below `LONG_MIN` is stored as 0, the low 32 bits of `LONG_MIN`. -/
theorem sscanf_d_saturates :
    sscanf_d "9223372036854775808" = some (-1) ∧
    sscanf_d "-99999999999999999999" = some 0 := by
  decide

/-- An `int` that is not negative is its own conversion to `int`. -/
theorem toInt32_of_lt (n : Nat) (h : n < 2147483648) : toInt32 n = n := by
  unfold toInt32
  omega


/-! ## Messages -/

/-- A field width of 0 pads nothing. -/
theorem padTo_zero (left : Bool) (body : List Char) : padTo left 0 body = body := by
  cases left <;> simp [padTo]

/-- The prefix `APP_NAME: ` of the messages. -/
theorem printf_name (APP_NAME : String) : printf "%s: " [.str APP_NAME] = APP_NAME ++ ": " := by
  have h : formatAux none ['%', 's', ':', ' '] [.str APP_NAME] = APP_NAME.data ++ [':', ' '] := by
    simp [formatAux, convert, padTo_zero]
  apply String.ext
  show formatAux none ['%', 's', ':', ' '] [.str APP_NAME] = _
  rw [h]
  simp

/-- The exit of line 145. -/
theorem errexit_invalid_pid {α : Type} (APP_NAME : String) :
    (errexit APP_NAME "invalid process identifier (argument of -p)" [] : Exit α)
      = .exit 1 (APP_NAME ++ ": invalid process identifier (argument of -p)\n") := by
  unfold errexit
  rw [printf_name]
  have h : printf "invalid process identifier (argument of -p)" []
      = "invalid process identifier (argument of -p)" := by decide
  rw [h, String.append_assoc, String.append_assoc]
  rfl


/-! ## C3: validation of the process identifier -/

/-- What `getargs` does with `-p optarg` alone. -/
theorem getargs_p (APP_NAME optarg : String) :
    getargs [APP_NAME, "-p", optarg] =
      match sscanf_d optarg with
      | none => errexit APP_NAME "invalid process identifier (argument of -p)" []
      | some n =>
        if n < 0 then errexit APP_NAME "invalid process identifier (argument of -p)" []
        else .ret { OPTS with pid := n, matchType := MATCH_PID, appAction := APP_SWITCH } := by
  have hscan : getoptScan opts.data none ["-p", optarg] = ([.withArg 'p' optarg], []) := rfl
  have hstep : optStep APP_NAME OPTS (.withArg 'p' optarg) =
      match sscanf_d optarg with
      | none => errexit APP_NAME "invalid process identifier (argument of -p)" []
      | some n =>
        if n < 0 then errexit APP_NAME "invalid process identifier (argument of -p)" []
        else .ret { OPTS with pid := n, matchType := MATCH_PID } := rfl
  simp only [getargs, hscan, optLoop, hstep]
  cases sscanf_d optarg with
  | none => rfl
  | some n =>
    by_cases hn : n < 0
    · simp only [hn, if_true]; rfl
    · simp only [hn, if_false]; rfl

/-- C3 (the claim fails). The argument `42abc` is not a non-negative integer,
yet `-p 42abc` is accepted and the criterion becomes the process identifier
42: `sscanf` stops at the first character that is not a digit and the rest
of the argument is never looked at. -/
theorem pid_trailing_text_accepted :
    specNonNegativeInteger "42abc" = false ∧
    getargs ["appswitch", "-p", "42abc"]
      = .ret { OPTS with pid := 42, matchType := MATCH_PID, appAction := APP_SWITCH } := by
  decide

/-- C3 (amended). The argument of `-p` is accepted or rejected by what the
`%d` conversion of `sscanf` reads at its start (after optional white space
and an optional sign, at least one digit; what follows the digits is
ignored).  When it reads no integer, or a negative integer in the range of
`int`, `getargs` exits with status 1 and the message "invalid process
identifier (argument of -p)"; when it reads an integer from 0 to `2^31 - 1`,
the argument is accepted and the match type is `MATCH_PID` with that
integer.  In particular the decimal numeral of every `n` below `2^31` gives
the process identifier `n`. -/
theorem pid_validation (APP_NAME optarg : String) :
    (scanDecimal optarg = none →
      getargs [APP_NAME, "-p", optarg]
        = .exit 1 (APP_NAME ++ ": invalid process identifier (argument of -p)\n")) ∧
    (∀ v : Int, scanDecimal optarg = some v → -2147483648 ≤ v → v < 0 →
      getargs [APP_NAME, "-p", optarg]
        = .exit 1 (APP_NAME ++ ": invalid process identifier (argument of -p)\n")) ∧
    (∀ v : Int, scanDecimal optarg = some v → 0 ≤ v → v < 2147483648 →
      getargs [APP_NAME, "-p", optarg]
        = .ret { OPTS with pid := v, matchType := MATCH_PID, appAction := APP_SWITCH }) ∧
    (∀ n : Nat, n < 2147483648 →
      getargs [APP_NAME, "-p", Nat.repr n]
        = .ret { OPTS with pid := n, matchType := MATCH_PID, appAction := APP_SWITCH }) := by
  have hin : ∀ (s : String) (v : Int), scanDecimal s = some v → 0 ≤ v → v < 2147483648 →
      getargs [APP_NAME, "-p", s]
        = .ret { OPTS with pid := v, matchType := MATCH_PID, appAction := APP_SWITCH } := by
    intro s v h hlo hhi
    have hs : sscanf_d s = some v := by
      rw [sscanf_d_eq, h]
      exact congrArg some (toInt32_strtolValue v (by omega) hhi)
    rw [getargs_p, hs]
    simp only [not_lt.mpr hlo, if_false]
  refine ⟨?_, ?_, hin optarg, ?_⟩
  · intro h
    have hs : sscanf_d optarg = none := by rw [sscanf_d_eq, h]; rfl
    rw [getargs_p, hs]
    exact errexit_invalid_pid APP_NAME
  · intro v h hlo hneg
    have hs : sscanf_d optarg = some v := by
      rw [sscanf_d_eq, h]
      exact congrArg some (toInt32_strtolValue v hlo (by omega))
    rw [getargs_p, hs]
    simp only [hneg, if_true]
    exact errexit_invalid_pid APP_NAME
  · intro n hn
    exact hin (Nat.repr n) n (scanDecimal_repr n) (Int.ofNat_nonneg n) (by omega)

/-- C3 (amended) at the arguments `abc`, `-5`, `42abc` and `42`. -/
theorem pid_validation_witness :
    getargs ["appswitch", "-p", "abc"]
      = .exit 1 ("appswitch" ++ ": invalid process identifier (argument of -p)\n") ∧
    getargs ["appswitch", "-p", "-5"]
      = .exit 1 ("appswitch" ++ ": invalid process identifier (argument of -p)\n") ∧
    getargs ["appswitch", "-p", "42abc"]
      = .ret { OPTS with pid := (42 : Int), matchType := MATCH_PID, appAction := APP_SWITCH } ∧
    getargs ["appswitch", "-p", Nat.repr 42]
      = .ret { OPTS with pid := (42 : Nat), matchType := MATCH_PID, appAction := APP_SWITCH } :=
  ⟨(pid_validation "appswitch" "abc").1 (by decide),
   (pid_validation "appswitch" "-5").2.1 (-5) (by decide) (by decide) (by decide),
   (pid_validation "appswitch" "42abc").2.2.1 42 (by decide) (by decide) (by decide),
   (pid_validation "appswitch" "42").2.2.2 42 (by decide)⟩



/-! ## C4: the default action -/

/-- When `getargs` returns, the option loop has returned and `resolve` has
returned on what it left. -/
theorem getargs_ret (argv : List String) (o1 : Options) (h : getargs argv = .ret o1) :
    ∃ o, optLoop (argv.headD "") (getoptResults argv) OPTS = .ret o
      ∧ resolve (argv.headD "") o (positional argv) = .ret o1 := by
  match argv, h with
  | [], h => exact Exit.noConfusion h
  | [_], h => exact Exit.noConfusion h
  | APP_NAME :: a :: args, h =>
    cases hl : optLoop APP_NAME (getoptScan opts.data none (a :: args)).1 OPTS with
    | exit st tx =>
      simp only [getargs, hl] at h
      exact Exit.noConfusion h
    | ret o =>
      simp only [getargs, hl] at h
      exact ⟨o, hl, h⟩

/-- What `resolve` returns: an action that was set is kept, an unset action
becomes `APP_SWITCH` unless the match type is `MATCH_FRONT`, and the match
type is set. -/
theorem resolve_ret (APP_NAME : String) (o o1 : Options) (rest : List String)
    (h : resolve APP_NAME o rest = .ret o1) :
    o1.matchType ≠ MATCH_UNKNOWN ∧
    (o.appAction ≠ APP_NONE → o1.appAction = o.appAction) ∧
    (o.appAction = APP_NONE → o1.matchType ≠ MATCH_FRONT → o1.appAction = APP_SWITCH) ∧
    (o.appAction = APP_NONE → o1.matchType = MATCH_FRONT → o1.appAction = APP_NONE) ∧
    (o.matchType ≠ MATCH_UNKNOWN → o1.matchType = o.matchType) ∧
    (o.matchType ≠ MATCH_FRONT → o1.matchType = MATCH_FRONT →
      o.action ≠ ACTION_NONE ∨ o.finalAction ≠ FINAL_NONE) ∧
    o1.action = o.action ∧ o1.finalAction = o.finalAction := by
  unfold resolve at h
  by_cases hm : o.matchType = MATCH_UNKNOWN
  · rcases rest with _ | ⟨p, _ | ⟨q, rest⟩⟩
    · by_cases hl : o.appAction = APP_LIST
      · simp [hm, hl] at h
        subst h
        simp_all
      · by_cases hg : o.action = ACTION_NONE
        · by_cases hf : o.finalAction = FINAL_NONE
          · simp [hm, hl, hg, hf, usage] at h
          · simp [hm, hl, hg, hf] at h
            subst h
            simp_all
        · simp [hm, hl, hg] at h
          subst h
          simp_all
    · by_cases ha : o.appAction = APP_NONE
      · simp [hm, ha] at h
        subst h
        simp_all
      · simp [hm, ha] at h
        subst h
        simp_all
    · simp [hm, usage] at h
  · by_cases hr : rest.length = 0
    · by_cases ha : o.appAction = APP_NONE
      · by_cases hfr : o.matchType = MATCH_FRONT
        · simp [hm, hr, ha, hfr] at h
          subst h
          simp_all
        · simp [hm, hr, ha, hfr] at h
          subst h
          simp_all
      · simp [hm, hr, ha] at h
        subst h
        simp_all
    · simp [hm, hr, usage] at h

/-- C4. For every argument list `getargs` accepts: without a primary-action
flag the action is `APP_SWITCH` when the match type is not `MATCH_FRONT` and
stays `APP_NONE` when it is; and the action of a primary-action flag that
was given is the action `getargs` returns. -/
theorem getargs_default_action (argv : List String) (o1 : Options)
    (h : getargs argv = .ret o1) :
    ((∀ r ∈ getoptResults argv, isActionFlag r = false) →
      (o1.matchType ≠ MATCH_FRONT → o1.appAction = APP_SWITCH) ∧
      (o1.matchType = MATCH_FRONT → o1.appAction = APP_NONE)) ∧
    (∀ ch, .flag ch ∈ getoptResults argv → isActionFlag (.flag ch) = true →
      o1.appAction = flagAction ch) := by
  obtain ⟨o, hloop, hres⟩ := getargs_ret argv o1 h
  obtain ⟨_, _, i3, i4, _⟩ := optLoop_ret _ _ OPTS o hloop
  obtain ⟨_, r2, r3, r4, _⟩ := resolve_ret _ o o1 _ hres
  constructor
  · intro hnone
    have ha : o.appAction = APP_NONE := i3 hnone
    exact ⟨r3 ha, r4 ha⟩
  · intro ch hmem hch
    have ha : o.appAction = flagAction ch := i4 ch hmem hch
    rw [r2 (by rw [ha]; exact (flagAction_not_list ch hch).1), ha]

/-- C4 at `appswitch -a Safari` (no action flag, `APP_SWITCH`), at
`appswitch -F` (`MATCH_FRONT`, `APP_NONE`) and at `appswitch -q -a Safari`
(`APP_QUIT`). -/
theorem getargs_default_action_witness :
    (getargs ["appswitch", "-a", "Safari"]
        = .ret { OPTS with name := some "Safari", matchType := MATCH_NAME,
                           appAction := APP_SWITCH } ∧
      ({ OPTS with name := some "Safari", matchType := MATCH_NAME,
                   appAction := APP_SWITCH } : Options).appAction = APP_SWITCH) ∧
    (getargs ["appswitch", "-F"]
        = .ret { OPTS with matchType := MATCH_FRONT, finalAction := FINAL_SWITCH } ∧
      ({ OPTS with matchType := MATCH_FRONT, finalAction := FINAL_SWITCH } : Options).appAction
        = APP_NONE) ∧
    (getargs ["appswitch", "-q", "-a", "Safari"]
        = .ret { OPTS with name := some "Safari", matchType := MATCH_NAME,
                           appAction := APP_QUIT } ∧
      ({ OPTS with name := some "Safari", matchType := MATCH_NAME,
                   appAction := APP_QUIT } : Options).appAction = flagAction 'q') :=
  ⟨⟨by decide, ((getargs_default_action ["appswitch", "-a", "Safari"]
      { OPTS with name := some "Safari", matchType := MATCH_NAME, appAction := APP_SWITCH }
      (by decide)).1 (by decide)).1 (by decide)⟩,
   ⟨by decide, ((getargs_default_action ["appswitch", "-F"]
      { OPTS with matchType := MATCH_FRONT, finalAction := FINAL_SWITCH }
      (by decide)).1 (by decide)).2 (by decide)⟩,
   ⟨by decide, (getargs_default_action ["appswitch", "-q", "-a", "Safari"]
      { OPTS with name := some "Safari", matchType := MATCH_NAME, appAction := APP_QUIT }
      (by decide)).2 'q' (by decide) (by decide)⟩⟩


/-! ## The enumeration loop -/

/-- Under one of the six criteria, and unless the bundle location fails, the
`switch` of lines 338-364 either matches or continues. -/
theorem matchRecord_satisfies (w : World) (APP_NAME : String) (o : Options) (p : Process)
    (hc : isCriterion o.matchType = true) (hl : locationFails w o p = false) :
    matchRecord w APP_NAME o p = .ret (satisfies w o p) := by
  unfold satisfies matchRecord
  cases hm : o.matchType <;> simp only [hm] at hc ⊢
  · exact absurd hc (by decide)
  · exact absurd hc (by decide)
  · simp only [locationFails, hm, decide_True, Bool.true_and, decide_eq_false_iff_not] at hl
    unfold bundleIdentifierForApplication
    cases hb : w.bundle p.path with
    | noURL => exact absurd hb hl
    | noBundle => rfl
    | noIdentifier => rfl
    | identifier b => cases o.bundleID <;> rfl

/-- Line 369 to 393 for an application whose bundle location can be had when
the long form asks for it: the row is written and the loop goes on. -/
theorem printRow_ok (w : World) (APP_NAME : String) (o : Options) (format : String)
    (p : Process) (stdout : String) (h : o.longList = true → w.bundle p.path ≠ .noURL) :
    printRow w APP_NAME o format p stdout = (stdout ++ rowOf w o format p, .ret ()) := by
  unfold printRow rowOf bundleIdentifierForApplication
  cases hl : o.longList with
  | false => simp [String.append_assoc]
  | true =>
    cases hb : w.bundle p.path with
    | noURL => exact absurd hb (h hl)
    | noBundle => simp [String.append_assoc]
    | noIdentifier => simp [String.append_assoc]
    | identifier b => simp [String.append_assoc]

/-- The loop over applications it passes without ending the run: it fetches
each of them, writes the rows of those that satisfy the criterion, and goes
on with the rest. -/
theorem enumerate_append (w : World) (APP_NAME : String) (o : Options) (format : String)
    (hinfo : ∀ tr psn, w.status tr (.CPSGetProcessInfo psn) = noErr)
    (pre rest : List Process) (psn : CPSProcessSerNum) (info : Option CPSProcessInfoRec)
    (trace : List OSCall) (stdout : String) (hpre : ∀ q ∈ pre, passes w o q) :
    enumerate w APP_NAME o format (pre ++ rest) psn info trace stdout
      = enumerate w APP_NAME o format rest (lastPsn psn pre) (lastInfo info pre)
          (trace ++ fetchCalls psn pre) (stdout ++ listRows w o format pre) := by
  induction pre generalizing psn info trace stdout with
  | nil => simp [lastPsn, lastInfo, fetchCalls, listRows]
  | cons q pre ih =>
    obtain ⟨hc, hl, hs⟩ := hpre q (List.mem_cons_self _ _)
    have hrest : ∀ x ∈ pre, passes w o x := fun x hx => hpre x (List.mem_cons_of_mem _ hx)
    rw [List.cons_append, enumerate]
    simp only [hinfo, ne_eq, not_true_eq_false, if_false, matchRecord_satisfies w APP_NAME o q hc hl]
    cases hsat : satisfies w o q with
    | false =>
      simp only [ih _ _ _ _ hrest, lastPsn, lastInfo, fetchCalls, listRows, hsat,
        Bool.false_eq_true, if_false, List.append_assoc, List.cons_append, List.nil_append,
        String.empty_append]
    | true =>
      obtain ⟨ha, hlong⟩ := hs hsat
      simp only [ha, if_true, printRow_ok w APP_NAME o format q stdout hlong,
        ih _ _ _ _ hrest, lastPsn, lastInfo, fetchCalls, listRows, hsat,
        List.append_assoc, List.cons_append, List.nil_append, String.append_assoc]

/-- The predicate of each criterion: every application under All, equality
of the creator, of the name, of the process identifier (as 32-bit values) and
of the path under Creator, Name, Pid and Path, and under BundleID a bundle
identifier that there is and that equals the one asked for up to case. -/
theorem satisfies_eq (w : World) (o : Options) (p : Process) :
    satisfies w o p =
      match o.matchType with
      | MATCH_ALL => true
      | MATCH_CREATOR => decide (o.creator = p.info.ExecFileCreator)
      | MATCH_NAME => decide (o.name = some p.name)
      | MATCH_PID => decide (o.pid % 4294967296 = (p.info.UnixPID : Int) % 4294967296)
      | MATCH_PATH => decide (o.path = some p.path)
      | MATCH_BUNDLE_ID =>
        match w.bundle p.path, o.bundleID with
        | .identifier bundleID, some wanted => caseInsensitiveEq wanted bundleID
        | _, _ => false
      | _ => false := by
  unfold satisfies matchRecord bundleIdentifierForApplication
  cases o.matchType <;> try rfl
  cases w.bundle p.path <;> cases o.bundleID <;> rfl


/-- Fetching two lists one after the other. -/
theorem fetchCalls_append (psn : CPSProcessSerNum) (pre ps : List Process) :
    fetchCalls psn (pre ++ ps) = fetchCalls psn pre ++ fetchCalls (lastPsn psn pre) ps := by
  induction pre generalizing psn with
  | nil => rfl
  | cons q pre ih => simp [fetchCalls, lastPsn, ih]

/-- What the end of the enumeration does (lines 398-403): one more call of
`CPSGetNextProcess`, then, at the normal end under `APP_LIST`, the call of
`CPSGetFrontProcess`; nothing is written to standard output. -/
theorem enumerate_nil (w : World) (APP_NAME : String) (o : Options) (format : String)
    (psn : CPSProcessSerNum) (info : Option CPSProcessInfoRec) (trace : List OSCall)
    (stdout : String) :
    (enumerate w APP_NAME o format [] psn info trace stdout).trace
      = trace ++ .CPSGetNextProcess psn ::
          (if w.endStatus = procNotFound ∧ o.appAction = APP_LIST then [.CPSGetFrontProcess]
           else []) ∧
    (enumerate w APP_NAME o format [] psn info trace stdout).stdout = stdout := by
  unfold enumerate
  by_cases he : w.endStatus = procNotFound
  · by_cases ha : o.appAction = APP_LIST
    · by_cases hf : (w.front (trace ++ [.CPSGetNextProcess psn])).1 = noErr
      · simp [he, ha, frontApplication, hf]
      · simp [he, ha, frontApplication, hf, osstatusexit]
    · simp [he, ha]
  · simp [he]

/-- An application that satisfies the criterion has a bundle location where
one is asked for. -/
theorem satisfies_location (w : World) (o : Options) (p : Process)
    (h : satisfies w o p = true) : locationFails w o p = false := by
  cases hl : locationFails w o p with
  | false => rfl
  | true =>
    simp only [locationFails, Bool.and_eq_true, decide_eq_true_eq] at hl
    simp [satisfies, matchRecord, hl.1, bundleIdentifierForApplication, hl.2, errexit] at h

/-! ## C5: the first match is selected -/

/-- C5 (the claim fails). Finder and Safari are running and the criterion is
the bundle identifier of Safari, which Safari alone satisfies; but no URL
can be made for the path of Finder, and the program exits at Finder with
status 1 instead of selecting Safari.  In the long listing of the same two
applications the program exits at Finder likewise, and Safari is never
fetched. -/
theorem first_match_not_selected :
    satisfies noLocationWorld
      { OPTS with bundleID := some "com.apple.Safari", matchType := MATCH_BUNDLE_ID,
                  appAction := APP_SWITCH } finder = false ∧
    satisfies noLocationWorld
      { OPTS with bundleID := some "com.apple.Safari", matchType := MATCH_BUNDLE_ID,
                  appAction := APP_SWITCH } safari = true ∧
    getargs ["appswitch", "-i", "com.apple.Safari"]
      = .ret { OPTS with bundleID := some "com.apple.Safari", matchType := MATCH_BUNDLE_ID,
                         appAction := APP_SWITCH } ∧
    main noLocationWorld ["appswitch", "-i", "com.apple.Safari"]
      = { trace := [.InitCursor, .CPSGetNextProcess ⟨0, 0⟩, .CPSGetProcessInfo ⟨0, 1⟩],
          stdout := "", status := 1,
          stderr := "appswitch: can\x27t get bundle location for process \x27Finder\x27 (PSN 0.1, pid 100)\n" } ∧
    (main noLocationWorld ["appswitch", "-L"]).trace
      = [.InitCursor, .CPSGetNextProcess ⟨0, 0⟩, .CPSGetProcessInfo ⟨0, 1⟩] ∧
    (main noLocationWorld ["appswitch", "-L"]).status = 1 := by
  decide

/-- C5 (amended). For every finite sequence of applications whose
information is retrieved without error and every criterion among Creator,
Name, Pid, Path, BundleID, All: when the action is not `APP_LIST`, some
application satisfies the criterion and, under BundleID, the bundle location
of every application before the first such one can be had, then
`matchApplication` returns the serial number of the first such application
and has fetched the applications up to it and none after it; when the action
is `APP_LIST` and no bundle location that is asked for fails, the scan
fetches every application of the sequence. -/
theorem matchApplication_first_match (w : World) (APP_NAME : String) (o : Options)
    (trace : List OSCall) (stdout : String)
    (hinfo : ∀ tr psn, w.status tr (.CPSGetProcessInfo psn) = noErr)
    (hc : isCriterion o.matchType = true) :
    (o.appAction ≠ APP_LIST →
      ∀ pre p post, w.procs = pre ++ p :: post →
        satisfies w o p = true →
        (∀ q ∈ pre, satisfies w o q = false ∧ locationFails w o q = false) →
        matchApplication w APP_NAME o trace stdout
          = { trace := trace ++ fetchCalls ⟨kNoProcess, kNoProcess⟩ (pre ++ [p]),
              stdout := stdout, result := .ret (p.psn, some p.info) }) ∧
    (o.appAction = APP_LIST →
      (∀ q ∈ w.procs, locationFails w o q = false ∧
        (satisfies w o q = true → o.longList = true → w.bundle q.path ≠ .noURL)) →
      ∃ rest, (matchApplication w APP_NAME o trace stdout).trace
        = trace ++ fetchCalls ⟨kNoProcess, kNoProcess⟩ w.procs ++ rest) := by
  have hfront : o.matchType ≠ MATCH_FRONT := by
    intro hh; rw [hh] at hc; exact absurd hc (by decide)
  constructor
  · intro ha pre p post hprocs hp hpre
    have hpass : ∀ q ∈ pre, passes w o q := fun q hq =>
      ⟨hc, (hpre q hq).2, fun hs => by rw [(hpre q hq).1] at hs; exact Bool.noConfusion hs⟩
    have hrows : listRows w o "" pre = "" := by
      clear hpass hprocs
      induction pre with
      | nil => rfl
      | cons q pre ih =>
        simp only [listRows, (hpre q (List.mem_cons_self _ _)).1, Bool.false_eq_true, if_false,
          ih (fun x hx => hpre x (List.mem_cons_of_mem _ hx)), String.append_empty]
    simp only [matchApplication, hfront, if_false, ha, hprocs]
    rw [enumerate_append w APP_NAME o "" hinfo pre (p :: post) _ _ _ _ hpass, enumerate]
    simp only [hinfo, ne_eq, not_true_eq_false, if_false,
      matchRecord_satisfies w APP_NAME o p hc (satisfies_location w o p hp), hp, ha, hrows,
      fetchCalls_append, fetchCalls, List.append_assoc, String.append_empty]
  · intro ha hall
    have hpass : ∀ q ∈ w.procs, passes w o q := fun q hq =>
      ⟨hc, (hall q hq).1, fun hs => ⟨ha, (hall q hq).2 hs⟩⟩
    simp only [matchApplication, hfront, if_false, ha, if_true]
    have happ := enumerate_append w APP_NAME o (listFormat w o).2 hinfo w.procs []
      ⟨kNoProcess, kNoProcess⟩ none trace (stdout ++ (listFormat w o).1) hpass
    rw [List.append_nil] at happ
    rw [happ, (enumerate_nil w APP_NAME o _ _ _ _ _).1]
    exact ⟨_, rfl⟩

/-- C5 (amended) at the example of the specification: with Finder and Safari
running and the criterion Name("Safari"), Safari is returned after Finder and
Safari have been fetched. -/
theorem matchApplication_first_match_witness :
    matchApplication exampleWorld "appswitch"
        { OPTS with name := some "Safari", matchType := MATCH_NAME, appAction := APP_SWITCH }
        [.InitCursor] ""
      = { trace := [.InitCursor] ++ fetchCalls ⟨kNoProcess, kNoProcess⟩ ([finder] ++ [safari]),
          stdout := "", result := .ret (safari.psn, some safari.info) } :=
  (matchApplication_first_match exampleWorld "appswitch"
      { OPTS with name := some "Safari", matchType := MATCH_NAME, appAction := APP_SWITCH }
      [.InitCursor] "" (fun _ _ => rfl) (by decide)).1 (by decide) [finder] safari []
    (by decide) (by decide) (by decide)


/-! ## C6: no application satisfies the criterion -/

/-- The exit of line 402. -/
theorem errexit_no_match {α : Type} (APP_NAME : String) :
    (errexit APP_NAME "can\x27t find matching process" [] : Exit α)
      = .exit 1 (APP_NAME ++ ": can\x27t find matching process\n") := by
  unfold errexit
  rw [printf_name]
  have h : printf "can\x27t find matching process" [] = "can\x27t find matching process" := by
    decide
  rw [h, String.append_assoc, String.append_assoc]
  rfl

/-- C6 (the claim fails). In the example of the specification with the
criterion Pid(999) the program exits with status 1 after the enumeration,
but the text on standard error is "appswitch: can't find matching process",
in which "no matching process found" does not occur.  And when the criterion
is a bundle identifier that no application has and no URL can be made for
the path of Finder, the program exits at Finder with another message. -/
theorem no_match_message :
    main exampleWorld ["appswitch", "-p", "999"]
      = { trace := [.InitCursor, .CPSGetNextProcess ⟨0, 0⟩, .CPSGetProcessInfo ⟨0, 1⟩,
                    .CPSGetNextProcess ⟨0, 1⟩, .CPSGetProcessInfo ⟨0, 2⟩,
                    .CPSGetNextProcess ⟨0, 2⟩],
          stdout := "", status := 1,
          stderr := "appswitch: can\x27t find matching process\n" } ∧
    ¬ ("no matching process found".data
        <:+: (main exampleWorld ["appswitch", "-p", "999"]).stderr.data) ∧
    main noLocationWorld ["appswitch", "-i", "org.example.none"]
      = { trace := [.InitCursor, .CPSGetNextProcess ⟨0, 0⟩, .CPSGetProcessInfo ⟨0, 1⟩],
          stdout := "", status := 1,
          stderr := "appswitch: can\x27t get bundle location for process \x27Finder\x27 (PSN 0.1, pid 100)\n" } := by
  decide

/-- C6 (amended). For every finite sequence of applications whose
information is retrieved without error and of which none satisfies the
criterion (the bundle location of each being had where BundleID asks for
it), and every action other than `APP_LIST`: when the enumeration ends with
`procNotFound`, the program writes `APP_NAME: can't find matching process` to
standard error and exits with status 1, having made no call but
`InitCursor` and those of the enumeration. -/
theorem no_match_outcome (w : World) (APP_NAME : String) (o : Options)
    (hinfo : ∀ tr psn, w.status tr (.CPSGetProcessInfo psn) = noErr)
    (hc : isCriterion o.matchType = true) (ha : o.appAction ≠ APP_LIST)
    (hnone : ∀ q ∈ w.procs, satisfies w o q = false ∧ locationFails w o q = false)
    (hend : w.endStatus = procNotFound) :
    run w APP_NAME o
      = { trace := [.InitCursor] ++ fetchCalls ⟨kNoProcess, kNoProcess⟩ w.procs
            ++ [.CPSGetNextProcess (lastPsn ⟨kNoProcess, kNoProcess⟩ w.procs)],
          stdout := "", status := 1,
          stderr := APP_NAME ++ ": can\x27t find matching process\n" } := by
  have hfront : o.matchType ≠ MATCH_FRONT := by
    intro hh; rw [hh] at hc; exact absurd hc (by decide)
  have hpass : ∀ q ∈ w.procs, passes w o q := fun q hq =>
    ⟨hc, (hnone q hq).2, fun hs => by rw [(hnone q hq).1] at hs; exact Bool.noConfusion hs⟩
  have hrows : ∀ ps : List Process, (∀ q ∈ ps, satisfies w o q = false) →
      listRows w o "" ps = "" := by
    intro ps
    induction ps with
    | nil => intro _; rfl
    | cons q ps ih =>
      intro h
      simp only [listRows, h q (List.mem_cons_self _ _), Bool.false_eq_true, if_false,
        ih (fun x hx => h x (List.mem_cons_of_mem _ hx)), String.append_empty]
  have happ := enumerate_append w APP_NAME o "" hinfo w.procs []
    ⟨kNoProcess, kNoProcess⟩ none [.InitCursor] "" hpass
  rw [List.append_nil, hrows w.procs (fun q hq => (hnone q hq).1)] at happ
  simp only [run, matchApplication, hfront, if_false, ha, happ, enumerate, hend, ne_eq,
    not_true_eq_false, errexit_no_match, String.append_empty, List.append_assoc]

/-- C6 (amended) at the example of the specification: Finder and Safari with
the criterion Pid(999). -/
theorem no_match_outcome_witness :
    run exampleWorld "appswitch"
        { OPTS with pid := 999, matchType := MATCH_PID, appAction := APP_SWITCH }
      = { trace := [.InitCursor] ++ fetchCalls ⟨kNoProcess, kNoProcess⟩ exampleWorld.procs
            ++ [.CPSGetNextProcess (lastPsn ⟨kNoProcess, kNoProcess⟩ exampleWorld.procs)],
          stdout := "", status := 1,
          stderr := "appswitch" ++ ": can\x27t find matching process\n" } :=
  no_match_outcome exampleWorld "appswitch"
    { OPTS with pid := 999, matchType := MATCH_PID, appAction := APP_SWITCH }
    (fun _ _ => rfl) (by decide) (by decide) (by decide) (by decide)


/-! ## C9: the decoded status -/

/-- The text of `osstatusstr` for any status: the description, a blank and
the numeral in parentheses, cut to 9 characters after the description. -/
theorem osstatusstr_eq (err : OSStatus) :
    osstatusstr err
      = String.mk (((lookupErr err ERRS).data ++ ' ' :: '(' :: (decimal err ++ [')'])).take
          ((lookupErr err ERRS).length + 9)) := by
  have h : formatAux none ['%', 's', ' ', '(', '%', 'l', 'd', ')']
      [.str (lookupErr err ERRS), .int err]
      = (lookupErr err ERRS).data ++ ' ' :: '(' :: (decimal err ++ [')']) := by
    simp [formatAux, convert, padTo_zero]
  show String.mk ((formatAux none ['%', 's', ' ', '(', '%', 'l', 'd', ')'] _).take _) = _
  rw [h]
  rfl

/-- The text of `osstatusstr` is complete when the numeral of the status has
at most 6 characters. -/
theorem osstatusstr_short (err : OSStatus) (h : (decimal err).length ≤ 6) :
    osstatusstr err
      = lookupErr err ERRS ++ " (" ++ String.mk (decimal err) ++ ")" := by
  rw [osstatusstr_eq, List.take_of_length_le]
  · apply String.ext
    simp [String.data_append]
  · simp only [List.length_append, List.length_cons, List.length_nil, String.length]
    omega
/-- C9 (the code at the failing input). For the status 268435459, which is
not in the table, `osstatusstr` returns `unknown error (2684354`: the buffer
has room for 9 characters after the description, of which the blank and the
two parentheses take 3, so that a numeral of more than 6 characters is cut
and the closing parenthesis is lost.  A numeral of at most 6 characters is
complete, as for the status -606 of the table. -/
theorem osstatusstr_cut_short :
    osstatusstr 268435459 = "unknown error (2684354" ∧
    osstatusstr 268435459 ≠ "unknown error (268435459)" ∧
    osstatusstr (-1234567) = "unknown error (-123456" ∧
    osstatusstr (-606) = "application is background-only\n (-606)" := by
  decide


/-! ## C10: no partial application -/

/-- The calls of `quitApplication` are the first ones of its three calls,
up to the first that fails. -/
theorem quitApplication_trace (w : World) (trace : List OSCall) (psn : CPSProcessSerNum) :
    ∃ P, (quitApplication w trace psn).1 = trace ++ P
      ∧ P <+: [.AECreateDesc psn, .AECreateAppleEvent, .AESendMessage] := by
  unfold quitApplication
  split_ifs
  · exact ⟨[.AECreateDesc psn], rfl, ⟨[.AECreateAppleEvent, .AESendMessage], rfl⟩⟩
  · exact ⟨[.AECreateDesc psn, .AECreateAppleEvent], rfl, ⟨[.AESendMessage], rfl⟩⟩
  · exact ⟨[.AECreateDesc psn, .AECreateAppleEvent, .AESendMessage], rfl, ⟨[], rfl⟩⟩

/-- The calls of the primary action are made on the process selected, each
once and in the order of the code, and nothing is called besides. -/
theorem appActionStep_trace (w : World) (APP_NAME : String) (o : Options)
    (psn : CPSProcessSerNum) (info : Option CPSProcessInfoRec) (trace : List OSCall)
    (stdout : String) :
    ∃ P, (appActionStep w APP_NAME o psn info trace stdout).trace = trace ++ P
      ∧ P <+: primaryCalls o psn := by
  unfold appActionStep primaryCalls
  cases o.appAction
  case APP_QUIT => exact quitApplication_trace w trace psn
  case APP_PRINT_PID =>
    simp only
    split_ifs <;> exact ⟨[], (List.append_nil _).symm, ⟨[], rfl⟩⟩
  all_goals first
    | exact ⟨[], (List.append_nil _).symm, ⟨[], rfl⟩⟩
    | exact ⟨_, rfl, ⟨[], List.append_nil _⟩⟩

/-- The request of the global action is made once, on the process selected. -/
theorem actionStep_trace (w : World) (o : Options) (psn : CPSProcessSerNum)
    (trace : List OSCall) : (actionStep w o psn trace).1 = trace ++ globalCalls o psn := by
  unfold actionStep globalCalls
  cases o.action <;> simp

/-- The statement of line 454 makes the show request and, when that
succeeds, the set-front request, each once. -/
theorem showAndSetFront_trace (w : World) (psn : CPSProcessSerNum) (trace : List OSCall) :
    ∃ S, (showAndSetFront w psn trace).1 = trace ++ S
      ∧ S <+: [.CPSPostShowReq psn, .CPSSetFrontProcess psn] := by
  unfold showAndSetFront
  split_ifs
  · exact ⟨[.CPSPostShowReq psn], rfl, ⟨[.CPSSetFrontProcess psn], rfl⟩⟩
  · exact ⟨[.CPSPostShowReq psn, .CPSSetFrontProcess psn], rfl, ⟨[], rfl⟩⟩
  · exact ⟨[.CPSPostShowReq psn, .CPSSetFrontProcess psn], rfl, ⟨[], rfl⟩⟩

/-- The trace of the final action when the query for the frontmost process
succeeds: that of line 454, after the pause when there was a global action. -/
theorem finalStep_front (w : World) (APP_NAME : String) (o : Options) (trace : List OSCall)
    (stdout : String) (hf : o.finalAction = FINAL_SWITCH) (hfr : (w.front trace).1 = noErr) :
    (finalStep w APP_NAME o trace stdout).trace
      = (showAndSetFront w (w.front trace).2
          (if o.action ≠ ACTION_NONE then trace ++ [.CPSGetFrontProcess] ++ [.usleep 750000]
           else trace ++ [.CPSGetFrontProcess])).1 := by
  simp only [finalStep, hf, frontApplication, hfr, ne_eq, not_true_eq_false, if_false]
  split_ifs <;> rfl

/-- The calls of the final action are the first ones of the query for the
frontmost process, the pause when there was a global action, the show
request and the set-front request on the process the query returned, each
once and in this order, up to the first that fails. -/
theorem finalStep_trace (w : World) (APP_NAME : String) (o : Options) (trace : List OSCall)
    (stdout : String) :
    ∃ F, (finalStep w APP_NAME o trace stdout).trace = trace ++ F
      ∧ F <+: finalCalls o (w.front trace).2 := by
  cases hf : o.finalAction with
  | FINAL_NONE =>
    simp only [finalStep, finalCalls, hf]
    exact ⟨[], (List.append_nil _).symm, ⟨[], rfl⟩⟩
  | FINAL_SWITCH =>
    by_cases hfr : (w.front trace).1 = noErr
    · rw [finalStep_front w APP_NAME o trace stdout hf hfr]
      simp only [finalCalls, hf]
      by_cases ha : o.action = ACTION_NONE
      · simp only [ha, ne_eq, not_true_eq_false, if_false]
        obtain ⟨S, hS, T, hT⟩ := showAndSetFront_trace w (w.front trace).2
          (trace ++ [.CPSGetFrontProcess])
        refine ⟨.CPSGetFrontProcess :: S, ?_, ⟨T, ?_⟩⟩
        · rw [hS]; simp
        · simp [hT]
      · simp only [ha, ne_eq, not_false_eq_true, if_true]
        obtain ⟨S, hS, T, hT⟩ := showAndSetFront_trace w (w.front trace).2
          (trace ++ [.CPSGetFrontProcess] ++ [.usleep 750000])
        refine ⟨.CPSGetFrontProcess :: .usleep 750000 :: S, ?_, ⟨T, ?_⟩⟩
        · rw [hS]; simp
        · simp [hT]
    · simp only [finalStep, finalCalls, hf, frontApplication, hfr, ne_eq, not_false_eq_true,
        if_true, osstatusexit]
      exact ⟨[.CPSGetFrontProcess], rfl, ⟨_, rfl⟩⟩

/-- How `main` ends when the primary action exits by itself (line 429). -/
theorem dispatch_of_exit (w : World) (APP_NAME : String) (o : Options)
    (psn : CPSProcessSerNum) (info : Option CPSProcessInfoRec) (trace : List OSCall)
    (stdout : String) (status : Nat) (text : String)
    (h : (appActionStep w APP_NAME o psn info trace stdout).result = .exit status text) :
    dispatch w APP_NAME o psn info trace stdout
      = ⟨(appActionStep w APP_NAME o psn info trace stdout).trace,
          (appActionStep w APP_NAME o psn info trace stdout).stdout, status, text⟩ := by
  unfold dispatch
  generalize appActionStep w APP_NAME o psn info trace stdout = r at h
  obtain ⟨t1, s1, res⟩ := r
  simp only at h
  subst h
  rfl

/-- How `main` ends when the primary action leaves a status other than
`noErr` in `err` (line 435): at once, with status 1. -/
theorem dispatch_of_err (w : World) (APP_NAME : String) (o : Options)
    (psn : CPSProcessSerNum) (info : Option CPSProcessInfoRec) (trace : List OSCall)
    (stdout : String) (err : OSStatus) (verb : String)
    (h : (appActionStep w APP_NAME o psn info trace stdout).result = .ret (err, verb))
    (he : err ≠ noErr) :
    dispatch w APP_NAME o psn info trace stdout
      = ⟨(appActionStep w APP_NAME o psn info trace stdout).trace,
          (appActionStep w APP_NAME o psn info trace stdout).stdout, 1,
          printf "%s: " [.str APP_NAME] ++ printf "can\x27t %s process" [.str verb]
            ++ printf ": %s\n" [.str (osstatusstr err)]⟩ := by
  unfold dispatch
  generalize appActionStep w APP_NAME o psn info trace stdout = r at h
  obtain ⟨t1, s1, res⟩ := r
  simp only at h
  subst h
  simp only [he, ne_eq, not_false_eq_true, if_true]
  rfl

/-- How `main` goes on when the primary action leaves `noErr` in `err`. -/
theorem dispatch_of_ok (w : World) (APP_NAME : String) (o : Options)
    (psn : CPSProcessSerNum) (info : Option CPSProcessInfoRec) (trace : List OSCall)
    (stdout : String) (verb : String)
    (h : (appActionStep w APP_NAME o psn info trace stdout).result = .ret (noErr, verb)) :
    dispatch w APP_NAME o psn info trace stdout
      = globalStep w APP_NAME o psn (appActionStep w APP_NAME o psn info trace stdout).trace
          (appActionStep w APP_NAME o psn info trace stdout).stdout := by
  unfold dispatch
  generalize appActionStep w APP_NAME o psn info trace stdout = r at h
  obtain ⟨t1, s1, res⟩ := r
  simp only at h
  subst h
  simp

/-- How `main` ends when the global action leaves a status other than
`noErr` in `err` (line 444): at once, with status 1. -/
theorem globalStep_of_err (w : World) (APP_NAME : String) (o : Options)
    (psn : CPSProcessSerNum) (trace : List OSCall) (stdout : String)
    (he : (actionStep w o psn trace).2.1 ≠ noErr) :
    (globalStep w APP_NAME o psn trace stdout).trace = trace ++ globalCalls o psn ∧
    (globalStep w APP_NAME o psn trace stdout).status = 1 := by
  unfold globalStep
  rw [if_pos he, actionStep_trace]
  exact ⟨rfl, rfl⟩

/-- The calls of lines 437-462: the request of the global action, then the
first ones of the final action. -/
theorem globalStep_trace (w : World) (APP_NAME : String) (o : Options)
    (psn : CPSProcessSerNum) (trace : List OSCall) (stdout : String) :
    ∃ G F, (globalStep w APP_NAME o psn trace stdout).trace = trace ++ G ++ F
      ∧ G <+: globalCalls o psn ∧ F <+: finalCalls o (w.front (trace ++ G)).2 := by
  by_cases he : (actionStep w o psn trace).2.1 = noErr
  · obtain ⟨F, hF, hpre⟩ := finalStep_trace w APP_NAME o (trace ++ globalCalls o psn) stdout
    refine ⟨globalCalls o psn, F, ?_, List.prefix_refl _, hpre⟩
    unfold globalStep
    rw [if_neg (not_not.mpr he), actionStep_trace, hF]
  · refine ⟨globalCalls o psn, [], ?_, List.prefix_refl _, List.nil_prefix⟩
    rw [(globalStep_of_err w APP_NAME o psn trace stdout he).1, List.append_nil]

/-- C10. For all options, every process selected and every outcome of the
calls to the operating system, lines 418-462 of `main` make the calls of the
primary action, then the request of the global action, then the calls of the
final action, each at most once and in this order; when the primary action
leaves a status other than `noErr` nothing is called after it, when the
request of the global action returns one nothing is called after it, and in
both cases the program exits with status 1. -/
theorem dispatch_no_partial_application (w : World) (APP_NAME : String) (o : Options)
    (psn : CPSProcessSerNum) (info : Option CPSProcessInfoRec) (trace : List OSCall)
    (stdout : String) :
    (∃ P G F, (dispatch w APP_NAME o psn info trace stdout).trace = trace ++ P ++ G ++ F
      ∧ P <+: primaryCalls o psn ∧ G <+: globalCalls o psn
      ∧ F <+: finalCalls o (w.front (trace ++ P ++ G)).2) ∧
    (∀ err verb,
      (appActionStep w APP_NAME o psn info trace stdout).result = .ret (err, verb) →
      err ≠ noErr →
      (dispatch w APP_NAME o psn info trace stdout).trace
          = (appActionStep w APP_NAME o psn info trace stdout).trace
        ∧ (dispatch w APP_NAME o psn info trace stdout).status = 1) ∧
    (∀ c, primaryCalls o psn = [c] → w.status trace c ≠ noErr →
      (dispatch w APP_NAME o psn info trace stdout).trace = trace ++ [c]
        ∧ (dispatch w APP_NAME o psn info trace stdout).status = 1) ∧
    (∀ verb c,
      (appActionStep w APP_NAME o psn info trace stdout).result = .ret (noErr, verb) →
      globalCalls o psn = [c] →
      w.status (appActionStep w APP_NAME o psn info trace stdout).trace c ≠ noErr →
      (dispatch w APP_NAME o psn info trace stdout).trace
          = (appActionStep w APP_NAME o psn info trace stdout).trace ++ [c]
        ∧ (dispatch w APP_NAME o psn info trace stdout).status = 1) := by
  obtain ⟨P, hP, hPpre⟩ := appActionStep_trace w APP_NAME o psn info trace stdout
  refine ⟨?_, ?_, ?_, ?_⟩
  · cases hres : (appActionStep w APP_NAME o psn info trace stdout).result with
    | exit status text =>
      rw [dispatch_of_exit w APP_NAME o psn info trace stdout status text hres]
      exact ⟨P, [], [], by simp [hP], hPpre, List.nil_prefix, List.nil_prefix⟩
    | ret ev =>
      obtain ⟨err, verb⟩ := ev
      by_cases he : err = noErr
      · subst he
        rw [dispatch_of_ok w APP_NAME o psn info trace stdout verb hres, hP]
        obtain ⟨G, F, hGF, hG, hF⟩ := globalStep_trace w APP_NAME o psn (trace ++ P)
          (appActionStep w APP_NAME o psn info trace stdout).stdout
        exact ⟨P, G, F, hGF, hPpre, hG, hF⟩
      · rw [dispatch_of_err w APP_NAME o psn info trace stdout err verb hres he]
        exact ⟨P, [], [], by simp [hP], hPpre, List.nil_prefix, List.nil_prefix⟩
  · intro err verb hres he
    rw [dispatch_of_err w APP_NAME o psn info trace stdout err verb hres he]
    exact ⟨rfl, rfl⟩
  · intro c hc he
    have hstep : (appActionStep w APP_NAME o psn info trace stdout).trace = trace ++ [c]
        ∧ ∃ verb, (appActionStep w APP_NAME o psn info trace stdout).result
            = .ret (w.status trace c, verb) := by
      unfold primaryCalls at hc
      unfold appActionStep
      cases ha : o.appAction <;> simp only [ha] at hc ⊢ <;> simp at hc <;>
        (subst hc; exact ⟨rfl, _, rfl⟩)
    obtain ⟨htr, verb, hres⟩ := hstep
    rw [dispatch_of_err w APP_NAME o psn info trace stdout _ verb hres he, htr]
    exact ⟨rfl, rfl⟩
  · intro verb c hres hc he
    rw [dispatch_of_ok w APP_NAME o psn info trace stdout verb hres]
    have herr : (actionStep w o psn (appActionStep w APP_NAME o psn info trace stdout).trace).2.1
        ≠ noErr := by
      unfold globalCalls at hc
      unfold actionStep
      cases ha : o.action <;> simp only [ha] at hc ⊢ <;> simp at hc <;>
        (subst hc; exact he)
    have := globalStep_of_err w APP_NAME o psn _
      (appActionStep w APP_NAME o psn info trace stdout).stdout herr
    rw [hc] at this
    exact this

/-- C10 after `appswitch -H -F -a Safari` with Safari selected: when the
set-front request fails it is the only call made, and when it succeeds and
the request to hide the others fails, nothing is called after that request;
the exit status is 1 both times. -/
theorem dispatch_no_partial_application_witness :
    ((dispatch refusingWorld "appswitch" switchHideFront safari.psn (some safari.info) [] "").trace
        = [] ++ [.CPSSetFrontProcess safari.psn]
      ∧ (dispatch refusingWorld "appswitch" switchHideFront safari.psn (some safari.info)
          [] "").status = 1) ∧
    ((dispatch hideRefusedWorld "appswitch" switchHideFront safari.psn (some safari.info)
          [] "").trace
        = (appActionStep hideRefusedWorld "appswitch" switchHideFront safari.psn
            (some safari.info) [] "").trace ++ [.CPSPostHideMostReq safari.psn]
      ∧ (dispatch hideRefusedWorld "appswitch" switchHideFront safari.psn (some safari.info)
          [] "").status = 1) :=
  ⟨(dispatch_no_partial_application refusingWorld "appswitch" switchHideFront safari.psn
      (some safari.info) [] "").2.2.1 _ rfl (by decide),
   (dispatch_no_partial_application hideRefusedWorld "appswitch" switchHideFront safari.psn
      (some safari.info) [] "").2.2.2 "set front" _ (by decide) rfl (by decide)⟩


/-! ## The rows of the listing -/

/-- The characters of `formatButPath`. -/
theorem formatButPath_data :
    formatButPath.data = ['%', '8', 'l', 'd', '.', '%', 'l', 'd', ' ', '%', '5', 'l', 'd', ' ',
      '%', 'c', '%', 'c', '%', 'c', '%', 'c', ' ', '%', 'c', '%', 'c', '%', 'c', '%', 'c', ' ',
      '%', '-', '2', '0', '.', '2', '0', 's'] := rfl

/-- The arguments of line 369 for one application. -/
theorem rowArgs_eq (p : Process) :
    [PrintfArg.int p.psn.hi, .int p.psn.lo, .int p.info.UnixPID]
        ++ OSTYPE_CHAR_ARGS p.info.ExecFileType ++ OSTYPE_CHAR_ARGS p.info.ExecFileCreator
        ++ [.str p.name, .str p.path]
      = [.int p.psn.hi, .int p.psn.lo, .int p.info.UnixPID,
          .chr (CXX p.info.ExecFileType.c0), .chr (CXX p.info.ExecFileType.c1),
          .chr (CXX p.info.ExecFileType.c2), .chr (CXX p.info.ExecFileType.c3),
          .chr (CXX p.info.ExecFileCreator.c0), .chr (CXX p.info.ExecFileCreator.c1),
          .chr (CXX p.info.ExecFileCreator.c2), .chr (CXX p.info.ExecFileCreator.c3),
          .str p.name, .str p.path] := rfl

/-- The format `formatButPath`, followed by more format, on the arguments of
a row: the fields before the path, then the rest of the format on the path. -/
theorem formatAux_row (p : Process) (rest : List Char) :
    formatAux none (formatButPath.data ++ rest)
        ([PrintfArg.int p.psn.hi, .int p.psn.lo, .int p.info.UnixPID]
          ++ OSTYPE_CHAR_ARGS p.info.ExecFileType ++ OSTYPE_CHAR_ARGS p.info.ExecFileCreator
          ++ [.str p.name, .str p.path])
      = rowFields p ++ formatAux none rest [.str p.path] := by
  rw [formatButPath_data, rowArgs_eq]
  simp [formatAux, convert, rowFields, padTo_zero, Char.isDigit]

/-- A digit is none of the characters `%`, `-`, `.` of a conversion. -/
theorem isDigit_not_special (c : Char) (h : c.isDigit = true) :
    c ≠ '%' ∧ c ≠ '-' ∧ c ≠ '.' := by
  refine ⟨?_, ?_, ?_⟩ <;> (rintro rfl; exact absurd h (by decide))

/-- Inside a conversion and before any `.`, a run of digits is read as the
field width. -/
theorem formatAux_width (ds : List Char) (hds : ∀ c ∈ ds, c.isDigit = true)
    (left : Bool) (width : Nat) (rest : List Char) (args : List PrintfArg) :
    formatAux (some ⟨left, width, none⟩) (ds ++ rest) args
      = formatAux (some ⟨left, ds.foldl (fun a c => 10 * a + (c.toNat - 48)) width, none⟩)
          rest args := by
  induction ds generalizing width with
  | nil => rfl
  | cons d ds ih =>
    have hd := hds d (List.mem_cons_self _ _)
    obtain ⟨h1, h2, h3⟩ := isDigit_not_special d hd
    rw [List.cons_append]
    simp only [formatAux, h1, h2, h3, hd, if_false, if_true]
    exact ih (fun c hc => hds c (List.mem_cons_of_mem _ hc)) _

/-- Inside a conversion and after the `.`, a run of digits is read as the
precision. -/
theorem formatAux_prec (ds : List Char) (hds : ∀ c ∈ ds, c.isDigit = true)
    (left : Bool) (width prec : Nat) (rest : List Char) (args : List PrintfArg) :
    formatAux (some ⟨left, width, some prec⟩) (ds ++ rest) args
      = formatAux (some ⟨left, width,
            some (ds.foldl (fun a c => 10 * a + (c.toNat - 48)) prec)⟩) rest args := by
  induction ds generalizing prec with
  | nil => rfl
  | cons d ds ih =>
    have hd := hds d (List.mem_cons_self _ _)
    obtain ⟨h1, h2, h3⟩ := isDigit_not_special d hd
    rw [List.cons_append]
    simp only [formatAux, h1, h2, h3, hd, if_false, if_true]
    exact ih (fun c hc => hds c (List.mem_cons_of_mem _ hc)) _

/-- The digits of a decimal numeral and their value. -/
theorem repr_digits (n : Nat) :
    (∀ c ∈ (Nat.repr n).data, c.isDigit = true) ∧
    (Nat.repr n).data.foldl (fun a c => 10 * a + (c.toNat - 48)) 0 = n := by
  obtain ⟨⟨d, ds, heq, hd, hds⟩, hval⟩ := repr_spec n
  refine ⟨fun c hc => ?_, hval⟩
  rw [heq] at hc
  rcases List.mem_cons.mp hc with hc | hc
  · rw [hc]; exact hd
  · exact hds c hc

/-- The conversion `%-n.ns`, written with the decimal numeral of `n`, cuts
the string to `n` characters and pads it on the right to `n`. -/
theorem formatAux_path (n : Nat) (path : String) :
    formatAux none (' ' :: '%' :: '-' :: ((Nat.repr n).data ++ '.' :: ((Nat.repr n).data ++ ['s'])))
        [.str path]
      = ' ' :: padTo true n (path.data.take n) := by
  obtain ⟨hds, hval⟩ := repr_digits n
  have h1 : formatAux none
      (' ' :: '%' :: '-' :: ((Nat.repr n).data ++ '.' :: ((Nat.repr n).data ++ ['s'])))
        [.str path]
      = ' ' :: formatAux (some ⟨true, 0, none⟩)
          ((Nat.repr n).data ++ '.' :: ((Nat.repr n).data ++ ['s'])) [.str path] := by
    simp [formatAux]
  have h2 : formatAux (some ⟨true, n, none⟩) ('.' :: ((Nat.repr n).data ++ ['s'])) [.str path]
      = formatAux (some ⟨true, n, some 0⟩) ((Nat.repr n).data ++ ['s']) [.str path] := by
    simp [formatAux]
  have h3 : formatAux (some ⟨true, n, some n⟩) ['s'] [.str path]
      = padTo true n (path.data.take n) := by
    simp [formatAux, convert]
  rw [h1, formatAux_width _ hds, hval, h2, formatAux_prec _ hds, hval, h3]

/-- The format of the rows that `asprintf` builds at line 324. -/
theorem asprintf_format (n : Nat) :
    printf "%s %%-%d.%ds" [.str formatButPath, .int n, .int n]
      = String.mk (formatButPath.data
          ++ ' ' :: '%' :: '-' :: ((Nat.repr n).data ++ '.' :: ((Nat.repr n).data ++ ['s']))) := by
  have hfmt : "%s %%-%d.%ds".data
      = ['%', 's', ' ', '%', '%', '-', '%', 'd', '.', '%', 'd', 's'] := rfl
  have hdec : decimal (n : Int) = (Nat.repr n).data := by
    simp [decimal]
  unfold printf
  rw [hfmt]
  simp [formatAux, convert, padTo_zero, hdec]

/-- The format of the rows that `asprintf` builds at line 321. -/
theorem asprintf_format_long :
    printf "%s %%s" [.str formatButPath] = String.mk (formatButPath.data ++ [' ', '%', 's']) := by
  decide

/-- The number of characters of the banner. -/
theorem banner_length : banner.length = 47 := by decide

/-- The width of the path field is the terminal width less the banner and
one more character; the terminal width is that of the window, or 80. -/
theorem pathlen_eq (w : World) :
    pathlen w = termwidth w - 47 - 1 ∧
    termwidth w = (if w.ioctlOk = true ∨ w.ws_col ≠ 0 then (w.ws_col.val : Int) else 80) := by
  have hlt : w.ws_col.val < 65536 := w.ws_col.isLt
  refine ⟨?_, rfl⟩
  unfold pathlen toInt32
  rw [banner_length]
  have ht : 0 ≤ termwidth w ∧ termwidth w < 65536 := by
    unfold termwidth
    split_ifs <;> omega
  omega

/-- A string cut to `n` characters and padded to `n` has `n` characters. -/
theorem padTo_take_length (n : Nat) (s : List Char) : (padTo true n (s.take n)).length = n := by
  simp only [padTo, if_true, List.length_append, List.length_replicate, List.length_take]
  omega

/-- A row of the long form without what follows the path: the fields, a
blank and the whole path. -/
theorem printf_row_long (w : World) (o : Options) (p : Process) (hl : o.longList = true) :
    printf (listFormat w o).2
        ([.int p.psn.hi, .int p.psn.lo, .int p.info.UnixPID]
          ++ OSTYPE_CHAR_ARGS p.info.ExecFileType ++ OSTYPE_CHAR_ARGS p.info.ExecFileCreator
          ++ [.str p.name, .str p.path])
      = String.mk (rowFields p ++ ' ' :: p.path.data) := by
  have hfmt : (listFormat w o).2 = String.mk (formatButPath.data ++ [' ', '%', 's']) := by
    simp only [listFormat, hl, if_true, asprintf_format_long]
  unfold printf
  rw [hfmt, formatAux_row]
  simp [formatAux, convert, padTo_zero]

/-- A row of the short form when the path field has at least 4 characters:
the fields, a blank and the path cut and padded to the field. -/
theorem printf_row_wide (w : World) (o : Options) (p : Process) (hl : o.longList = false)
    (hw : 4 ≤ pathlen w) :
    printf (listFormat w o).2
        ([.int p.psn.hi, .int p.psn.lo, .int p.info.UnixPID]
          ++ OSTYPE_CHAR_ARGS p.info.ExecFileType ++ OSTYPE_CHAR_ARGS p.info.ExecFileCreator
          ++ [.str p.name, .str p.path])
      = String.mk (rowFields p
          ++ ' ' :: padTo true (pathlen w).toNat (p.path.data.take (pathlen w).toNat)) := by
  obtain ⟨k, hk⟩ := Int.eq_ofNat_of_zero_le (by omega : 0 ≤ pathlen w)
  have hfmt : (listFormat w o).2 = String.mk (formatButPath.data
      ++ ' ' :: '%' :: '-' :: ((Nat.repr k).data ++ '.' :: ((Nat.repr k).data ++ ['s']))) := by
    simp only [listFormat, hl, Bool.false_eq_true, if_false, ge_iff_le, hw, if_true]
    rw [hk, asprintf_format]
  unfold printf
  rw [hfmt, formatAux_row, formatAux_path, hk, Int.toNat_ofNat]

/-- A row of the short form when the path field would have less than 4
characters: the fields, and no path. -/
theorem printf_row_narrow (w : World) (o : Options) (p : Process) (hl : o.longList = false)
    (hw : pathlen w < 4) :
    printf (listFormat w o).2
        ([.int p.psn.hi, .int p.psn.lo, .int p.info.UnixPID]
          ++ OSTYPE_CHAR_ARGS p.info.ExecFileType ++ OSTYPE_CHAR_ARGS p.info.ExecFileCreator
          ++ [.str p.name, .str p.path])
      = String.mk (rowFields p) := by
  have hfmt : (listFormat w o).2 = String.mk (formatButPath.data ++ []) := by
    simp only [listFormat, hl, Bool.false_eq_true, if_false, ge_iff_le, not_le.mpr hw,
      List.append_nil]
  unfold printf
  rw [hfmt, formatAux_row]
  simp [formatAux]

/-- The text of line 385 or 388. -/
theorem printf_bundle (bundleID : String) : printf " (%s)" [.str bundleID] = " (" ++ bundleID ++ ")" := by
  apply String.ext
  show formatAux none [' ', '(', '%', 's', ')'] [.str bundleID] = _
  simp [formatAux, convert, padTo_zero]

/-- The rows are those of the applications that satisfy the criterion, in
the order of the enumeration. -/
theorem listRows_eq (w : World) (o : Options) (format : String) (ps : List Process) :
    listRows w o format ps
      = concatRows ((ps.filter (satisfies w o)).map (rowOf w o format)) := by
  induction ps with
  | nil => rfl
  | cons p ps ih =>
    cases hs : satisfies w o p with
    | false =>
      simp only [listRows, hs, Bool.false_eq_true, if_false, String.empty_append, ih,
        List.filter_cons_of_neg, not_false_eq_true]
    | true =>
      simp only [listRows, hs, if_true, ih, List.filter_cons_of_pos, List.map_cons, concatRows,
        List.foldr_cons]

/-- A row of the listing, whatever the form: the fields before the path; then
a blank and the whole path in the long form, a blank and the path cut and
padded to the path field in the short form when that field has at least 4
characters, and nothing otherwise; then, in the long form, the bundle
identifier in parentheses when there is one; then a newline. -/
theorem rowOf_eq (w : World) (o : Options) (p : Process) :
    rowOf w o (listFormat w o).2 p
      = String.mk (rowFields p ++
          (if o.longList = true then ' ' :: p.path.data
           else if 4 ≤ pathlen w then
             ' ' :: padTo true (pathlen w).toNat (p.path.data.take (pathlen w).toNat)
           else []))
        ++ ((if o.longList = true then bundleSuffix w p else "") ++ "\n") := by
  unfold rowOf
  cases hl : o.longList with
  | true =>
    rw [printf_row_long w o p hl]
    simp only [if_true, bundleSuffix]
    cases w.bundle p.path <;> simp only [printf_bundle]
  | false =>
    by_cases hw : 4 ≤ pathlen w
    · rw [printf_row_wide w o p hl hw]
      simp only [Bool.false_eq_true, if_false, hw, if_true]
    · rw [printf_row_narrow w o p hl (not_le.mp hw)]
      simp only [Bool.false_eq_true, if_false, hw, List.append_nil]

/-- The header line of the long form and of the short form with a path field
of at least 4 characters. -/
theorem listFormat_header (w : World) (o : Options) (h : o.longList = true ∨ 4 ≤ pathlen w) :
    (listFormat w o).1
      = banner ++ (if o.longList = true then " PATH (bundle identifier)\n" else " PATH\n") := by
  unfold listFormat
  cases hl : o.longList with
  | true => simp only [if_true]; decide
  | false =>
    have hw : 4 ≤ pathlen w := by
      rcases h with h | h
      · rw [hl] at h; exact Bool.noConfusion h
      · exact h
    simp only [Bool.false_eq_true, if_false, ge_iff_le, hw, if_true]
    decide

/-- What a listing that does not fail writes to standard output: the header
of lines 320-327 and the rows of the applications that satisfy the criterion,
in the order of the enumeration. -/
theorem matchApplication_list_stdout (w : World) (APP_NAME : String) (o : Options)
    (trace : List OSCall) (stdout : String)
    (hinfo : ∀ tr psn, w.status tr (.CPSGetProcessInfo psn) = noErr)
    (hc : isCriterion o.matchType = true) (ha : o.appAction = APP_LIST)
    (hall : ∀ q ∈ w.procs, locationFails w o q = false ∧
      (satisfies w o q = true → o.longList = true → w.bundle q.path ≠ .noURL)) :
    (matchApplication w APP_NAME o trace stdout).stdout
      = stdout ++ (listFormat w o).1
          ++ concatRows ((w.procs.filter (satisfies w o)).map (rowOf w o (listFormat w o).2)) := by
  have hfront : o.matchType ≠ MATCH_FRONT := by
    intro hh; rw [hh] at hc; exact absurd hc (by decide)
  have hpass : ∀ q ∈ w.procs, passes w o q := fun q hq =>
    ⟨hc, (hall q hq).1, fun hs => ⟨ha, (hall q hq).2 hs⟩⟩
  have happ := enumerate_append w APP_NAME o (listFormat w o).2 hinfo w.procs []
    ⟨kNoProcess, kNoProcess⟩ none trace (stdout ++ (listFormat w o).1) hpass
  rw [List.append_nil] at happ
  simp only [matchApplication, hfront, if_false, ha, if_true]
  rw [happ, (enumerate_nil w APP_NAME o _ _ _ _ _).2, listRows_eq]

/-! ## C7: the listing -/

set_option maxRecDepth 100000 in
/-- C7 (the claim fails). On a terminal of 40 columns the short listing of
Finder and Safari is two lines: there is no header line, and the rows end
after the name field, without the path.  On 80 columns the path of Finder,
which has 39 characters, is cut to the 32 of the path field.  And a name of
more than 20 characters is cut to 20 in the long form too. -/
theorem narrow_listing_without_header :
    main narrowWorld ["appswitch", "-l"]
      = { trace := [.InitCursor, .CPSGetNextProcess ⟨0, 0⟩, .CPSGetProcessInfo ⟨0, 1⟩,
                    .CPSGetNextProcess ⟨0, 1⟩, .CPSGetProcessInfo ⟨0, 2⟩,
                    .CPSGetNextProcess ⟨0, 2⟩, .CPSGetFrontProcess],
          stdout := "       0.1   100 FNDR MACS Finder              \n"
            ++ "       0.2   200 APPL sfri Safari              \n",
          status := 0, stderr := "" } ∧
    ¬ ("PSN".data <:+: (main narrowWorld ["appswitch", "-l"]).stdout.data) ∧
    ¬ (safari.path.data <:+: (main narrowWorld ["appswitch", "-l"]).stdout.data) ∧
    (main exampleWorld ["appswitch", "-l"]).stdout
      = "       PSN   PID TYPE CREA NAME                 PATH\n"
        ++ "       0.1   100 FNDR MACS Finder               /System/Library/CoreServices/Fin\n"
        ++ "       0.2   200 APPL sfri Safari               /Applications/Safari.app        \n" ∧
    ¬ (finder.path.data <:+: (main exampleWorld ["appswitch", "-l"]).stdout.data) ∧
    rowOf exampleWorld { OPTS with matchType := MATCH_ALL, appAction := APP_LIST, longList := true }
        (listFormat exampleWorld
          { OPTS with matchType := MATCH_ALL, appAction := APP_LIST, longList := true }).2
        { safari with name := "Safari Web Content (Prewarmed)" }
      = "       0.2   200 APPL sfri Safari Web Content ( /Applications/Safari.app (com.apple.Safari)\n" := by
  decide

/-- C7 (amended). For every finite sequence of applications whose
information is retrieved without error, every criterion, and a listing in
which no bundle location that is asked for fails: in the long form, and in
the short form when the path field has at least 4 characters, standard
output is one header line followed by one row per application that satisfies
the criterion, in the order of the enumeration; and every row is made of the
serial number, the process identifier, the 4 characters of the type, the 4
characters of the creator, the name cut to 20 characters and then the whole
path (long form, followed by the bundle identifier in parentheses when there
is one), the path cut and padded to the path field (short form, field of at
least 4 characters) or no path at all (short form, smaller field). -/
theorem listing_output (w : World) (APP_NAME : String) (o : Options)
    (trace : List OSCall) (stdout : String)
    (hinfo : ∀ tr psn, w.status tr (.CPSGetProcessInfo psn) = noErr)
    (hc : isCriterion o.matchType = true) (ha : o.appAction = APP_LIST)
    (hall : ∀ q ∈ w.procs, locationFails w o q = false ∧
      (satisfies w o q = true → o.longList = true → w.bundle q.path ≠ .noURL)) :
    (o.longList = true ∨ 4 ≤ pathlen w →
      (matchApplication w APP_NAME o trace stdout).stdout
        = stdout
          ++ (banner ++ (if o.longList = true then " PATH (bundle identifier)\n" else " PATH\n"))
          ++ concatRows
              ((w.procs.filter (satisfies w o)).map (rowOf w o (listFormat w o).2))) ∧
    (∀ p, rowOf w o (listFormat w o).2 p
      = String.mk (rowFields p ++
          (if o.longList = true then ' ' :: p.path.data
           else if 4 ≤ pathlen w then
             ' ' :: padTo true (pathlen w).toNat (p.path.data.take (pathlen w).toNat)
           else []))
        ++ ((if o.longList = true then bundleSuffix w p else "") ++ "\n")) := by
  refine ⟨fun h => ?_, rowOf_eq w o⟩
  rw [matchApplication_list_stdout w APP_NAME o trace stdout hinfo hc ha hall,
    listFormat_header w o h]

set_option maxRecDepth 100000 in
/-- C7 (amended) at the example of the specification, on 80 columns: the
short listing of Finder and Safari is the header line and two rows. -/
theorem listing_output_witness :
    (matchApplication exampleWorld "appswitch"
        { OPTS with matchType := MATCH_ALL, appAction := APP_LIST } [.InitCursor] "").stdout
      = "" ++ (banner ++ " PATH\n")
        ++ concatRows
            ["       0.1   100 FNDR MACS Finder               /System/Library/CoreServices/Fin\n",
             "       0.2   200 APPL sfri Safari               /Applications/Safari.app        \n"] :=
  ((listing_output exampleWorld "appswitch"
      { OPTS with matchType := MATCH_ALL, appAction := APP_LIST } [.InitCursor] ""
      (fun _ _ => rfl) (by decide) (by decide) (by decide)).1 (Or.inr (by decide))).trans
    (by decide)

/-! ## C8: the width of the path column -/

/-- C8 (the claim fails). On a terminal of 40 columns the path field would
have -8 characters, and the row of Finder in the short listing ends after
the name field: the path is not printed. -/
theorem narrow_row_without_path :
    pathlen narrowWorld = -8 ∧
    rowOf narrowWorld { OPTS with matchType := MATCH_ALL, appAction := APP_LIST }
        (listFormat narrowWorld
          { OPTS with matchType := MATCH_ALL, appAction := APP_LIST }).2 finder
      = "       0.1   100 FNDR MACS Finder              \n" ∧
    ¬ (finder.path.data <:+:
        (rowOf narrowWorld { OPTS with matchType := MATCH_ALL, appAction := APP_LIST }
          (listFormat narrowWorld
            { OPTS with matchType := MATCH_ALL, appAction := APP_LIST }).2 finder).data) := by
  decide

/-- C8 (amended). In the short listing the path field has the terminal width
less the length of the banner less 1 characters: when that is at least 4 the
path of each row is cut or padded to exactly that many characters, and when
it is below 4 the row ends after the name field and no path is printed. -/
theorem path_column_width (w : World) (o : Options) (p : Process) (hl : o.longList = false) :
    pathlen w = termwidth w - (banner.length : Int) - 1 ∧
    (4 ≤ pathlen w →
      rowOf w o (listFormat w o).2 p
          = String.mk (rowFields p
              ++ ' ' :: padTo true (pathlen w).toNat (p.path.data.take (pathlen w).toNat))
            ++ "\n"
        ∧ ((padTo true (pathlen w).toNat (p.path.data.take (pathlen w).toNat)).length : Int)
            = pathlen w) ∧
    (pathlen w < 4 → rowOf w o (listFormat w o).2 p = String.mk (rowFields p) ++ "\n") := by
  refine ⟨?_, fun hw => ⟨?_, ?_⟩, fun hw => ?_⟩
  · rw [banner_length]; exact (pathlen_eq w).1
  · rw [rowOf_eq]
    simp only [hl, Bool.false_eq_true, if_false, hw, if_true, String.empty_append]
  · rw [padTo_take_length]
    exact Int.toNat_of_nonneg (by omega)
  · rw [rowOf_eq]
    simp only [hl, Bool.false_eq_true, if_false, not_le.mpr hw, List.append_nil,
      String.empty_append]

/-- C8 (amended) on 80 columns, where the path field has 32 characters, and
on 40 columns, where there is none. -/
theorem path_column_width_witness :
    (rowOf exampleWorld { OPTS with matchType := MATCH_ALL, appAction := APP_LIST }
        (listFormat exampleWorld
          { OPTS with matchType := MATCH_ALL, appAction := APP_LIST }).2 safari
      = String.mk (rowFields safari
          ++ ' ' :: padTo true (pathlen exampleWorld).toNat
              (safari.path.data.take (pathlen exampleWorld).toNat))
        ++ "\n"
      ∧ ((padTo true (pathlen exampleWorld).toNat
            (safari.path.data.take (pathlen exampleWorld).toNat)).length : Int)
          = pathlen exampleWorld) ∧
    rowOf narrowWorld { OPTS with matchType := MATCH_ALL, appAction := APP_LIST }
        (listFormat narrowWorld
          { OPTS with matchType := MATCH_ALL, appAction := APP_LIST }).2 safari
      = String.mk (rowFields safari) ++ "\n" :=
  ⟨(path_column_width exampleWorld { OPTS with matchType := MATCH_ALL, appAction := APP_LIST }
      safari rfl).2.1 (by decide),
   (path_column_width narrowWorld { OPTS with matchType := MATCH_ALL, appAction := APP_LIST }
      safari rfl).2.2 (by decide)⟩


/-! ## The match type MATCH_FRONT -/

/-- Under `MATCH_FRONT`, `matchApplication` makes the query for the frontmost
process and no other call, and stores nothing in `*info`. -/
theorem matchApplication_front (w : World) (APP_NAME : String) (o : Options)
    (trace : List OSCall) (stdout : String) (hm : o.matchType = MATCH_FRONT) :
    (matchApplication w APP_NAME o trace stdout).trace = trace ++ [.CPSGetFrontProcess] ∧
    (matchApplication w APP_NAME o trace stdout).stdout = stdout ∧
    (∀ psn info, (matchApplication w APP_NAME o trace stdout).result = .ret (psn, info) →
      info = none) := by
  by_cases hf : (w.front trace).1 = noErr
  · simp [matchApplication, hm, frontApplication, hf]
  · simp [matchApplication, hm, frontApplication, hf, osstatusexit]


/-! ## C11: the order of the final step -/

/-- C11 (the claim fails). After `appswitch -H -F -a Safari`, every call
succeeding, the frontmost process is queried before the pause, not after it:
the calls are the request to hide the others, the query, the pause, the show
request and the set-front request.  When the frontmost process changes
during the pause, from Finder to Safari, it is Finder, the answer of the
query made before the pause, that is shown and brought to the front. -/
theorem requery_before_pause :
    (main exampleWorld ["appswitch", "-H", "-F", "-a", "Safari"]).trace
      = [.InitCursor, .CPSGetNextProcess ⟨0, 0⟩, .CPSGetProcessInfo ⟨0, 1⟩,
          .CPSGetNextProcess ⟨0, 1⟩, .CPSGetProcessInfo ⟨0, 2⟩,
          .CPSSetFrontProcess ⟨0, 2⟩, .CPSPostHideMostReq ⟨0, 2⟩,
          .CPSGetFrontProcess, .usleep 750000,
          .CPSPostShowReq ⟨0, 1⟩, .CPSSetFrontProcess ⟨0, 1⟩] ∧
    (settlingWorld.front [.usleep 750000]).2 = ⟨0, 2⟩ ∧
    (main settlingWorld ["appswitch", "-H", "-F", "-a", "Safari"]).trace
      = [.InitCursor, .CPSGetNextProcess ⟨0, 0⟩, .CPSGetProcessInfo ⟨0, 1⟩,
          .CPSGetNextProcess ⟨0, 1⟩, .CPSGetProcessInfo ⟨0, 2⟩,
          .CPSSetFrontProcess ⟨0, 2⟩, .CPSPostHideMostReq ⟨0, 2⟩,
          .CPSGetFrontProcess, .usleep 750000,
          .CPSPostShowReq ⟨0, 1⟩, .CPSSetFrontProcess ⟨0, 1⟩] := by
  decide

/-- The request of the global action leaves `noErr` in `err` when every call
succeeds. -/
theorem actionStep_ok (w : World) (o : Options) (psn : CPSProcessSerNum) (trace : List OSCall)
    (hstatus : ∀ tr call, w.status tr call = noErr) : (actionStep w o psn trace).2.1 = noErr := by
  unfold actionStep
  cases o.action <;> simp [hstatus]

/-- The final action when every call succeeds: the query for the frontmost
process, the pause when there was a global action, then the show request and
the set-front request on the process the query returned, and `exit(0)`. -/
theorem finalStep_ok (w : World) (APP_NAME : String) (o : Options) (trace : List OSCall)
    (stdout : String) (hstatus : ∀ tr call, w.status tr call = noErr)
    (hfront : ∀ tr, (w.front tr).1 = noErr) (hf : o.finalAction = FINAL_SWITCH) :
    finalStep w APP_NAME o trace stdout
      = ⟨trace ++ .CPSGetFrontProcess ::
            ((if o.action ≠ ACTION_NONE then [.usleep 750000] else [])
              ++ [.CPSPostShowReq (w.front trace).2, .CPSSetFrontProcess (w.front trace).2]),
          stdout, 0, ""⟩ := by
  by_cases ha : o.action = ACTION_NONE
  · simp [finalStep, hf, frontApplication, hfront, showAndSetFront, hstatus, ha, noErr]
  · simp [finalStep, hf, frontApplication, hfront, showAndSetFront, hstatus, ha, noErr]

/-- C11 (amended). For all options with the final action and every world in
which every call succeeds, lines 437-462 of `main` make, after a global
action: its request on the process selected, then the query for the
frontmost process, then the pause, then the show request and the set-front
request on the process that query returned; so the pause comes after the
query and before the show request.  Without a global action there is no
pause: the query, the show request and the set-front request. -/
theorem final_step_order (w : World) (APP_NAME : String) (o : Options)
    (psn : CPSProcessSerNum) (trace : List OSCall) (stdout : String)
    (hstatus : ∀ tr call, w.status tr call = noErr)
    (hfront : ∀ tr, (w.front tr).1 = noErr) (hf : o.finalAction = FINAL_SWITCH) :
    (o.action ≠ ACTION_NONE →
      globalStep w APP_NAME o psn trace stdout
        = ⟨trace ++ globalCalls o psn
            ++ [.CPSGetFrontProcess, .usleep 750000,
                .CPSPostShowReq (w.front (trace ++ globalCalls o psn)).2,
                .CPSSetFrontProcess (w.front (trace ++ globalCalls o psn)).2],
            stdout, 0, ""⟩) ∧
    (o.action = ACTION_NONE →
      globalStep w APP_NAME o psn trace stdout
        = ⟨trace ++ [.CPSGetFrontProcess, .CPSPostShowReq (w.front trace).2,
              .CPSSetFrontProcess (w.front trace).2],
            stdout, 0, ""⟩) := by
  have hstep : globalStep w APP_NAME o psn trace stdout
      = finalStep w APP_NAME o (trace ++ globalCalls o psn) stdout := by
    unfold globalStep
    rw [if_neg (not_not.mpr (actionStep_ok w o psn trace hstatus)), actionStep_trace]
  rw [hstep, finalStep_ok w APP_NAME o _ stdout hstatus hfront hf]
  constructor
  · intro ha
    simp [ha]
  · intro ha
    simp [ha, globalCalls]

/-- C11 (amended) after `appswitch -H -F -a Safari` with Safari selected and
a frontmost process that changes during the pause. -/
theorem final_step_order_witness :
    globalStep settlingWorld "appswitch" switchHideFront safari.psn [] ""
      = ⟨[] ++ globalCalls switchHideFront safari.psn
          ++ [.CPSGetFrontProcess, .usleep 750000,
              .CPSPostShowReq (settlingWorld.front ([] ++ globalCalls switchHideFront safari.psn)).2,
              .CPSSetFrontProcess
                (settlingWorld.front ([] ++ globalCalls switchHideFront safari.psn)).2],
          "", 0, ""⟩ :=
  (final_step_order settlingWorld "appswitch" switchHideFront safari.psn [] ""
    (fun _ _ => rfl) (fun tr => by
      show (if OSCall.usleep 750000 ∈ tr then _ else _ : OSStatus × CPSProcessSerNum).1 = noErr
      split_ifs <;> rfl) rfl).1 (by decide)


/-! ## C12: applications without bundle identifier -/

set_option maxRecDepth 100000 in
/-- C12 (the claim fails). When no URL can be made for the path of Finder,
matching by bundle identifier does not pass Finder as a non-match: the
program exits there with status 1.  And when there is no bundle at the path
of Finder, the long listing does not end with an error: the row of Finder is
printed without bundle identifier, the listing goes on and the program exits
with status 0. -/
theorem bundle_lookup_no_asymmetry :
    main noLocationWorld ["appswitch", "-i", "com.apple.Safari"]
      = { trace := [.InitCursor, .CPSGetNextProcess ⟨0, 0⟩, .CPSGetProcessInfo ⟨0, 1⟩],
          stdout := "", status := 1,
          stderr := "appswitch: can\x27t get bundle location for process \x27Finder\x27 (PSN 0.1, pid 100)\n" } ∧
    main noBundleWorld ["appswitch", "-L"]
      = { trace := [.InitCursor, .CPSGetNextProcess ⟨0, 0⟩, .CPSGetProcessInfo ⟨0, 1⟩,
                    .CPSGetNextProcess ⟨0, 1⟩, .CPSGetProcessInfo ⟨0, 2⟩,
                    .CPSGetNextProcess ⟨0, 2⟩, .CPSGetFrontProcess],
          stdout := "       PSN   PID TYPE CREA NAME                 PATH (bundle identifier)\n"
            ++ "       0.1   100 FNDR MACS Finder               /System/Library/CoreServices/Finder.app\n"
            ++ "       0.2   200 APPL sfri Safari               /Applications/Safari.app (com.apple.Safari)\n",
          status := 0, stderr := "" } := by
  decide

/-- C12 (amended). The two places that ask for the bundle identifier of an
application treat its absence alike.  When no bundle location can be had for
the path, matching by bundle identifier and the long listing both end the
program with status 1 and the message of lines 353 and 375.  When the path
has no bundle, or a bundle without identifier, matching by bundle identifier
passes the application as a non-match and goes on with the next one, and the
long listing writes its row without bundle identifier and goes on with the
next one. -/
theorem bundle_lookup_outcomes (w : World) (APP_NAME : String) (o : Options) (format : String)
    (p : Process) (rest : List Process) (psn : CPSProcessSerNum)
    (info : Option CPSProcessInfoRec) (trace : List OSCall) (stdout : String)
    (hinfo : ∀ tr q, w.status tr (.CPSGetProcessInfo q) = noErr) :
    (o.matchType = MATCH_BUNDLE_ID → w.bundle p.path = .noURL →
      enumerate w APP_NAME o format (p :: rest) psn info trace stdout
        = { trace := trace ++ [.CPSGetNextProcess psn, .CPSGetProcessInfo p.psn],
            stdout := stdout,
            result := .exit 1 (printf "%s: " [.str APP_NAME]
              ++ printf noBundleLocation
                  [.str p.name, .int p.psn.hi, .int p.psn.lo, .int p.info.UnixPID] ++ "\n") }) ∧
    (o.matchType = MATCH_BUNDLE_ID →
      w.bundle p.path = .noBundle ∨ w.bundle p.path = .noIdentifier →
      enumerate w APP_NAME o format (p :: rest) psn info trace stdout
        = enumerate w APP_NAME o format rest p.psn (some p.info)
            (trace ++ [.CPSGetNextProcess psn, .CPSGetProcessInfo p.psn]) stdout) ∧
    (o.appAction = APP_LIST → o.longList = true → isCriterion o.matchType = true →
      satisfies w o p = true → w.bundle p.path = .noURL →
      (enumerate w APP_NAME o format (p :: rest) psn info trace stdout).trace
          = trace ++ [.CPSGetNextProcess psn, .CPSGetProcessInfo p.psn]
        ∧ (enumerate w APP_NAME o format (p :: rest) psn info trace stdout).result
          = .exit 1 (printf "%s: " [.str APP_NAME]
              ++ printf noBundleLocation
                  [.str p.name, .int p.psn.hi, .int p.psn.lo, .int p.info.UnixPID] ++ "\n")) ∧
    (o.appAction = APP_LIST → o.longList = true → isCriterion o.matchType = true →
      satisfies w o p = true →
      w.bundle p.path = .noBundle ∨ w.bundle p.path = .noIdentifier →
      bundleSuffix w p = "" ∧
      enumerate w APP_NAME o format (p :: rest) psn info trace stdout
        = enumerate w APP_NAME o format rest p.psn (some p.info)
            (trace ++ [.CPSGetNextProcess psn, .CPSGetProcessInfo p.psn])
            (stdout ++ rowOf w o format p)) := by
  refine ⟨?_, ?_, ?_, ?_⟩
  · intro hm hb
    simp [enumerate, hinfo, matchRecord, hm, bundleIdentifierForApplication, hb, errexit]
  · intro hm hb
    rcases hb with hb | hb <;>
      simp [enumerate, hinfo, matchRecord, hm, bundleIdentifierForApplication, hb]
  · intro ha hl hc hs hb
    have hloc := satisfies_location w o p hs
    simp [enumerate, hinfo, matchRecord_satisfies w APP_NAME o p hc hloc, hs, ha, printRow, hl,
      bundleIdentifierForApplication, hb, errexit]
  · intro ha hl hc hs hb
    have hloc := satisfies_location w o p hs
    have hne : w.bundle p.path ≠ .noURL := by
      rcases hb with hb | hb <;> rw [hb] <;> exact fun hh => BundleLookup.noConfusion hh
    refine ⟨by rcases hb with hb | hb <;> simp [bundleSuffix, hb], ?_⟩
    simp [enumerate, hinfo, matchRecord_satisfies w APP_NAME o p hc hloc, hs, ha,
      printRow_ok w APP_NAME o format p stdout (fun _ => hne)]

/-- C12 (amended) at Finder: without bundle location matching by bundle
identifier ends the program, and without bundle it goes on to Safari. -/
theorem bundle_lookup_outcomes_witness :
    enumerate noLocationWorld "appswitch"
        { OPTS with bundleID := some "com.apple.Safari", matchType := MATCH_BUNDLE_ID,
                    appAction := APP_SWITCH } "" (finder :: [safari]) ⟨0, 0⟩ none [] ""
      = { trace := [] ++ [.CPSGetNextProcess ⟨0, 0⟩, .CPSGetProcessInfo finder.psn],
          stdout := "",
          result := .exit 1 (printf "%s: " [.str "appswitch"]
            ++ printf noBundleLocation
                [.str finder.name, .int finder.psn.hi, .int finder.psn.lo,
                  .int finder.info.UnixPID] ++ "\n") } ∧
    enumerate noBundleWorld "appswitch"
        { OPTS with bundleID := some "com.apple.Safari", matchType := MATCH_BUNDLE_ID,
                    appAction := APP_SWITCH } "" (finder :: [safari]) ⟨0, 0⟩ none [] ""
      = enumerate noBundleWorld "appswitch"
          { OPTS with bundleID := some "com.apple.Safari", matchType := MATCH_BUNDLE_ID,
                      appAction := APP_SWITCH } "" [safari] finder.psn (some finder.info)
          ([] ++ [.CPSGetNextProcess ⟨0, 0⟩, .CPSGetProcessInfo finder.psn]) "" :=
  ⟨(bundle_lookup_outcomes noLocationWorld "appswitch"
      { OPTS with bundleID := some "com.apple.Safari", matchType := MATCH_BUNDLE_ID,
                  appAction := APP_SWITCH } "" finder [safari] ⟨0, 0⟩ none [] ""
      (fun _ _ => rfl)).1 rfl (by decide),
   (bundle_lookup_outcomes noBundleWorld "appswitch"
      { OPTS with bundleID := some "com.apple.Safari", matchType := MATCH_BUNDLE_ID,
                  appAction := APP_SWITCH } "" finder [safari] ⟨0, 0⟩ none [] ""
      (fun _ _ => rfl)).2.1 rfl (Or.inl (by decide))⟩


/-! ## C13: the status in the messages -/

/-- The text that `osstatusexit` writes after the formatted message. -/
theorem printf_status (s : String) : printf ": %s\n" [.str s] = ": " ++ s ++ "\n" := by
  apply String.ext
  show formatAux none [':', ' ', '%', 's', '\n'] [.str s] = _
  simp [formatAux, convert, padTo_zero]

/-- The message of line 435. -/
theorem printf_verb_process (verb : String) :
    printf "can\x27t %s process" [.str verb] = "can\x27t " ++ verb ++ " process" := by
  apply String.ext
  show formatAux none ['c', 'a', 'n', '\x27', 't', ' ', '%', 's', ' ', 'p', 'r', 'o', 'c', 'e',
    's', 's'] [.str verb] = _
  simp [formatAux, convert, padTo_zero]

/-- The message of line 444. -/
theorem printf_verb_processes (verb : String) :
    printf "can\x27t %s processes" [.str verb] = "can\x27t " ++ verb ++ " processes" := by
  apply String.ext
  show formatAux none ['c', 'a', 'n', '\x27', 't', ' ', '%', 's', ' ', 'p', 'r', 'o', 'c', 'e',
    's', 's', 'e', 's'] [.str verb] = _
  simp [formatAux, convert, padTo_zero]

/-- The message of line 460. -/
theorem printf_verb (verb : String) : printf "can\x27t %s" [.str verb] = "can\x27t " ++ verb := by
  apply String.ext
  show formatAux none ['c', 'a', 'n', '\x27', 't', ' ', '%', 's'] [.str verb] = _
  simp [formatAux, convert, padTo_zero]

/-- When the primary action leaves a status `err` other than `noErr`, the
program exits with status 1 and the message names the verb of the action and
decodes `err`. -/
theorem dispatch_primary_message (w : World) (APP_NAME : String) (o : Options)
    (psn : CPSProcessSerNum) (info : Option CPSProcessInfoRec) (trace : List OSCall)
    (stdout : String) (err : OSStatus) (verb : String)
    (h : (appActionStep w APP_NAME o psn info trace stdout).result = .ret (err, verb))
    (he : err ≠ noErr) :
    (dispatch w APP_NAME o psn info trace stdout).status = 1 ∧
    (dispatch w APP_NAME o psn info trace stdout).stderr
      = APP_NAME ++ ": " ++ ("can\x27t " ++ verb ++ " process") ++ (": " ++ osstatusstr err ++ "\n") := by
  rw [dispatch_of_err w APP_NAME o psn info trace stdout err verb h he]
  simp only [printf_name, printf_verb_process, printf_status]
  refine ⟨?_, ?_⟩ <;> trivial

/-- When the request of the global action returns a status other than
`noErr`, the program exits with status 1 and the message names the verb of
the action and decodes that status. -/
theorem globalStep_message (w : World) (APP_NAME : String) (o : Options)
    (psn : CPSProcessSerNum) (trace : List OSCall) (stdout : String)
    (he : (actionStep w o psn trace).2.1 ≠ noErr) :
    (globalStep w APP_NAME o psn trace stdout).status = 1 ∧
    (globalStep w APP_NAME o psn trace stdout).stderr
      = APP_NAME ++ ": " ++ ("can\x27t " ++ (actionStep w o psn trace).2.2 ++ " processes")
          ++ (": " ++ osstatusstr (actionStep w o psn trace).2.1 ++ "\n") := by
  unfold globalStep
  rw [if_pos he]
  simp only [osstatusexit, Final.atExit, printf_name, printf_verb_processes, printf_status]
  refine ⟨?_, ?_⟩ <;> trivial

/-- The status that line 454 leaves in `err` is 0 or 1, and it is 1 as soon
as the show request, or after it the set-front request, returns a status
other than 0, whatever that status is. -/
theorem showAndSetFront_err (w : World) (psn : CPSProcessSerNum) (trace : List OSCall) :
    (w.status trace (.CPSPostShowReq psn) ≠ 0 → (showAndSetFront w psn trace).2 = 1) ∧
    (w.status trace (.CPSPostShowReq psn) = 0 →
      w.status (trace ++ [.CPSPostShowReq psn]) (.CPSSetFrontProcess psn) ≠ 0 →
      (showAndSetFront w psn trace).2 = 1) := by
  unfold showAndSetFront
  constructor
  · intro h; rw [if_pos h]
  · intro h1 h2; rw [if_neg (not_not.mpr h1), if_pos h2]

/-- When line 454 leaves 1 in `err`, the program exits with status 1 and the
message decodes the status 1, not the status the failing request returned. -/
theorem finalStep_message (w : World) (APP_NAME : String) (o : Options) (trace : List OSCall)
    (stdout : String) (hf : o.finalAction = FINAL_SWITCH) (hfr : (w.front trace).1 = noErr)
    (he : (showAndSetFront w (w.front trace).2
        (if o.action ≠ ACTION_NONE then trace ++ [.CPSGetFrontProcess] ++ [.usleep 750000]
         else trace ++ [.CPSGetFrontProcess])).2 = 1) :
    (finalStep w APP_NAME o trace stdout).status = 1 ∧
    (finalStep w APP_NAME o trace stdout).stderr
      = APP_NAME ++ ": "
          ++ ("can\x27t " ++ "bring current application\x27s windows to the front")
          ++ (": " ++ osstatusstr 1 ++ "\n") ∧
    osstatusstr 1 = "unknown error (1)" := by
  have hne : (1 : OSStatus) ≠ noErr := by decide
  simp only [finalStep, hf, frontApplication, hfr, ne_eq, not_true_eq_false, if_false, he, hne,
    not_false_eq_true, if_true, osstatusexit, Final.atExit, printf_name, printf_verb,
    printf_status]
  refine ⟨?_, ?_, ?_⟩ <;> trivial

set_option maxRecDepth 100000 in
/-- C13 (the code at the failing input). After `appswitch -F`, when the show
request to the frontmost process returns `procNotFound`, the program exits
with status 1 and the message decodes the status 1, as `unknown error (1)`:
line 454 stores the truth value of `CPSPostShowReq(&psn) ||
CPSSetFrontProcess(&psn)` in `err`, so the decoding of `procNotFound`, which
the table has, is not in the message. -/
theorem final_failure_decodes_one :
    main showRefusedWorld ["appswitch", "-F"]
      = { trace := [.InitCursor, .CPSGetFrontProcess, .CPSGetFrontProcess,
                    .CPSPostShowReq ⟨0, 1⟩],
          stdout := "", status := 1,
          stderr := "appswitch: can\x27t bring current application\x27s windows to the front: unknown error (1)\n" } ∧
    osstatusstr procNotFound
      = "unable to connect to system service.\nAre you logged in? (-600)" ∧
    ¬ ((osstatusstr procNotFound).data
        <:+: (main showRefusedWorld ["appswitch", "-F"]).stderr.data) := by
  decide


/-! ## C14: the internal-error branches -/

/-- A format that begins `can't ` gives a text that begins `can't `. -/
theorem printf_cant (fmt : String) (tail : List Char) (args : List PrintfArg)
    (h : fmt.data = 'c' :: 'a' :: 'n' :: '\x27' :: 't' :: ' ' :: tail) :
    printf fmt args = "can\x27t " ++ String.mk (formatAux none tail args) := by
  apply String.ext
  show formatAux none fmt.data args = _
  rw [h]
  simp [formatAux]

/-- A call of `errexit` with a format that begins `can't `. -/
theorem errexit_ordinary {α : Type} (APP_NAME fmt : String) (tail : List Char)
    (args : List PrintfArg)
    (h : fmt.data = 'c' :: 'a' :: 'n' :: '\x27' :: 't' :: ' ' :: tail) :
    Ordinary APP_NAME (errexit APP_NAME fmt args : Exit α) := by
  refine ⟨rfl, String.mk (formatAux none tail args) ++ "\n", ?_⟩
  rw [printf_name, printf_cant fmt tail args h]
  apply String.ext
  simp [String.data_append]

/-- A call of `osstatusexit` with a format that begins `can't `. -/
theorem osstatusexit_ordinary {α : Type} (APP_NAME : String) (err : OSStatus) (fmt : String)
    (tail : List Char) (args : List PrintfArg)
    (h : fmt.data = 'c' :: 'a' :: 'n' :: '\x27' :: 't' :: ' ' :: tail) :
    Ordinary APP_NAME (osstatusexit APP_NAME err fmt args : Exit α) := by
  refine ⟨rfl, String.mk (formatAux none tail args) ++ printf ": %s\n" [.str (osstatusstr err)], ?_⟩
  rw [printf_name, printf_cant fmt tail args h]
  apply String.ext
  simp [String.data_append]

/-- The function `frontApplication` returns or exits with an ordinary
message. -/
theorem frontApplication_ordinary (w : World) (APP_NAME : String) (trace : List OSCall)
    (stdout : String) : Ordinary APP_NAME (frontApplication w APP_NAME trace stdout).result := by
  unfold frontApplication
  split_ifs
  · exact osstatusexit_ordinary APP_NAME _ _ _ [] rfl
  · trivial

/-- Under one of the six criteria the `switch` of lines 338-364 never takes
its `default` label: it matches, continues, or exits for want of a bundle
location. -/
theorem matchRecord_ordinary (w : World) (APP_NAME : String) (o : Options) (p : Process)
    (hc : isCriterion o.matchType = true) : Ordinary APP_NAME (matchRecord w APP_NAME o p) := by
  cases hl : locationFails w o p with
  | false => rw [matchRecord_satisfies w APP_NAME o p hc hl]; trivial
  | true =>
    simp only [locationFails, Bool.and_eq_true, decide_eq_true_eq] at hl
    simp only [matchRecord, hl.1, bundleIdentifierForApplication, hl.2]
    exact errexit_ordinary APP_NAME _ _ _ rfl

/-- The row of a listing is written, or the program exits for want of a
bundle location. -/
theorem printRow_ordinary (w : World) (APP_NAME : String) (o : Options) (format : String)
    (p : Process) (stdout : String) :
    Ordinary APP_NAME (printRow w APP_NAME o format p stdout).2 := by
  unfold printRow bundleIdentifierForApplication
  cases o.longList with
  | false => trivial
  | true =>
    cases w.bundle p.path with
    | noURL => exact errexit_ordinary APP_NAME _ _ _ rfl
    | noBundle => trivial
    | noIdentifier => trivial
    | identifier b => trivial

/-- Under one of the six criteria the enumeration returns or exits with an
ordinary message. -/
theorem enumerate_ordinary (w : World) (APP_NAME : String) (o : Options) (format : String)
    (hc : isCriterion o.matchType = true) (ps : List Process) (psn : CPSProcessSerNum)
    (info : Option CPSProcessInfoRec) (trace : List OSCall) (stdout : String) :
    Ordinary APP_NAME (enumerate w APP_NAME o format ps psn info trace stdout).result := by
  induction ps generalizing psn info trace stdout with
  | nil =>
    unfold enumerate
    split_ifs
    · exact osstatusexit_ordinary APP_NAME _ _ _ [] rfl
    · have hfront := frontApplication_ordinary w APP_NAME
        (trace ++ [.CPSGetNextProcess psn]) stdout
      revert hfront
      generalize frontApplication w APP_NAME (trace ++ [.CPSGetNextProcess psn]) stdout = r
      obtain ⟨t1, s1, res⟩ := r
      cases res with
      | ret front => intro _; trivial
      | exit status text => intro hfront; exact hfront
    · exact errexit_ordinary APP_NAME _ _ [] rfl
  | cons p ps ih =>
    unfold enumerate
    by_cases hinfo :
        w.status (trace ++ [.CPSGetNextProcess psn]) (.CPSGetProcessInfo p.psn) ≠ noErr
    · rw [if_pos hinfo]
      exact osstatusexit_ordinary APP_NAME _ _ _ _ rfl
    · rw [if_neg hinfo]
      have hrec := matchRecord_ordinary w APP_NAME o p hc
      revert hrec
      generalize matchRecord w APP_NAME o p = mr
      cases mr with
      | exit status text => intro hrec; exact hrec
      | ret b =>
        intro _
        cases b with
        | false => exact ih _ _ _ _
        | true =>
          simp only
          split_ifs
          · have hrow := printRow_ordinary w APP_NAME o format p stdout
            revert hrow
            generalize printRow w APP_NAME o format p stdout = pr
            obtain ⟨out, res⟩ := pr
            cases res with
            | exit status text => intro hrow; exact hrow
            | ret u => intro _; exact ih _ _ _ _
          · trivial

/-- When the match type is `MATCH_FRONT` or one of the six criteria,
`matchApplication` returns or exits with an ordinary message. -/
theorem matchApplication_ordinary (w : World) (APP_NAME : String) (o : Options)
    (trace : List OSCall) (stdout : String)
    (hm : o.matchType = MATCH_FRONT ∨ isCriterion o.matchType = true) :
    Ordinary APP_NAME (matchApplication w APP_NAME o trace stdout).result := by
  unfold matchApplication
  by_cases hf : o.matchType = MATCH_FRONT
  · rw [if_pos hf]
    have hfront := frontApplication_ordinary w APP_NAME trace stdout
    revert hfront
    generalize frontApplication w APP_NAME trace stdout = r
    obtain ⟨t1, s1, res⟩ := r
    cases res with
    | ret front => intro _; trivial
    | exit status text => intro hfront; exact hfront
  · have hc : isCriterion o.matchType = true := hm.resolve_left hf
    rw [if_neg hf]
    split_ifs
    · exact enumerate_ordinary w APP_NAME o _ hc _ _ _ _ _
    · exact enumerate_ordinary w APP_NAME o _ hc _ _ _ _ _

/-- The `switch` of lines 419-434 returns or exits with an ordinary
message. -/
theorem appActionStep_ordinary (w : World) (APP_NAME : String) (o : Options)
    (psn : CPSProcessSerNum) (info : Option CPSProcessInfoRec) (trace : List OSCall)
    (stdout : String) :
    Ordinary APP_NAME (appActionStep w APP_NAME o psn info trace stdout).result := by
  unfold appActionStep
  cases o.appAction <;> simp only <;> try trivial
  split_ifs
  · exact errexit_ordinary APP_NAME _ _ [] rfl
  · trivial

/-- A call that exits with an ordinary message ends the run with one. -/
theorem atExit_ordinary (APP_NAME : String) (trace : List OSCall) (stdout : String)
    (e : Exit Empty) (h : Ordinary APP_NAME e) :
    OrdinaryEnd APP_NAME (Final.atExit trace stdout e) := by
  cases e with
  | ret a => exact a.elim
  | exit status text => exact Or.inr h

/-- The final action ends the run with status 0 or with an ordinary
message. -/
theorem finalStep_ordinary (w : World) (APP_NAME : String) (o : Options) (trace : List OSCall)
    (stdout : String) : OrdinaryEnd APP_NAME (finalStep w APP_NAME o trace stdout) := by
  unfold finalStep
  cases o.finalAction with
  | FINAL_NONE => exact Or.inl ⟨rfl, rfl⟩
  | FINAL_SWITCH =>
    simp only
    have hfront := frontApplication_ordinary w APP_NAME trace stdout
    revert hfront
    generalize frontApplication w APP_NAME trace stdout = r
    obtain ⟨t1, s1, res⟩ := r
    cases res with
    | exit status text => intro hfront; exact Or.inr hfront
    | ret front =>
      intro _
      simp only
      split_ifs
      all_goals first
        | exact atExit_ordinary APP_NAME _ _ _ (osstatusexit_ordinary APP_NAME _ _ _ _ rfl)
        | exact Or.inl ⟨rfl, rfl⟩

/-- Lines 437-462 end the run with status 0 or with an ordinary message. -/
theorem globalStep_ordinary (w : World) (APP_NAME : String) (o : Options)
    (psn : CPSProcessSerNum) (trace : List OSCall) (stdout : String) :
    OrdinaryEnd APP_NAME (globalStep w APP_NAME o psn trace stdout) := by
  unfold globalStep
  split_ifs
  · exact atExit_ordinary APP_NAME _ _ _ (osstatusexit_ordinary APP_NAME _ _ _ _ rfl)
  · exact finalStep_ordinary w APP_NAME o _ stdout

/-- Lines 418-462 end the run with status 0 or with an ordinary message. -/
theorem dispatch_ordinary (w : World) (APP_NAME : String) (o : Options)
    (psn : CPSProcessSerNum) (info : Option CPSProcessInfoRec) (trace : List OSCall)
    (stdout : String) : OrdinaryEnd APP_NAME (dispatch w APP_NAME o psn info trace stdout) := by
  have hstep := appActionStep_ordinary w APP_NAME o psn info trace stdout
  cases hres : (appActionStep w APP_NAME o psn info trace stdout).result with
  | exit status text =>
    rw [dispatch_of_exit w APP_NAME o psn info trace stdout status text hres]
    rw [hres] at hstep
    exact Or.inr hstep
  | ret ev =>
    obtain ⟨err, verb⟩ := ev
    by_cases he : err = noErr
    · subst he
      rw [dispatch_of_ok w APP_NAME o psn info trace stdout verb hres]
      exact globalStep_ordinary w APP_NAME o psn _ _
    · rw [dispatch_of_err w APP_NAME o psn info trace stdout err verb hres he]
      exact Or.inr (osstatusexit_ordinary (α := Empty) APP_NAME err "can\x27t %s process" _
        [.str verb] rfl)

/-- Lines 413-462 end the run with status 0 or with an ordinary message when
the match type is `MATCH_FRONT` or one of the six criteria. -/
theorem run_ordinary (w : World) (APP_NAME : String) (o : Options)
    (hm : o.matchType = MATCH_FRONT ∨ isCriterion o.matchType = true) :
    OrdinaryEnd APP_NAME (run w APP_NAME o) := by
  unfold run
  have hmatch := matchApplication_ordinary w APP_NAME o [.InitCursor] "" hm
  revert hmatch
  generalize matchApplication w APP_NAME o [.InitCursor] "" = r
  obtain ⟨t1, s1, res⟩ := r
  cases res with
  | exit status text => intro hmatch; exact Or.inr hmatch
  | ret sel => intro _; exact dispatch_ordinary w APP_NAME o sel.1 sel.2 t1 s1

/-- A run that ends with status 0 or with an ordinary message does not end
with the message of an internal error. -/
theorem ordinaryEnd_not_internal (APP_NAME : String) (f : Final) (h : OrdinaryEnd APP_NAME f)
    (msg : String) (hmsg : msg ∈ internalErrors) :
    f.stderr ≠ APP_NAME ++ ": " ++ msg ++ "\n" := by
  intro heq
  have hdata := congrArg String.data heq
  simp only [String.data_append] at hdata
  rcases h with ⟨_, hempty⟩ | ⟨_, rest, hrest⟩
  · rw [hempty] at hdata
    have hlen := congrArg List.length hdata
    simp at hlen
    omega
  · rw [hrest] at hdata
    simp only [String.data_append, List.append_assoc] at hdata
    have hcancel := List.append_cancel_left hdata
    simp only [internalErrors, List.mem_cons, List.mem_singleton, List.not_mem_nil,
      or_false] at hmsg
    rcases hmsg with rfl | rfl | rfl | rfl <;> simp at hcancel

/-- The exit of line 363, were it reached. -/
theorem errexit_invalid_match_type {α : Type} (APP_NAME : String) :
    (errexit APP_NAME "internal error: invalid match type" [] : Exit α)
      = .exit 1 (APP_NAME ++ ": " ++ "internal error: invalid match type" ++ "\n") := by
  unfold errexit
  rw [printf_name]
  have h : printf "internal error: invalid match type" []
      = "internal error: invalid match type" := by decide
  rw [h]

/-- When `getargs` returns, the match type is `MATCH_FRONT` or one of the six
criteria. -/
theorem getargs_matchType (argv : List String) (o : Options) (h : getargs argv = .ret o) :
    o.matchType ≠ MATCH_UNKNOWN ∧ (o.matchType = MATCH_FRONT ∨ isCriterion o.matchType = true) := by
  obtain ⟨o0, _, hres⟩ := getargs_ret argv o h
  have hne := (resolve_ret (argv.headD "") o0 o (positional argv) hres).1
  refine ⟨hne, ?_⟩
  revert hne
  cases o.matchType <;> simp [isCriterion]

/-- C14. For every argument list that `getargs` accepts, the match type left
in the options is not `MATCH_UNKNOWN`: it is `MATCH_FRONT` or one of
`MATCH_ALL`, `MATCH_CREATOR`, `MATCH_NAME`, `MATCH_PID`, `MATCH_PATH`,
`MATCH_BUNDLE_ID`.  Under `MATCH_FRONT` `matchApplication` returns at line 299
after the one call `CPSGetFrontProcess`, before its loop; under the others the
`switch` of lines 338-364 never takes its `default` branch, whatever the
process.  In every world the program then ends with status 0 and nothing on
standard error, or with status 1 and a message that begins "can't", hence
with none of the messages "internal error: invalid match type", "invalid
application action", "invalid action", "invalid final action". -/
theorem internal_errors_unreachable (argv : List String) (o : Options)
    (h : getargs argv = .ret o) :
    o.matchType ≠ MATCH_UNKNOWN ∧
    (o.matchType = MATCH_FRONT ∨ isCriterion o.matchType = true) ∧
    (o.matchType = MATCH_FRONT → ∀ (w : World) (trace : List OSCall) (stdout : String),
      (matchApplication w (argv.headD "") o trace stdout).trace
        = trace ++ [.CPSGetFrontProcess]) ∧
    (o.matchType ≠ MATCH_FRONT → ∀ (w : World) (p : Process),
      matchRecord w (argv.headD "") o p
        ≠ errexit (argv.headD "") "internal error: invalid match type" []) ∧
    (∀ w : World, OrdinaryEnd (argv.headD "") (main w argv)) ∧
    (∀ (w : World) (msg : String), msg ∈ internalErrors →
      (main w argv).stderr ≠ argv.headD "" ++ ": " ++ msg ++ "\n") := by
  obtain ⟨hne, hm⟩ := getargs_matchType argv o h
  have hmain : ∀ w : World, main w argv = run w (argv.headD "") o := by
    intro w
    simp only [main, h]
  have hend : ∀ w : World, OrdinaryEnd (argv.headD "") (main w argv) := by
    intro w
    rw [hmain w]
    exact run_ordinary w (argv.headD "") o hm
  refine ⟨hne, hm, ?_, ?_, hend, ?_⟩
  · intro hf w trace stdout
    exact (matchApplication_front w (argv.headD "") o trace stdout hf).1
  · intro hf w p heq
    have hord := matchRecord_ordinary w (argv.headD "") o p (hm.resolve_left hf)
    rw [heq, errexit_invalid_match_type] at hord
    exact ordinaryEnd_not_internal (argv.headD "")
      ⟨[], "", 1, argv.headD "" ++ ": " ++ "internal error: invalid match type" ++ "\n"⟩
      (Or.inr hord) "internal error: invalid match type" (by simp [internalErrors]) rfl
  · intro w msg hmsg
    exact ordinaryEnd_not_internal (argv.headD "") (main w argv) (hend w) msg hmsg

/-- C14 at `appswitch -i com.apple.Safari`: the arguments are accepted with
the match type `MATCH_BUNDLE_ID`, one of the six criteria; the `switch` of
lines 338-364 does not take its `default` branch, and no run ends with one of
the four internal-error messages. -/
theorem internal_errors_unreachable_witness :
    getargs ["appswitch", "-i", "com.apple.Safari"]
      = .ret { OPTS with bundleID := some "com.apple.Safari", matchType := MATCH_BUNDLE_ID,
                         appAction := APP_SWITCH } ∧
    isCriterion ({ OPTS with bundleID := some "com.apple.Safari", matchType := MATCH_BUNDLE_ID,
                             appAction := APP_SWITCH } : Options).matchType = true ∧
    (∀ (w : World) (p : Process),
      matchRecord w "appswitch"
          { OPTS with bundleID := some "com.apple.Safari", matchType := MATCH_BUNDLE_ID,
                      appAction := APP_SWITCH } p
        ≠ errexit "appswitch" "internal error: invalid match type" []) ∧
    (∀ (w : World) (msg : String), msg ∈ internalErrors →
      (main w ["appswitch", "-i", "com.apple.Safari"]).stderr
        ≠ "appswitch" ++ ": " ++ msg ++ "\n") :=
  ⟨by decide, by decide,
   (internal_errors_unreachable ["appswitch", "-i", "com.apple.Safari"]
      { OPTS with bundleID := some "com.apple.Safari", matchType := MATCH_BUNDLE_ID,
                  appAction := APP_SWITCH } (by decide)).2.2.2.1 (by decide),
   (internal_errors_unreachable ["appswitch", "-i", "com.apple.Safari"]
      { OPTS with bundleID := some "com.apple.Safari", matchType := MATCH_BUNDLE_ID,
                  appAction := APP_SWITCH } (by decide)).2.2.2.2.2⟩


/-! ## C15: the record that PrintPid reads -/

/-- C15 (the code at the failing input). The arguments `appswitch -P -F` are
accepted with the action `APP_PRINT_PID` and the match type `MATCH_FRONT`;
`matchApplication` then returns the frontmost process without a call of
`CPSGetProcessInfo` and without storing a record, and `main` tests and prints
the indeterminate `UnixPID`: with 0 there the program exits with "can't get
process ID", with 4242 there it prints 4242, while the process in front,
Finder, has the identifier 100. -/
theorem print_pid_reads_unwritten_record :
    getargs ["appswitch", "-P", "-F"]
      = .ret { OPTS with matchType := MATCH_FRONT, appAction := APP_PRINT_PID,
                         finalAction := FINAL_SWITCH } ∧
    matchApplication exampleWorld "appswitch"
        { OPTS with matchType := MATCH_FRONT, appAction := APP_PRINT_PID,
                    finalAction := FINAL_SWITCH } [.InitCursor] ""
      = { trace := [.InitCursor, .CPSGetFrontProcess], stdout := "",
          result := .ret (finder.psn, none) } ∧
    main exampleWorld ["appswitch", "-P", "-F"]
      = { trace := [.InitCursor, .CPSGetFrontProcess], stdout := "", status := 1,
          stderr := "appswitch: can\x27t get process ID\n" } ∧
    main garbageWorld ["appswitch", "-P", "-F"]
      = { trace := [.InitCursor, .CPSGetFrontProcess, .CPSGetFrontProcess,
                    .CPSPostShowReq ⟨0, 1⟩, .CPSSetFrontProcess ⟨0, 1⟩],
          stdout := "4242\n", status := 0, stderr := "" } ∧
    finder.info.UnixPID = 100 := by
  decide

end AppSwitch
